import Mathlib

/-!
# XMPlus controller: user-list differ, tag builders and the monitor cycles

A shallow embedding of `service/controller/controller.go` and of the records of
`api/apimodel.go` it works on.

* Go structs become Lean structures with the same field names; `int` is `Int`,
  the unsigned integer types are `Nat`.  A slice that `reflect.DeepEqual` tells
  apart from `nil` when empty is an `Option (List _)`.
* A Go `map[UserInfo]byte` used as a set is the list of its keys, without
  repetition; the order in which `range` visits the keys is not fixed by the
  language and is a parameter (`order`).
* `fmt.Sprintf` with `%s` and `%d` is modelled on lists of characters by
  `fmtNat`, `fmtInt` and concatenation.
* The controller methods talk to the proxy engine and to the control plane
  through functions that are not part of `controller.go`.  Every such call is
  appended to a trace (`Call`), and its outcome is read from an environment
  (`Env`) that may depend on everything called before.
-/

namespace XMPlus

/-! ## Records of `api/apimodel.go` -/

/-- Record `api.UserInfo`. -/
structure UserInfo where
  UID : Int
  Email : String
  Passwd : String
  SpeedLimit : Nat
  DeviceLimit : Int
  UUID : String
  deriving DecidableEq, Repr

/-- An entry of one of the `conf` slices of the engine library that a node
descriptor carries (`TrojanFallBack`, `VlessFallBack`, `NameServerConfig`); only
its equality matters to the controller, so it is kept as its serialised text. -/
structure ConfEntry where
  text : String
  deriving DecidableEq, Repr

/-- Record `api.NodeInfo`. -/
structure NodeInfo where
  NodeType : String
  NodeID : Int
  Port : Nat
  SpeedLimit : Nat
  AlterID : Nat
  TransportProtocol : String
  Host : String
  Path : String
  EnableTLS : Bool
  TLSType : String
  CypherMethod : String
  Sniffing : Bool
  RejectUnknownSNI : Bool
  Fingerprint : String
  Quic_security : String
  Quic_key : String
  Address : String
  AllowInsecure : Bool
  Relay : Bool
  RelayNodeID : Int
  ListenIP : String
  ProxyProtocol : Bool
  CertMode : String
  CertDomain : String
  ServerKey : String
  ServiceName : String
  Header : Option (List Nat)
  EnableFallback : Bool
  DomainStrategy : String
  SendIP : String
  EnableDNS : Bool
  Flow : String
  Seed : String
  Congestion : Bool
  TrojanFallBack : Option (List ConfEntry)
  VlessFallBack : Option (List ConfEntry)
  NameServerConfig : Option (List ConfEntry)
  deriving DecidableEq, Repr

/-- Record `api.RelayNodeInfo`. -/
structure RelayNodeInfo where
  NodeType : String
  NodeID : Int
  Port : Nat
  AlterID : Nat
  TransportProtocol : String
  Host : String
  Path : String
  EnableTLS : Bool
  TLSType : String
  CypherMethod : String
  Quic_security : String
  Quic_key : String
  Address : String
  ListenIP : String
  AllowInsecure : Bool
  ProxyProtocol : Bool
  DomainStrategy : String
  SendIP : String
  EnableDNS : Bool
  ServerKey : String
  ServiceName : String
  Header : Option (List Nat)
  Flow : String
  Seed : String
  Congestion : Bool
  deriving DecidableEq, Repr

/-- Record `api.UserTraffic`. -/
structure UserTraffic where
  UID : Int
  Email : String
  Upload : Int
  Download : Int
  deriving DecidableEq, Repr

/-- Record `api.DetectRule`; the compiled pattern is kept as its source text. -/
structure DetectRule where
  ID : Int
  Pattern : String
  deriving DecidableEq, Repr

/-- Record `api.OnlineUser`. -/
structure OnlineUser where
  UID : Int
  IP : String
  deriving DecidableEq, Repr

/-- Record `api.DetectResult`. -/
structure DetectResult where
  UID : Int
  RuleID : Int
  deriving DecidableEq, Repr

/-- Record `api.NodeStatus`; the three load figures are floating point in the
source and are carried here as the text that is reported. -/
structure NodeStatus where
  CPU : String
  Mem : String
  Disk : String
  Uptime : Nat
  deriving DecidableEq, Repr

/-! ## `fmt.Sprintf` for the verbs the controller uses -/

/-- Decimal digits of `n`, least significant first; `fuel` bounds the number
of digits produced. -/
def digitsRev : Nat → Nat → List Char
  | 0, _ => []
  | fuel + 1, n =>
    Nat.digitChar (n % 10) :: (if n / 10 = 0 then [] else digitsRev fuel (n / 10))

/-- Verb `%d` on an unsigned integer. -/
def fmtNat (n : Nat) : List Char := (digitsRev (n + 1) n).reverse

/-- Verb `%d` on a signed integer. -/
def fmtInt (i : Int) : List Char :=
  if i < 0 then '-' :: fmtNat i.natAbs else fmtNat i.toNat

/-- Format `"%s_%d_%d"` as used by `buildNodeTag`. -/
def sprintfNodeTag (nodeType : String) (port : Nat) (nodeID : Int) : String :=
  String.mk (nodeType.data ++ '_' :: (fmtNat port ++ '_' :: fmtInt nodeID))

/-- Method `Controller.buildNodeTag`, as a function of the held descriptor. -/
def buildNodeTag (nodeInfo : NodeInfo) : String :=
  sprintfNodeTag nodeInfo.NodeType nodeInfo.Port nodeInfo.NodeID

/-- Method `Controller.buildRNodeTag`, as a function of the held relay
descriptor: format `"Relay_%s_%d_%d"`. -/
def buildRNodeTag (relaynodeInfo : RelayNodeInfo) : String :=
  String.mk ("Relay_".data ++ relaynodeInfo.NodeType.data ++
    '_' :: (fmtNat relaynodeInfo.Port ++ '_' :: fmtInt relaynodeInfo.NodeID))

/-- Format `"%s|%s|%d"` of `nodeInfoMonitor`, the tag of a user under a node
tag. -/
def sprintfUserTag (tag : String) (email : String) (uid : Int) : String :=
  String.mk (tag.data ++ '|' :: (email.data ++ '|' :: fmtInt uid))

/-- Modelled from the spec: `Controller.buildUserTag` is defined outside
`controller.go`; the spec has `UserTag(nodeTag, userRecord)` combine the node
tag with login and identifier, which is the format `"%s|%s|%d"` that
`nodeInfoMonitor` writes out for the users it deletes. -/
def buildUserTag (tag : String) (user : UserInfo) : String :=
  sprintfUserTag tag user.Email user.UID

/-- Format `"%s_%d"`, the name of the relay outbound of one user. -/
def sprintfRelayUserTag (tag : String) (uid : Int) : String :=
  String.mk (tag.data ++ '_' :: fmtInt uid)

/-- Format `"dokodemo-door_%s+1"`, the secondary tag of a Shadowsocks-Plugin
node. -/
def sprintfDokodemoTag (tag : String) : String :=
  String.mk ("dokodemo-door_".data ++ tag.data ++ "+1".data)

/-- The characters `%d` can produce for a digit. -/
def IsDec (c : Char) : Prop := ∃ d, d < 10 ∧ c = Nat.digitChar d

/-! ## `compareUserList` -/

/-- Statement `m[v] = _` on a map used as a set of keys. -/
def mapInsert (m : List UserInfo) (v : UserInfo) : List UserInfo :=
  if v ∈ m then m else m ++ [v]

/-- Builtin `delete(m, v)`. -/
def mapDelete (m : List UserInfo) (v : UserInfo) : List UserInfo :=
  m.filter (fun k => decide (k ≠ v))

/-- Loop 2 of `compareUserList`: each record of `new` is stored into `mAll`;
when the size of the map did not change the record goes to `set`. -/
def scanNew : List UserInfo → List UserInfo × List UserInfo → List UserInfo × List UserInfo
  | [], acc => acc
  | v :: rest, (mAll, set) =>
    let l := mAll.length
    let mAll1 := mapInsert mAll v
    if l ≠ mAll1.length then scanNew rest (mAll1, set)
    else scanNew rest (mAll1, set ++ [v])

/-- Loop 4 of `compareUserList`: the keys left in `mAll` are split by their
presence in `mSrc`. -/
def splitByOld (mSrc : List UserInfo) :
    List UserInfo → List UserInfo × List UserInfo → List UserInfo × List UserInfo
  | [], acc => acc
  | v :: rest, (deleted, added) =>
    if v ∈ mSrc then splitByOld mSrc rest (deleted ++ [v], added)
    else splitByOld mSrc rest (deleted, added ++ [v])

/-- Function `compareUserList`; `order` is the order in which the final
`range` visits the keys of `mAll`.  The result is `(deleted, added)`. -/
def compareUserList (order : List UserInfo → List UserInfo) (old new : List UserInfo) :
    List UserInfo × List UserInfo :=
  let mSrc := old.foldl mapInsert []
  let mAll := old.foldl mapInsert []
  let (mAll2, set) := scanNew new (mAll, [])
  let mAll3 := set.foldl mapDelete mAll2
  splitByOld mSrc (order mAll3) ([], [])

/-- A sample user. -/
def userA : UserInfo := ⟨1, "a@x", "pa", 0, 0, "ua"⟩

/-- A second sample user. -/
def userB : UserInfo := ⟨2, "b@x", "pb", 0, 0, "ub"⟩

/-- A third sample user. -/
def userC : UserInfo := ⟨3, "c@x", "pc", 0, 0, "uc"⟩

/-! ## Controller state, calls and their outcomes -/

/-- Fields of `Controller` that the monitor cycles read and write. -/
structure Controller where
  nodeInfo : NodeInfo
  relaynodeInfo : Option RelayNodeInfo
  Tag : String
  RelayTag : String
  Relay : Bool
  userList : List UserInfo
  deriving DecidableEq

/-- A traffic counter of the engine (`stats.Counter`), known by its name. -/
structure Counter where
  name : String
  deriving DecidableEq, Repr

/-- The user slice handed to `addUsers`: which of the `build…User` functions
made it, and from what. -/
inductive UserBuild where
  | vless (userInfo : List UserInfo) (flow : String)
  | vmess (userInfo : List UserInfo) (alterID : Nat)
  | trojan (userInfo : List UserInfo)
  | ss (userInfo : List UserInfo) (method : String)
  | ssPlugin (userInfo : List UserInfo) (method : String)
  deriving DecidableEq

/-- The user records a built slice was made from. -/
def UserBuild.userInfo : UserBuild → List UserInfo
  | .vless u _ => u
  | .vmess u _ => u
  | .trojan u => u
  | .ss u _ => u
  | .ssPlugin u _ => u

/-- One call that leaves `controller.go`: to the engine or to the control
plane.  A call that takes a built configuration records the arguments of the
builder. -/
inductive Call where
  | GetNodeInfo
  | GetUserList
  | GetRelayNodeInfo
  | GetNodeRule
  | addInbound (nodeInfo : NodeInfo) (tag : String)
  | addOutbound (nodeInfo : NodeInfo) (tag : String)
  | addRelayOutbound (relay : RelayNodeInfo) (tag uuid email key : String) (uid : Int)
  | removeInbound (tag : String)
  | removeOutbound (tag : String)
  | addUsers (users : UserBuild) (tag : String)
  | removeUsers (users : List String) (tag : String)
  | AddInboundLimiter (tag : String) (nodeSpeedLimit : Nat) (userList : List UserInfo)
  | UpdateInboundLimiter (tag : String) (updatedUserList : List UserInfo)
  | DeleteInboundLimiter (tag : String)
  | AddUsersRule (tag : String) (users : List String)
  | RemoveUsersRule (users : List String)
  | UpdateRule (tag : String) (rules : List DetectRule)
  | dnsBuild (nodeInfo : NodeInfo)
  | dnsGetInstance
  | dnsCreateObject
  | dnsAddFeature
  | GetSystemInfo
  | ReportNodeStatus (status : NodeStatus)
  | getTraffic (tag : String)
  | ReportUserTraffic (userTraffic : List UserTraffic)
  | resetTraffic (upCounterList downCounterList : List Counter)
  | GetOnlineDevice (tag : String)
  | ReportNodeOnlineUsers (onlineDevice : List OnlineUser)
  | GetDetectResult (tag : String)
  | ReportIllegal (detectResult : List DetectResult)
  deriving DecidableEq

/-- What the world outside `controller.go` answers.  Every answer may depend on
the calls made so far (the first argument). -/
structure Env where
  /-- Outcome of the start-up delay test `time.Since(c.startAt) < …`. -/
  tooEarly : Bool
  /-- Error returned by a call that returns only an error; `none` is `nil`. -/
  engine : List Call → Call → Option String
  GetNodeInfo : List Call → Except String NodeInfo
  GetUserList : List Call → Except String (List UserInfo)
  GetRelayNodeInfo : List Call → Except String RelayNodeInfo
  GetNodeRule : List Call → Except String (List DetectRule)
  /-- Error of `InboundBuilder` on a descriptor and a tag. -/
  InboundBuilder : NodeInfo → String → Option String
  /-- Error of `OutboundBuilder` on a descriptor and a tag. -/
  OutboundBuilder : NodeInfo → String → Option String
  /-- Error of `OutboundRelayBuilder`. -/
  OutboundRelayBuilder : RelayNodeInfo → String → String → String → String → Int → Option String
  /-- Test `C.Contains(shadowaead_2022.List, strings.ToLower(method))`. -/
  is2022 : String → Bool
  checkShadowsocksPassword : String → String → Except String String
  /-- Whether the object made for the DNS configuration is a feature. -/
  dnsIsFeature : Bool
  GetSystemInfo : List Call → NodeStatus × Option String
  getTraffic : List Call → String → Int × Int × Option Counter × Option Counter
  GetOnlineDevice : List Call → String → Except String (List OnlineUser)
  GetDetectResult : List Call → String → Except String (List DetectResult)
  /-- Order in which `range` visits the keys of a map. -/
  mapOrder : List UserInfo → List UserInfo

/-- The controller together with the calls made so far. -/
structure St where
  c : Controller
  trace : List Call
  deriving DecidableEq

/-- How a method leaves: `return nil`, `return err`, or a panic
(`log.Panic`). -/
inductive Ret where
  | nil
  | error (e : String)
  | panic (e : String)
  deriving DecidableEq, Repr

/-- Record a call. -/
def St.log (s : St) (k : Call) : St := { s with trace := s.trace ++ [k] }

/-- Make a call that returns only an error. -/
def St.call (env : Env) (s : St) (k : Call) : St × Option String :=
  (s.log k, env.engine s.trace k)

/-! ## Methods of `Controller` -/

/-- Method `Controller.removeOldTag`. -/
def removeOldTag (env : Env) (s : St) (oldTag : String) : St × Option String :=
  match s.call env (.removeInbound oldTag) with
  | (s1, some e) => (s1, some e)
  | (s1, none) =>
    match s1.call env (.removeOutbound oldTag) with
    | (s2, some e) => (s2, some e)
    | (s2, none) => (s2, none)

/-- Method `Controller.addInboundForSSPlugin`. -/
def addInboundForSSPlugin (env : Env) (s : St) (newNodeInfo : NodeInfo) : St × Option String :=
  let fakeNodeInfo := { newNodeInfo with TransportProtocol := "tcp", EnableTLS := false }
  match env.InboundBuilder fakeNodeInfo s.c.Tag with
  | some e => (s, some e)
  | none =>
  match s.call env (.addInbound fakeNodeInfo s.c.Tag) with
  | (s1, some e) => (s1, some e)
  | (s1, none) =>
  match env.OutboundBuilder fakeNodeInfo s1.c.Tag with
  | some e => (s1, some e)
  | none =>
  match s1.call env (.addOutbound fakeNodeInfo s1.c.Tag) with
  | (s2, some e) => (s2, some e)
  | (s2, none) =>
  let fakeNodeInfo2 :=
    { newNodeInfo with Port := (newNodeInfo.Port + 1) % 2 ^ 32, NodeType := "dokodemo-door" }
  let dokodemoTag := sprintfDokodemoTag s2.c.Tag
  match env.InboundBuilder fakeNodeInfo2 dokodemoTag with
  | some e => (s2, some e)
  | none =>
  match s2.call env (.addInbound fakeNodeInfo2 dokodemoTag) with
  | (s3, some e) => (s3, some e)
  | (s3, none) =>
  match env.OutboundBuilder fakeNodeInfo2 dokodemoTag with
  | some e => (s3, some e)
  | none =>
  match s3.call env (.addOutbound fakeNodeInfo2 dokodemoTag) with
  | (s4, some e) => (s4, some e)
  | (s4, none) => (s4, none)

/-- Method `Controller.addNewTag`. -/
def addNewTag (env : Env) (s : St) (newNodeInfo : NodeInfo) : St × Option String :=
  if newNodeInfo.NodeType ≠ "Shadowsocks-Plugin" then
    match env.InboundBuilder newNodeInfo s.c.Tag with
    | some e => (s, some e)
    | none =>
    match s.call env (.addInbound newNodeInfo s.c.Tag) with
    | (s1, some e) => (s1, some e)
    | (s1, none) =>
    if ¬ s1.c.nodeInfo.Relay then
      match env.OutboundBuilder newNodeInfo s1.c.Tag with
      | some e => (s1, some e)
      | none =>
      match s1.call env (.addOutbound newNodeInfo s1.c.Tag) with
      | (s2, some e) => (s2, some e)
      | (s2, none) => (s2, none)
    else (s1, none)
  else addInboundForSSPlugin env s newNodeInfo

/-- Method `Controller.removeRelayTag`. -/
def removeRelayTag (env : Env) (tag : String) : List UserInfo → St → St × Option String
  | [], s => (s, none)
  | user :: rest, s =>
    match s.call env (.removeOutbound (sprintfRelayUserTag tag user.UID)) with
    | (s1, some e) => (s1, some e)
    | (s1, none) => removeRelayTag env tag rest s1

/-- Method `Controller.removeRules`; its `tag` argument is not used by the
source. -/
def removeRules : List UserInfo → St → St
  | [], s => s
  | user :: rest, s => removeRules rest (s.log (.RemoveUsersRule [buildUserTag s.c.Tag user]))

/-- One round of the loop of `addNewRelayTag` once `Key` is known. -/
def addRelayUser (env : Env) (newRelayNodeInfo : RelayNodeInfo) (user : UserInfo)
    (key : String) (s : St) : St × Option String :=
  match env.OutboundRelayBuilder newRelayNodeInfo s.c.RelayTag user.UUID user.Email key
      user.UID with
  | some e => (s, some e)
  | none =>
    match s.call env (.addRelayOutbound newRelayNodeInfo s.c.RelayTag user.UUID user.Email key
        user.UID) with
    | (s1, some e) => (s1, some e)
    | (s1, none) =>
      (s1.log (.AddUsersRule (sprintfRelayUserTag s1.c.RelayTag user.UID)
        [buildUserTag s1.c.Tag user]), none)

/-- The loop of `addNewRelayTag`. -/
def addNewRelayTagLoop (env : Env) (newRelayNodeInfo : RelayNodeInfo) :
    List UserInfo → St → St × Option String
  | [], s => (s, none)
  | user :: rest, s =>
    if env.is2022 newRelayNodeInfo.CypherMethod then
      match env.checkShadowsocksPassword user.Passwd newRelayNodeInfo.CypherMethod with
      | .error _ => addNewRelayTagLoop env newRelayNodeInfo rest s
      | .ok userKey =>
        match addRelayUser env newRelayNodeInfo user
            (newRelayNodeInfo.ServerKey ++ ":" ++ userKey) s with
        | (s1, some e) => (s1, some e)
        | (s1, none) => addNewRelayTagLoop env newRelayNodeInfo rest s1
    else
      match addRelayUser env newRelayNodeInfo user user.Passwd s with
      | (s1, some e) => (s1, some e)
      | (s1, none) => addNewRelayTagLoop env newRelayNodeInfo rest s1

/-- Method `Controller.addNewRelayTag`. -/
def addNewRelayTag (env : Env) (s : St) (newRelayNodeInfo : RelayNodeInfo)
    (userInfo : List UserInfo) : St × Option String :=
  if newRelayNodeInfo.NodeType ≠ "Shadowsocks-Plugin" then
    addNewRelayTagLoop env newRelayNodeInfo userInfo s
  else (s, none)

/-- The `switch` of `addNewUser`: the users built for a node type, or the
error of the default case. -/
def buildUsers (userInfo : List UserInfo) (nodeInfo : NodeInfo) : Except String UserBuild :=
  if nodeInfo.NodeType = "Vless" then .ok (.vless userInfo nodeInfo.Flow)
  else if nodeInfo.NodeType = "Vmess" then .ok (.vmess userInfo nodeInfo.AlterID)
  else if nodeInfo.NodeType = "Trojan" then .ok (.trojan userInfo)
  else if nodeInfo.NodeType = "Shadowsocks" then .ok (.ss userInfo nodeInfo.CypherMethod)
  else if nodeInfo.NodeType = "Shadowsocks-Plugin" then
    .ok (.ssPlugin userInfo nodeInfo.CypherMethod)
  else .error ("unsupported node type: " ++ nodeInfo.NodeType)

/-- Method `Controller.addNewUser`. -/
def addNewUser (env : Env) (s : St) (userInfo : List UserInfo) (nodeInfo : NodeInfo) :
    St × Option String :=
  match buildUsers userInfo nodeInfo with
  | .error e => (s, some e)
  | .ok users =>
    match s.call env (.addUsers users s.c.Tag) with
    | (s1, some e) => (s1, some e)
    | (s1, none) => (s1, none)

/-- Method `Controller.addNewDNS`: on a failure of `dns.Build` it panics with
the message of `log.Panicf`, the three steps after it return their error. -/
def addNewDNS (env : Env) (s : St) (newNodeInfo : NodeInfo) : St × Ret :=
  match s.call env (.dnsBuild newNodeInfo) with
  | (s1, some e) =>
    (s1, .panic ("Failed to understand DNS config, Please check: " ++
      "https://xtls.github.io/config/dns.html for help: " ++ e))
  | (s1, none) =>
    match s1.call env .dnsGetInstance with
    | (s2, some e) => (s2, .error e)
    | (s2, none) =>
      match s2.call env .dnsCreateObject with
      | (s3, some e) => (s3, .error e)
      | (s3, none) =>
        if env.dnsIsFeature then
          match s3.call env .dnsAddFeature with
          | (s4, some e) => (s4, .error e)
          | (s4, none) => (s4, .nil)
        else (s3, .nil)

/-! ## `nodeInfoMonitor` -/

/-- Local variables of `nodeInfoMonitor` that outlive the step that sets
them. -/
structure Locals where
  newNodeInfo : NodeInfo
  newUserInfo : List UserInfo
  usersChanged : Bool
  updateRelay : Bool
  nodeInfoChanged : Bool
  deriving DecidableEq

/-- Result of a stretch of a method body: it falls through to the next
statement, or the method has returned. -/
inductive Step (α : Type) where
  | next (s : St) (a : α)
  | done (s : St) (r : Ret)
  deriving DecidableEq

/-- Sequencing of two stretches. -/
def Step.bind {α β : Type} (x : Step α) (f : St → α → Step β) : Step β :=
  match x with
  | .next s a => f s a
  | .done s r => .done s r

/-- Lines 196-219: the start-up delay and the two fetches. -/
def fetchStep (env : Env) (s : St) : Step Locals :=
  if env.tooEarly then .done s .nil
  else
    match env.GetNodeInfo s.trace with
    | .error _ => .done (s.log .GetNodeInfo) .nil
    | .ok newNodeInfo =>
      let s1 := s.log .GetNodeInfo
      match env.GetUserList s1.trace with
      | .error e =>
        if e = "users no change" then
          .next (s1.log .GetUserList)
            { newNodeInfo := newNodeInfo, newUserInfo := s1.c.userList,
              usersChanged := false, updateRelay := false, nodeInfoChanged := false }
        else .done (s1.log .GetUserList) .nil
      | .ok newUserInfo =>
        .next (s1.log .GetUserList)
          { newNodeInfo := newNodeInfo, newUserInfo := newUserInfo,
            usersChanged := true, updateRelay := false, nodeInfoChanged := false }

/-- Lines 221-226: the routing rules of the held users are removed when the
user list changed. -/
def removeRulesStep (s : St) (l : Locals) : Step Locals :=
  if l.usersChanged then
    .next (removeRules s.c.userList s) { l with updateRelay := true }
  else .next s l

/-- Lines 228-260: the descriptor changed. -/
def nodeChangeStep (env : Env) (s : St) (l : Locals) : Step Locals :=
  if s.c.nodeInfo ≠ l.newNodeInfo then
    let oldTag := s.c.Tag
    match removeOldTag env s oldTag with
    | (s1, some _) => .done s1 .nil
    | (s1, none) =>
      let r2 : St × Option String :=
        if s1.c.nodeInfo.NodeType = "Shadowsocks-Plugin" then
          removeOldTag env s1 (sprintfDokodemoTag s1.c.Tag)
        else (s1, none)
      match r2 with
      | (s2, some _) => .done s2 .nil
      | (s2, none) =>
        let s3 : St :=
          { s2 with c := { s2.c with nodeInfo := l.newNodeInfo, Tag := buildNodeTag l.newNodeInfo } }
        match addNewTag env s3 l.newNodeInfo with
        | (s4, some _) => .done s4 .nil
        | (s4, none) =>
          match s4.call env (.DeleteInboundLimiter oldTag) with
          | (s5, some _) => .done s5 .nil
          | (s5, none) => .next s5 { l with updateRelay := true, nodeInfoChanged := true }
  else .next s l

/-- Lines 262-269: the relay outbounds of the held users are removed. -/
def relayTeardownStep (env : Env) (s : St) (l : Locals) : Step Locals :=
  if s.c.Relay ∧ l.updateRelay then
    match removeRelayTag env s.c.RelayTag s.c.userList s with
    | (s1, some e) => .done s1 (.error e)
    | (s1, none) => .next { s1 with c := { s1.c with Relay := false } } l
  else .next s l

/-- Lines 271-289: the relay outbounds are built again. -/
def relayRebuildStep (env : Env) (s : St) (l : Locals) : Step Locals :=
  if s.c.nodeInfo.Relay ∧ l.updateRelay then
    match env.GetRelayNodeInfo s.trace with
    | .error e => .done (s.log .GetRelayNodeInfo) (.panic e)
    | .ok newRelayNodeInfo =>
      let s1 : St :=
        { c := { s.c with relaynodeInfo := some newRelayNodeInfo,
                          RelayTag := buildRNodeTag newRelayNodeInfo },
          trace := s.trace ++ [.GetRelayNodeInfo] }
      match addNewRelayTag env s1 newRelayNodeInfo l.newUserInfo with
      | (s2, some e) => .done s2 (.panic e)
      | (s2, none) => .next { s2 with c := { s2.c with Relay := true } } l
  else .next s l

/-- Lines 291-299: the detection rules are fetched and applied; an error is
only logged. -/
def ruleStep (env : Env) (s : St) (l : Locals) : Step Locals :=
  match env.GetNodeRule s.trace with
  | .error _ => .next (s.log .GetNodeRule) l
  | .ok ruleList =>
    let s1 := s.log .GetNodeRule
    if ruleList.length > 0 then .next (s1.call env (.UpdateRule s1.c.Tag ruleList)).1 l
    else .next s1 l

/-- Lines 322-347: the users deleted and added since the held list. -/
def userDiffStep (env : Env) (s : St) (l : Locals) : St :=
  if l.usersChanged then
    let (deleted, added) := compareUserList env.mapOrder s.c.userList l.newUserInfo
    let s1 : St :=
      if deleted.length > 0 then
        let deletedEmail := deleted.map (fun u => sprintfUserTag s.c.Tag u.Email u.UID)
        (s.call env (.removeUsers deletedEmail s.c.Tag)).1
      else s
    if added.length > 0 then
      let s2 := (addNewUser env s1 added s1.c.nodeInfo).1
      (s2.call env (.UpdateInboundLimiter s2.c.Tag added)).1
    else s1
  else s

/-- Lines 302-351: the users and the limiter are installed again after a change
of descriptor, or the difference of the user lists is applied; then the held
list is replaced. -/
def usersStep (env : Env) (s : St) (l : Locals) : St × Ret :=
  if l.nodeInfoChanged then
    match addNewUser env s l.newUserInfo l.newNodeInfo with
    | (s1, some _) => (s1, .nil)
    | (s1, none) =>
      match s1.call env (.AddInboundLimiter s1.c.Tag l.newNodeInfo.SpeedLimit l.newUserInfo) with
      | (s2, some _) => (s2, .nil)
      | (s2, none) =>
        match addNewDNS env s2 l.newNodeInfo with
        | (s3, .nil) => ({ s3 with c := { s3.c with userList := l.newUserInfo } }, .nil)
        | (s3, .error _) => (s3, .nil)
        | (s3, .panic e) => (s3, .panic e)
  else
    let s1 := userDiffStep env s l
    ({ s1 with c := { s1.c with userList := l.newUserInfo } }, .nil)

/-- The cycle up to and including the removal of the relay outbounds (lines
196-269). -/
def cycleToTeardown (env : Env) (s : St) : Step Locals :=
  (((fetchStep env s).bind removeRulesStep).bind (nodeChangeStep env)).bind
    (relayTeardownStep env)

/-- The cycle from the relay rebuild on (lines 271-351). -/
def cycleFromRebuild (env : Env) (s : St) (l : Locals) : St × Ret :=
  match ((relayRebuildStep env s l).bind (ruleStep env)) with
  | .next s1 l1 => usersStep env s1 l1
  | .done s1 r => (s1, r)

/-- Method `Controller.nodeInfoMonitor`: the state it leaves and how it
returns. -/
def nodeInfoMonitor (env : Env) (s : St) : St × Ret :=
  match cycleToTeardown env s with
  | .next s1 l => cycleFromRebuild env s1 l
  | .done s1 r => (s1, r)

/-! ## `userInfoMonitor` -/

/-- What the loop over the held users collects. -/
structure TrafficAcc where
  userTraffic : List UserTraffic
  upCounterList : List Counter
  downCounterList : List Counter
  deriving DecidableEq

/-- The loop of `userInfoMonitor` over the held users (lines 580-596). -/
def collectTraffic (env : Env) (tag : String) : List UserInfo → St → TrafficAcc → St × TrafficAcc
  | [], s, acc => (s, acc)
  | user :: rest, s, acc =>
    let (up, down, upCounter, downCounter) := env.getTraffic s.trace (buildUserTag tag user)
    let s1 := s.log (.getTraffic (buildUserTag tag user))
    if up > 0 ∨ down > 0 then
      let acc1 : TrafficAcc :=
        { userTraffic := acc.userTraffic ++
            [{ UID := user.UID, Email := user.Email, Upload := up, Download := down }],
          upCounterList :=
            match upCounter with
            | some k => acc.upCounterList ++ [k]
            | none => acc.upCounterList,
          downCounterList :=
            match downCounter with
            | some k => acc.downCounterList ++ [k]
            | none => acc.downCounterList }
      collectTraffic env tag rest s1 acc1
    else collectTraffic env tag rest s1 acc

/-- Lines 598-608: the batch is reported and, when that succeeded, the counters
are reset. -/
def reportTraffic (env : Env) (s : St) (acc : TrafficAcc) : St :=
  if acc.userTraffic.length > 0 then
    match s.call env (.ReportUserTraffic acc.userTraffic) with
    | (s1, some _) => s1
    | (s1, none) => s1.log (.resetTraffic acc.upCounterList acc.downCounterList)
  else s

/-- Lines 610-619: the online devices are reported. -/
def reportOnline (env : Env) (s : St) : St :=
  match env.GetOnlineDevice s.trace s.c.Tag with
  | .error _ => s.log (.GetOnlineDevice s.c.Tag)
  | .ok onlineDevice =>
    let s1 := s.log (.GetOnlineDevice s.c.Tag)
    if onlineDevice.length > 0 then (s1.call env (.ReportNodeOnlineUsers onlineDevice)).1
    else s1

/-- Lines 621-631: the hits of the detection rules are reported. -/
def reportIllegal (env : Env) (s : St) : St :=
  match env.GetDetectResult s.trace s.c.Tag with
  | .error _ => s.log (.GetDetectResult s.c.Tag)
  | .ok detectResult =>
    let s1 := s.log (.GetDetectResult s.c.Tag)
    if detectResult.length > 0 then (s1.call env (.ReportIllegal detectResult)).1
    else s1

/-- Method `Controller.userInfoMonitor`; it always returns `nil`. -/
def userInfoMonitor (env : Env) (s : St) : St × Ret :=
  let status := (env.GetSystemInfo s.trace).1
  let s1 := s.log .GetSystemInfo
  let s2 := (s1.call env (.ReportNodeStatus status)).1
  let (s3, acc) := collectTraffic env s2.c.Tag s2.c.userList s2 ⟨[], [], []⟩
  let s4 := reportTraffic env s3 acc
  let s5 := reportOnline env s4
  let s6 := reportIllegal env s5
  (s6, .nil)

/-! ## Reading a trace -/

/-- The `resetTraffic` calls of a trace, with their two counter lists. -/
def resetCalls (t : List Call) : List (List Counter × List Counter) :=
  t.filterMap fun k =>
    match k with
    | .resetTraffic up down => some (up, down)
    | _ => none

/-- One reading of `getTraffic` for a user: upload, download and the two
counters. -/
abbrev Reading := UserInfo × Int × Int × Option Counter × Option Counter

/-- The readings `getTraffic` gives for the users of a list, one after the
other, when the first is taken after the calls `t`. -/
def trafficReadings (env : Env) (tag : String) : List UserInfo → List Call → List Reading
  | [], _ => []
  | user :: rest, t =>
    (user, env.getTraffic t (buildUserTag tag user)) ::
      trafficReadings env tag rest (t ++ [.getTraffic (buildUserTag tag user)])

/-- A reading with an upload or a download greater than zero. -/
def Reading.hasTraffic (r : Reading) : Bool := decide (r.2.1 > 0 ∨ r.2.2.1 > 0)

/-- The report batch of some readings: one entry per reading with traffic, in
order. -/
def batchOf (rs : List Reading) : List UserTraffic :=
  (rs.filter Reading.hasTraffic).map fun r =>
    { UID := r.1.UID, Email := r.1.Email, Upload := r.2.1, Download := r.2.2.1 }

/-- The non-nil upload counters of the readings with traffic, in order. -/
def upCountersOf (rs : List Reading) : List Counter :=
  (rs.filter Reading.hasTraffic).filterMap fun r => r.2.2.2.1

/-- The non-nil download counters of the readings with traffic, in order. -/
def downCountersOf (rs : List Reading) : List Counter :=
  (rs.filter Reading.hasTraffic).filterMap fun r => r.2.2.2.2

/-- The calls `userInfoMonitor` has made when it reports the batch. -/
def traceAtReport (env : Env) (s : St) : List Call :=
  s.trace ++ [.GetSystemInfo, .ReportNodeStatus (env.GetSystemInfo s.trace).1] ++
    s.c.userList.map (fun u => Call.getTraffic (buildUserTag s.c.Tag u))

/-- The readings `userInfoMonitor` takes for the held users. -/
def heldReadings (env : Env) (s : St) : List Reading :=
  trafficReadings env s.c.Tag s.c.userList
    (s.trace ++ [.GetSystemInfo, .ReportNodeStatus (env.GetSystemInfo s.trace).1])

/-- The key `addNewRelayTag` gives the relay outbound of a user; `none` when
the password check of a 2022 cipher fails and the user is skipped. -/
def relayKey (env : Env) (relay : RelayNodeInfo) (user : UserInfo) : Option String :=
  if env.is2022 relay.CypherMethod then
    match env.checkShadowsocksPassword user.Passwd relay.CypherMethod with
    | .error _ => none
    | .ok userKey => some (relay.ServerKey ++ ":" ++ userKey)
  else some user.Passwd

/-- The users of a list that `addNewRelayTag` does not skip. -/
def relayKept (env : Env) (relay : RelayNodeInfo) (users : List UserInfo) : List UserInfo :=
  users.filter fun u => (relayKey env relay u).isSome

/-- The two calls that bind one user to the relay: the outbound and the
routing rule. -/
def relayCallsOf (env : Env) (relay : RelayNodeInfo) (relayTag tag : String)
    (user : UserInfo) : List Call :=
  match relayKey env relay user with
  | none => []
  | some key =>
    [.addRelayOutbound relay relayTag user.UUID user.Email key user.UID,
     .AddUsersRule (sprintfRelayUserTag relayTag user.UID) [buildUserTag tag user]]

/-- The calls that bind the users of a list to the relay, in order. -/
def relayCallsFor (env : Env) (relay : RelayNodeInfo) (relayTag tag : String) :
    List UserInfo → List Call
  | [] => []
  | user :: rest =>
    relayCallsOf env relay relayTag tag user ++ relayCallsFor env relay relayTag tag rest

/-- Modelled from the spec: `OutboundRelayBuilder` is defined outside
`controller.go`; the spec has the per-user relay outbound keyed by
`RelayUserResourceTag(relayTag, userIdentifier)`, the name `"<RelayTag>_<UID>"`
under which `removeRelayTag` removes it and `addNewRelayTag` binds the rule. -/
def relayOutboundName (relayTag : String) (uid : Int) : String :=
  sprintfRelayUserTag relayTag uid

/-- The names of the relay outbounds added in a trace. -/
def relayOutboundsAdded (t : List Call) : List String :=
  t.filterMap fun k =>
    match k with
    | .addRelayOutbound _ tag _ _ _ uid => some (relayOutboundName tag uid)
    | _ => none

/-- The routing-rule bindings added in a trace: the outbound and the user
tags sent to it. -/
def rulesAdded (t : List Call) : List (String × List String) :=
  t.filterMap fun k =>
    match k with
    | .AddUsersRule tag users => some (tag, users)
    | _ => none

/-- The tags of the outbounds removed in a trace. -/
def outboundsRemoved (t : List Call) : List String :=
  t.filterMap fun k =>
    match k with
    | .removeOutbound tag => some tag
    | _ => none

/-- The user tags whose routing rule is removed in a trace. -/
def rulesRemoved (t : List Call) : List (List String) :=
  t.filterMap fun k =>
    match k with
    | .RemoveUsersRule users => some users
    | _ => none

/-- Every engine call and every builder succeeds. -/
def AllOk (env : Env) : Prop :=
  (∀ t k, env.engine t k = none) ∧
  (∀ n tag, env.InboundBuilder n tag = none) ∧
  (∀ n tag, env.OutboundBuilder n tag = none) ∧
  (∀ r tag uuid email key uid, env.OutboundRelayBuilder r tag uuid email key uid = none)

/-- An environment in which every call succeeds: the control plane answers
with the given descriptor, user list and relay descriptor and with no rule; no
cipher is of the 2022 family; nothing has traffic. -/
def okEnv (node : NodeInfo) (users : Except String (List UserInfo)) (relay : RelayNodeInfo) :
    Env :=
  { tooEarly := false
    engine := fun _ _ => none
    GetNodeInfo := fun _ => .ok node
    GetUserList := fun _ => users
    GetRelayNodeInfo := fun _ => .ok relay
    GetNodeRule := fun _ => .ok []
    InboundBuilder := fun _ _ => none
    OutboundBuilder := fun _ _ => none
    OutboundRelayBuilder := fun _ _ _ _ _ _ => none
    is2022 := fun _ => false
    checkShadowsocksPassword := fun p _ => .ok p
    dnsIsFeature := true
    GetSystemInfo := fun _ => (⟨"", "", "", 0⟩, none)
    getTraffic := fun _ _ => (0, 0, none, none)
    GetOnlineDevice := fun _ _ => .ok []
    GetDetectResult := fun _ _ => .ok []
    mapOrder := id }

/-- A descriptor with the given identity, relay flag and speed limit, every
other field empty. -/
def sampleNode (nodeType : String) (nodeID : Int) (port : Nat) (relay : Bool)
    (speed : Nat) : NodeInfo :=
  { NodeType := nodeType, NodeID := nodeID, Port := port, SpeedLimit := speed, AlterID := 0,
    TransportProtocol := "tcp", Host := "", Path := "", EnableTLS := false, TLSType := "",
    CypherMethod := "", Sniffing := false, RejectUnknownSNI := false, Fingerprint := "",
    Quic_security := "", Quic_key := "", Address := "", AllowInsecure := false,
    Relay := relay, RelayNodeID := 0, ListenIP := "", ProxyProtocol := false,
    CertMode := "", CertDomain := "", ServerKey := "", ServiceName := "", Header := none,
    EnableFallback := false, DomainStrategy := "", SendIP := "", EnableDNS := false,
    Flow := "", Seed := "", Congestion := false, TrojanFallBack := none,
    VlessFallBack := none, NameServerConfig := none }

/-- A relay descriptor with the given identity and cipher, every other field
empty. -/
def sampleRelay (nodeType : String) (nodeID : Int) (port : Nat) (cypher : String) :
    RelayNodeInfo :=
  { NodeType := nodeType, NodeID := nodeID, Port := port, AlterID := 0,
    TransportProtocol := "tcp", Host := "", Path := "", EnableTLS := false, TLSType := "",
    CypherMethod := cypher, Quic_security := "", Quic_key := "", Address := "",
    ListenIP := "", AllowInsecure := false, ProxyProtocol := false, DomainStrategy := "",
    SendIP := "", EnableDNS := false, ServerKey := "", ServiceName := "", Header := none,
    Flow := "", Seed := "", Congestion := false }

/-! ## The calls of a cycle in which every call succeeds -/

/-- The calls of `addNewTag` for a descriptor and a tag; `relay` is the relay
flag of the held descriptor. -/
def addNewTagCalls (relay : Bool) (nd : NodeInfo) (tag : String) : List Call :=
  if nd.NodeType ≠ "Shadowsocks-Plugin" then
    .addInbound nd tag :: (if relay then [] else [.addOutbound nd tag])
  else
    [.addInbound { nd with TransportProtocol := "tcp", EnableTLS := false } tag,
     .addOutbound { nd with TransportProtocol := "tcp", EnableTLS := false } tag,
     .addInbound { nd with Port := (nd.Port + 1) % 2 ^ 32, NodeType := "dokodemo-door" }
       (sprintfDokodemoTag tag),
     .addOutbound { nd with Port := (nd.Port + 1) % 2 ^ 32, NodeType := "dokodemo-door" }
       (sprintfDokodemoTag tag)]

/-- The calls of the change from the held descriptor to `nd`. -/
def nodeChangeCalls (c : Controller) (nd : NodeInfo) : List Call :=
  [.removeInbound c.Tag, .removeOutbound c.Tag] ++
    (if c.nodeInfo.NodeType = "Shadowsocks-Plugin" then
      [.removeInbound (sprintfDokodemoTag c.Tag), .removeOutbound (sprintfDokodemoTag c.Tag)]
     else []) ++
    addNewTagCalls nd.Relay nd (buildNodeTag nd) ++ [.DeleteInboundLimiter c.Tag]

/-- The user list the cycle works with and whether it counts as changed: the
answer of `GetUserList`, or the held list on any error (the cycle goes on only
when the error is "users no change"). -/
def fetchedUsers (env : Env) (s : St) : List UserInfo × Bool :=
  match env.GetUserList (s.trace ++ [.GetNodeInfo]) with
  | .ok users => (users, true)
  | .error _ => (s.c.userList, false)

/-- Whether the cycle marks the relay for a rebuild: the user list changed or
the descriptor `nd` differs from the held one. -/
def rebuildMarked (env : Env) (s : St) (nd : NodeInfo) : Bool :=
  (fetchedUsers env s).2 || decide (s.c.nodeInfo ≠ nd)

/-- The calls of lines 196-269 when the descriptor `nd` is fetched. -/
def teardownCalls (env : Env) (s : St) (nd : NodeInfo) : List Call :=
  [.GetNodeInfo, .GetUserList] ++
    (if (fetchedUsers env s).2 then
      s.c.userList.map (fun u => Call.RemoveUsersRule [buildUserTag s.c.Tag u])
     else []) ++
    (if s.c.nodeInfo ≠ nd then nodeChangeCalls s.c nd else []) ++
    (if s.c.Relay ∧ rebuildMarked env s nd then
      s.c.userList.map (fun u => Call.removeOutbound (sprintfRelayUserTag s.c.RelayTag u.UID))
     else [])

/-- The controller after lines 196-269 when the descriptor `nd` is fetched. -/
def teardownController (env : Env) (s : St) (nd : NodeInfo) : Controller :=
  { s.c with
    nodeInfo := nd
    Tag := if s.c.nodeInfo ≠ nd then buildNodeTag nd else s.c.Tag
    Relay := if s.c.Relay ∧ rebuildMarked env s nd then false else s.c.Relay }

/-- The local variables after lines 196-269. -/
def teardownLocals (env : Env) (s : St) (nd : NodeInfo) : Locals :=
  { newNodeInfo := nd
    newUserInfo := (fetchedUsers env s).1
    usersChanged := (fetchedUsers env s).2
    updateRelay := rebuildMarked env s nd
    nodeInfoChanged := decide (s.c.nodeInfo ≠ nd) }

/-- The calls of the relay rebuild for a relay descriptor and a user list. -/
def rebuildCalls (env : Env) (relay : RelayNodeInfo) (tag : String) (users : List UserInfo) :
    List Call :=
  .GetRelayNodeInfo ::
    (if relay.NodeType ≠ "Shadowsocks-Plugin" then
      relayCallsFor env relay (buildRNodeTag relay) tag users
     else [])

/-- The calls of the rule step. -/
def ruleCalls (env : Env) (s : St) : List Call :=
  .GetNodeRule ::
    (match env.GetNodeRule s.trace with
     | .ok ruleList => if ruleList.length > 0 then [.UpdateRule s.c.Tag ruleList] else []
     | .error _ => [])

/-! ## Kinds of calls -/

/-- A state reached from another by making only calls with the property `P`. -/
def Extends (P : Call → Prop) (s s1 : St) : Prop :=
  ∃ extra, s1.trace = s.trace ++ extra ∧ ∀ k ∈ extra, P k

/-- The calls made by `addNewUser`, `addNewDNS` and the limiter and user
updates of the last step of the cycle. -/
def Call.isUserCall : Call → Bool
  | .addUsers _ _ => true
  | .removeUsers _ _ => true
  | .AddInboundLimiter _ _ _ => true
  | .UpdateInboundLimiter _ _ => true
  | .dnsBuild _ => true
  | .dnsGetInstance => true
  | .dnsCreateObject => true
  | .dnsAddFeature => true
  | _ => false

/-- The calls of the fetches, of the relay teardown and rebuild and of the rule
step. -/
def Call.isQuiet : Call → Bool
  | .GetNodeInfo => true
  | .GetUserList => true
  | .GetRelayNodeInfo => true
  | .GetNodeRule => true
  | .addRelayOutbound _ _ _ _ _ _ => true
  | .removeOutbound _ => true
  | .AddUsersRule _ _ => true
  | .RemoveUsersRule _ => true
  | .UpdateRule _ _ => true
  | _ => false

/-- The calls by which lines 322-347 apply the difference between the held
user list and the fetched one. -/
def userDiffCalls (order : List UserInfo → List UserInfo) (c : Controller)
    (newUserInfo : List UserInfo) : List Call :=
  (if (compareUserList order c.userList newUserInfo).1 ≠ [] then
    [Call.removeUsers
      ((compareUserList order c.userList newUserInfo).1.map
        (fun u => sprintfUserTag c.Tag u.Email u.UID)) c.Tag]
   else []) ++
  (if (compareUserList order c.userList newUserInfo).2 ≠ [] then
    (match buildUsers (compareUserList order c.userList newUserInfo).2 c.nodeInfo with
     | .ok b => [Call.addUsers b c.Tag]
     | .error _ => []) ++
    [Call.UpdateInboundLimiter c.Tag (compareUserList order c.userList newUserInfo).2]
   else [])

/-- The tag, the descriptor and the user list of two states agree. -/
def Same (s s1 : St) : Prop :=
  s1.c.Tag = s.c.Tag ∧ s1.c.nodeInfo = s.c.nodeInfo ∧ s1.c.userList = s.c.userList

/-- A stretch of the cycle that makes quiet calls only, keeps the tag, the
descriptor, the user list and the local variables, and returns, if it does,
with an error or a panic. -/
def QuietStep (s : St) (l : Locals) (x : Step Locals) : Prop :=
  match x with
  | .next s1 l1 => l1 = l ∧ Same s s1 ∧ Extends (fun k => k.isQuiet = true) s s1
  | .done s1 r => r ≠ .nil ∧ Same s s1 ∧ Extends (fun k => k.isQuiet = true) s s1

/-- The `removeUsers` calls of a trace: the user tags and the node tag. -/
def removeUsersCalls (t : List Call) : List (List String × String) :=
  t.filterMap fun k =>
    match k with
    | .removeUsers users tag => some (users, tag)
    | _ => none

/-- The `addUsers` calls of a trace: the users built and the node tag. -/
def addUsersCalls (t : List Call) : List (UserBuild × String) :=
  t.filterMap fun k =>
    match k with
    | .addUsers users tag => some (users, tag)
    | _ => none

/-- The `UpdateInboundLimiter` calls of a trace. -/
def updateLimiterCalls (t : List Call) : List (String × List UserInfo) :=
  t.filterMap fun k =>
    match k with
    | .UpdateInboundLimiter tag users => some (tag, users)
    | _ => none

/-- The calls that rebuild a node: `AddInboundLimiter`, `DeleteInboundLimiter`,
`addInbound` and `removeInbound`. -/
def Call.isNodeRebuild : Call → Bool
  | .AddInboundLimiter _ _ _ => true
  | .DeleteInboundLimiter _ => true
  | .addInbound _ _ => true
  | .removeInbound _ => true
  | _ => false

/-! ## The engine, as far as the cycle changes it -/

/-- The engine state the reconciliation is about: the tags of the inbounds, of
the outbounds and of the limiters, and the credentials as pairs of a node tag
and a user tag. -/
structure Engine where
  inbounds : List String
  outbounds : List String
  limiters : List String
  credentials : List (String × String)
  deriving DecidableEq

/-- Modelled from the spec: the engine methods behind the calls (`addInbound`,
`removeInbound`, `addOutbound`, `removeOutbound`, `addUsers`, `removeUsers`,
`AddInboundLimiter`, `DeleteInboundLimiter`) are defined outside
`controller.go`; by the Engine Interface of the spec a successful add call
installs the resource under its tag, a successful remove call takes it away, and
a credential is keyed by the UserTag under the node tag.  Calls that concern no
inbound, outbound, limiter or credential leave the state as it is. -/
def Engine.apply (e : Engine) : Call → Engine
  | .addInbound _ tag => { e with inbounds := tag :: e.inbounds }
  | .removeInbound tag => { e with inbounds := e.inbounds.filter (fun t => t ≠ tag) }
  | .addOutbound _ tag => { e with outbounds := tag :: e.outbounds }
  | .addRelayOutbound _ tag _ _ _ uid =>
    { e with outbounds := relayOutboundName tag uid :: e.outbounds }
  | .removeOutbound tag => { e with outbounds := e.outbounds.filter (fun t => t ≠ tag) }
  | .addUsers users tag =>
    { e with credentials :=
        users.userInfo.map (fun u => (tag, buildUserTag tag u)) ++ e.credentials }
  | .removeUsers users tag =>
    { e with credentials := e.credentials.filter (fun p => ¬ (p.1 = tag ∧ p.2 ∈ users)) }
  | .AddInboundLimiter tag _ _ => { e with limiters := tag :: e.limiters }
  | .DeleteInboundLimiter tag => { e with limiters := e.limiters.filter (fun t => t ≠ tag) }
  | _ => e

/-- The engine after a sequence of successful calls. -/
def Engine.run (e : Engine) (t : List Call) : Engine := t.foldl Engine.apply e

/-- The calls a cycle adds to the trace. -/
def cycleCalls (env : Env) (s : St) : List Call :=
  (nodeInfoMonitor env s).1.trace.drop s.trace.length

/-- The node types for which `addNewUser` builds users. -/
def supportedTypes : List String :=
  ["Vless", "Vmess", "Trojan", "Shadowsocks", "Shadowsocks-Plugin"]

/-- The calls of `addNewDNS` when all of them succeed. -/
def dnsCalls (env : Env) (nd : NodeInfo) : List Call :=
  [.dnsBuild nd, .dnsGetInstance, .dnsCreateObject] ++
    (if env.dnsIsFeature then [.dnsAddFeature] else [])

/-- The held tags are the ones the controller builds: Tag from the held
descriptor and, while Relay is on, RelayTag from a relay descriptor. -/
def Controller.WellTagged (c : Controller) : Prop :=
  c.Tag = buildNodeTag c.nodeInfo ∧ (c.Relay = true → ∃ r, c.RelayTag = buildRNodeTag r)

/-! ## The teardown of the old tags -/

/-- The state a stretch of a method body leaves, whether it falls through or
returns. -/
def Step.st {α : Type} : Step α → St
  | .next s _ => s
  | .done s _ => s

/-- The cycle from the relay teardown on (lines 262-351). -/
def cycleFromTeardown (env : Env) (s : St) (l : Locals) : St × Ret :=
  match relayTeardownStep env s l with
  | .next s1 l1 => cycleFromRebuild env s1 l1
  | .done s1 r => (s1, r)

/-- The tags of the inbounds removed in a trace. -/
def inboundsRemoved (t : List Call) : List String :=
  t.filterMap fun k =>
    match k with
    | .removeInbound tag => some tag
    | _ => none

/-- The tags of the inbounds added in a trace. -/
def inboundsAdded (t : List Call) : List String :=
  t.filterMap fun k =>
    match k with
    | .addInbound _ tag => some tag
    | _ => none

/-- The calls `removeInbound` and `removeOutbound`. -/
def Call.isRemoval : Call → Bool
  | .removeInbound _ => true
  | .removeOutbound _ => true
  | _ => false

/-- A call the cycle can make once the old tags are torn down: no removal,
apart from the removal of the relay outbound of a user under a relay tag. -/
def AfterRemoval (relayTag : String) (k : Call) : Prop :=
  k.isRemoval = false ∨ ∃ uid, k = .removeOutbound (sprintfRelayUserTag relayTag uid)

/-- The state in which the cycle compares the fetched descriptor with the held
one (line 230): the two fetches are made and, when the user list changed, the
routing rules of the held users are removed. -/
def stateAtNodeChange (env : Env) (s : St) : St :=
  ⟨s.c, s.trace ++ [.GetNodeInfo, .GetUserList] ++
    (if (fetchedUsers env s).2 then
      s.c.userList.map (fun u => Call.RemoveUsersRule [buildUserTag s.c.Tag u])
     else [])⟩

/-- The removal calls of lines 232-244 when all of them succeed: the old tag
and, for a held descriptor of type `Shadowsocks-Plugin`, its secondary tag. -/
def oldTagRemovals (c : Controller) : List Call :=
  [.removeInbound c.Tag, .removeOutbound c.Tag] ++
    (if c.nodeInfo.NodeType = "Shadowsocks-Plugin" then
      [.removeInbound (sprintfDokodemoTag c.Tag), .removeOutbound (sprintfDokodemoTag c.Tag)]
     else [])

/-! ## The cycle up to the relay rebuild -/

/-- The calls of lines 196-269: the two fetches, the removal of routing rules,
the calls of a change of descriptor and the removal of outbounds. -/
def Call.isPreRebuild : Call → Bool
  | .GetNodeInfo => true
  | .GetUserList => true
  | .RemoveUsersRule _ => true
  | .removeInbound _ => true
  | .removeOutbound _ => true
  | .addInbound _ _ => true
  | .addOutbound _ _ => true
  | .DeleteInboundLimiter _ => true
  | _ => false

/-- The cycle up to and including the change of descriptor (lines 196-260). -/
def cycleToNodeChange (env : Env) (s : St) : Step Locals :=
  ((fetchStep env s).bind removeRulesStep).bind (nodeChangeStep env)

/-- The state in which the rebuild step calls `addNewRelayTag` (line 283): the
relay descriptor is fetched and stored and RelayTag is built from it. -/
def relayAdopted (s : St) (relay : RelayNodeInfo) : St :=
  { c := { s.c with relaynodeInfo := some relay, RelayTag := buildRNodeTag relay },
    trace := s.trace ++ [.GetRelayNodeInfo] }

/-- The names of the relay outbounds `addNewRelayTag` builds for a relay
descriptor and a user list when it returns without error. -/
def relayNamesFor (env : Env) (relay : RelayNodeInfo) (users : List UserInfo) : List String :=
  if relay.NodeType ≠ "Shadowsocks-Plugin" then
    (relayKept env relay users).map (fun u => relayOutboundName (buildRNodeTag relay) u.UID)
  else []

/-- A controller state with an empty trace. -/
def sampleSt (node : NodeInfo) (relayTag : String) (relay : Bool) (users : List UserInfo) : St :=
  { c := { nodeInfo := node, relaynodeInfo := none, Tag := buildNodeTag node,
           RelayTag := relayTag, Relay := relay, userList := users },
    trace := [] }

/-- The environment `okEnv` with a 2022 cipher whose password check fails for
the password of `userA` only. -/
def strictKeyEnv (node : NodeInfo) (users : Except String (List UserInfo))
    (relay : RelayNodeInfo) : Env :=
  { okEnv node users relay with
    is2022 := fun _ => true
    checkShadowsocksPassword := fun p _ => if p = "pa" then .error "bad key" else .ok p }

/-- The environment `base` in which the engine call `bad` fails, whenever it is
made. -/
def failsOn (bad : Call) (base : Env) : Env :=
  { base with engine := fun _ k => if k = bad then some "failed" else none }

/-- The environment `base` in which the control plane does not answer the fetch
of the relay descriptor. -/
def relayFetchFails (base : Env) : Env :=
  { base with GetRelayNodeInfo := fun _ => .error "unreachable" }

/-- The environment `base` in which `InboundBuilder` fails on every
descriptor. -/
def inboundBuilderFails (base : Env) : Env :=
  { base with InboundBuilder := fun _ _ => some "unsupported" }

/-- An engine that holds an inbound, an outbound and a limiter under one
tag. -/
def sampleEngine (tag : String) : Engine :=
  { inbounds := [tag], outbounds := [tag], limiters := [tag], credentials := [] }

/-- A held node of type `Shadowsocks-Plugin`, with its two listeners
installed. -/
def pluginSt (users : List UserInfo) : St :=
  sampleSt (sampleNode "Shadowsocks-Plugin" 7 443 false 0) "" false users

/-! # Theorems -/

/-! ## Decimal rendering -/

theorem digitChar_inj {a b : Nat} (ha : a < 10) (hb : b < 10)
    (h : Nat.digitChar a = Nat.digitChar b) : a = b := by
  interval_cases a <;> interval_cases b <;> first | rfl | (exact absurd h (by decide))

theorem IsDec.ne_sep {c : Char} (h : IsDec c) :
    c ≠ '_' ∧ c ≠ '-' ∧ c ≠ '+' ∧ c ≠ '|' := by
  obtain ⟨d, hd, rfl⟩ := h
  interval_cases d <;> decide

theorem digitsRev_isDec (fuel n : Nat) : ∀ c ∈ digitsRev fuel n, IsDec c := by
  induction fuel generalizing n with
  | zero => simp [digitsRev]
  | succ f ih =>
    intro c hc
    simp only [digitsRev, List.mem_cons] at hc
    rcases hc with rfl | hc
    · exact ⟨n % 10, Nat.mod_lt _ (by decide), rfl⟩
    · split at hc
      · simp at hc
      · exact ih _ c hc

theorem digitsRev_ne_nil (fuel n : Nat) : digitsRev (fuel + 1) n ≠ [] := by
  simp [digitsRev]

theorem digitsRev_inj (f g n m : Nat) (hf : n < f) (hg : m < g)
    (h : digitsRev f n = digitsRev g m) : n = m := by
  induction f generalizing g n m with
  | zero => omega
  | succ f ih =>
    cases g with
    | zero => omega
    | succ g =>
      simp only [digitsRev, List.cons.injEq] at h
      obtain ⟨h0, ht⟩ := h
      have hmod : n % 10 = m % 10 :=
        digitChar_inj (Nat.mod_lt _ (by decide)) (Nat.mod_lt _ (by decide)) h0
      by_cases hn : n / 10 = 0
      · by_cases hm : m / 10 = 0
        · omega
        · rw [if_pos hn, if_neg hm] at ht
          cases g with
          | zero => omega
          | succ g => exact absurd ht.symm (digitsRev_ne_nil g _)
      · by_cases hm : m / 10 = 0
        · rw [if_neg hn, if_pos hm] at ht
          cases f with
          | zero => omega
          | succ f => exact absurd ht (digitsRev_ne_nil f _)
        · rw [if_neg hn, if_neg hm] at ht
          have := ih g (n / 10) (m / 10) (by omega) (by omega) ht
          omega

theorem fmtNat_injective {n m : Nat} (h : fmtNat n = fmtNat m) : n = m := by
  unfold fmtNat at h
  exact digitsRev_inj _ _ n m (by omega) (by omega) (List.reverse_injective h)

theorem fmtNat_isDec (n : Nat) : ∀ c ∈ fmtNat n, IsDec c := by
  intro c hc
  exact digitsRev_isDec _ _ c (by simpa [fmtNat] using hc)

theorem fmtNat_ne_nil (n : Nat) : fmtNat n ≠ [] := by
  simp [fmtNat, digitsRev]

theorem fmtNat_head_ne_minus (n : Nat) (rest : List Char) : fmtNat n ≠ '-' :: rest := by
  intro h
  have := fmtNat_isDec n '-' (by rw [h]; simp)
  exact this.ne_sep.2.1 rfl

theorem fmtInt_injective {i j : Int} (h : fmtInt i = fmtInt j) : i = j := by
  unfold fmtInt at h
  by_cases hi : i < 0 <;> by_cases hj : j < 0
  · rw [if_pos hi, if_pos hj] at h
    have := fmtNat_injective (List.cons.inj h).2
    omega
  · rw [if_pos hi, if_neg hj] at h
    exact absurd h.symm (fmtNat_head_ne_minus _ _)
  · rw [if_neg hi, if_pos hj] at h
    exact absurd h (fmtNat_head_ne_minus _ _)
  · rw [if_neg hi, if_neg hj] at h
    have := fmtNat_injective h
    omega

theorem fmtNat_no_underscore (n : Nat) : '_' ∉ fmtNat n := fun h =>
  (fmtNat_isDec n _ h).ne_sep.1 rfl

theorem fmtInt_no_underscore (i : Int) : '_' ∉ fmtInt i := by
  unfold fmtInt
  split
  · simp only [List.mem_cons, not_or]
    exact ⟨by decide, fmtNat_no_underscore _⟩
  · exact fmtNat_no_underscore _

/-- A string is cut in one way only at a separator that its tail does not
contain. -/
theorem append_sep_inj {c : Char} {a b s t : List Char} (hs : c ∉ s) (ht : c ∉ t)
    (h : a ++ c :: s = b ++ c :: t) : a = b ∧ s = t := by
  rcases List.append_eq_append_iff.1 h with ⟨x, hb, hx⟩ | ⟨x, ha, hx⟩
  · cases x with
    | nil => simp at hx hb; exact ⟨hb.symm, hx⟩
    | cons y x =>
      simp only [List.cons_append, List.cons.injEq] at hx
      exact absurd (hx.2 ▸ (by simp : c ∈ x ++ c :: t)) hs
  · cases x with
    | nil => simp at hx ha; exact ⟨ha, hx.symm⟩
    | cons y x =>
      simp only [List.cons_append, List.cons.injEq] at hx
      exact absurd (hx.2 ▸ (by simp : c ∈ x ++ c :: s)) ht

theorem sprintfNodeTag_inj {t1 t2 : String} {p1 p2 : Nat} {i1 i2 : Int}
    (h : sprintfNodeTag t1 p1 i1 = sprintfNodeTag t2 p2 i2) :
    t1 = t2 ∧ p1 = p2 ∧ i1 = i2 := by
  unfold sprintfNodeTag at h
  have h1 : t1.data ++ '_' :: (fmtNat p1 ++ '_' :: fmtInt i1)
      = t2.data ++ '_' :: (fmtNat p2 ++ '_' :: fmtInt i2) := congrArg String.data h
  have h2 : (t1.data ++ '_' :: fmtNat p1) ++ '_' :: fmtInt i1
      = (t2.data ++ '_' :: fmtNat p2) ++ '_' :: fmtInt i2 := by
    simpa using h1
  obtain ⟨h3, h4⟩ := append_sep_inj (fmtInt_no_underscore _) (fmtInt_no_underscore _) h2
  obtain ⟨h5, h6⟩ := append_sep_inj (fmtNat_no_underscore _) (fmtNat_no_underscore _) h3
  exact ⟨String.ext h5, fmtNat_injective h6, fmtInt_injective h4⟩

theorem fmtInt_chars (i : Int) : ∀ c ∈ fmtInt i, c ≠ '+' ∧ c ≠ '_' := by
  intro c hc
  unfold fmtInt at hc
  split at hc
  · rcases List.mem_cons.1 hc with rfl | hc
    · exact ⟨by decide, by decide⟩
    · exact ⟨(fmtNat_isDec _ c hc).ne_sep.2.2.1, (fmtNat_isDec _ c hc).ne_sep.1⟩
  · exact ⟨(fmtNat_isDec _ c hc).ne_sep.2.2.1, (fmtNat_isDec _ c hc).ne_sep.1⟩

theorem fmtInt_ne_nil (i : Int) : fmtInt i ≠ [] := by
  unfold fmtInt
  split
  · simp
  · exact fmtNat_ne_nil _

/-- The secondary tag of a Shadowsocks-Plugin node is the tag of no node: a
node tag does not end in `+` and a digit. -/
theorem sprintfDokodemoTag_ne_buildNodeTag (t : String) (d : NodeInfo) :
    sprintfDokodemoTag t ≠ buildNodeTag d := by
  intro h
  have h1 : "dokodemo-door_".data ++ t.data ++ ['+', '1'] =
      d.NodeType.data ++ '_' :: (fmtNat d.Port ++ '_' :: fmtInt d.NodeID) :=
    congrArg String.data h
  have h2 := congrArg List.reverse h1
  simp only [List.reverse_append, List.reverse_cons, List.reverse_nil, List.nil_append,
    List.singleton_append, List.cons_append, List.append_assoc] at h2
  rcases hI : (fmtInt d.NodeID).reverse with _ | ⟨c, cs⟩
  · exact fmtInt_ne_nil d.NodeID (List.reverse_eq_nil_iff.1 hI)
  · rw [hI] at h2
    simp only [List.cons_append, List.cons.injEq] at h2
    obtain ⟨-, h3⟩ := h2
    cases cs with
    | nil =>
      simp only [List.nil_append, List.cons.injEq] at h3
      exact absurd h3.1 (by decide)
    | cons c2 cs2 =>
      simp only [List.cons_append, List.cons.injEq] at h3
      have hc2 : c2 ∈ fmtInt d.NodeID := by
        rw [← List.mem_reverse, hI]
        simp
      exact (fmtInt_chars _ c2 hc2).1 h3.1.symm

/-- The tag of a node of a supported type is the name of no relay outbound:
relay tags begin with `Relay_`. -/
theorem buildNodeTag_ne_relayName (nd : NodeInfo) (r : RelayNodeInfo) (uid : Int)
    (hs : nd.NodeType ∈ ["Vless", "Vmess", "Trojan", "Shadowsocks", "Shadowsocks-Plugin"]) :
    buildNodeTag nd ≠ sprintfRelayUserTag (buildRNodeTag r) uid := by
  intro h
  have h1 : nd.NodeType.data ++ '_' :: (fmtNat nd.Port ++ '_' :: fmtInt nd.NodeID) =
      ("Relay_".data ++ r.NodeType.data ++
        '_' :: (fmtNat r.Port ++ '_' :: fmtInt r.NodeID)) ++ '_' :: fmtInt uid :=
    congrArg String.data h
  have hR : "Relay_".data = ['R', 'e', 'l', 'a', 'y', '_'] := by decide
  have h2 := congrArg List.head? h1
  rw [hR] at h2
  simp only [List.mem_cons, List.mem_singleton, List.not_mem_nil, or_false] at hs
  rcases hs with hs | hs | hs | hs | hs
  · have e : "Vless".data = ['V', 'l', 'e', 's', 's'] := by decide
    rw [hs, e] at h2
    simp at h2
  · have e : "Vmess".data = ['V', 'm', 'e', 's', 's'] := by decide
    rw [hs, e] at h2
    simp at h2
  · have e : "Trojan".data = ['T', 'r', 'o', 'j', 'a', 'n'] := by decide
    rw [hs, e] at h2
    simp at h2
  · have e : "Shadowsocks".data = ['S', 'h', 'a', 'd', 'o', 'w', 's', 'o', 'c', 'k', 's'] := by
      decide
    rw [hs, e] at h2
    simp at h2
  · have e : "Shadowsocks-Plugin".data =
        ['S', 'h', 'a', 'd', 'o', 'w', 's', 'o', 'c', 'k', 's', '-', 'P', 'l', 'u', 'g', 'i', 'n'] := by
      decide
    rw [hs, e] at h2
    simp at h2

/-! ## The differ -/

theorem mem_mapInsert {m : List UserInfo} {v u : UserInfo} :
    u ∈ mapInsert m v ↔ u ∈ m ∨ u = v := by
  unfold mapInsert
  split
  · constructor
    · exact Or.inl
    · rintro (h | rfl)
      · exact h
      · assumption
  · simp

theorem length_mapInsert_ne {m : List UserInfo} {v : UserInfo} :
    m.length ≠ (mapInsert m v).length ↔ v ∉ m := by
  unfold mapInsert
  split <;> simp [*]

theorem mem_foldl_mapInsert (old m : List UserInfo) (u : UserInfo) :
    u ∈ old.foldl mapInsert m ↔ u ∈ m ∨ u ∈ old := by
  induction old generalizing m with
  | nil => simp
  | cons v rest ih =>
    simp only [List.foldl_cons, ih, mem_mapInsert, List.mem_cons]
    tauto

theorem mem_mapDelete {m : List UserInfo} {v u : UserInfo} :
    u ∈ mapDelete m v ↔ u ∈ m ∧ u ≠ v := by
  simp [mapDelete]

theorem mem_foldl_mapDelete (set m : List UserInfo) (u : UserInfo) :
    u ∈ set.foldl mapDelete m ↔ u ∈ m ∧ u ∉ set := by
  induction set generalizing m with
  | nil => simp
  | cons v rest ih =>
    simp only [List.foldl_cons, ih, mem_mapDelete, List.mem_cons]
    tauto

theorem mem_scanNew_fst (new mAll set : List UserInfo) (u : UserInfo) :
    u ∈ (scanNew new (mAll, set)).1 ↔ u ∈ mAll ∨ u ∈ new := by
  induction new generalizing mAll set with
  | nil => simp [scanNew]
  | cons v rest ih =>
    simp only [scanNew]
    split <;> simp only [ih, mem_mapInsert, List.mem_cons] <;> tauto

/-- What loop 2 collects in `set`: the records of `new` that were already a key
when they were stored, because `old` has them or because `new` repeats them. -/
theorem mem_scanNew_snd (new mAll set : List UserInfo) (u : UserInfo) :
    u ∈ (scanNew new (mAll, set)).2 ↔
      u ∈ set ∨ (u ∈ mAll ∧ u ∈ new) ∨ 2 ≤ new.count u := by
  induction new generalizing mAll set with
  | nil => simp [scanNew]
  | cons v rest ih =>
    simp only [scanNew]
    by_cases hv : v ∈ mAll
    · have hlen : ¬ (mAll.length ≠ (mapInsert mAll v).length) := by
        rw [length_mapInsert_ne]; exact not_not.2 hv
      rw [if_neg hlen, ih]
      simp only [mem_mapInsert, List.mem_append, List.mem_singleton, List.mem_cons,
        List.count_cons]
      by_cases huv : u = v
      · subst huv
        simp [hv]
      · have hvu : ¬ (v = u) := fun h => huv h.symm
        simp [huv, hvu]
    · have hlen : mAll.length ≠ (mapInsert mAll v).length := length_mapInsert_ne.2 hv
      rw [if_pos hlen, ih]
      simp only [mem_mapInsert, List.mem_cons, List.count_cons]
      by_cases huv : u = v
      · subst huv
        simp only [hv, true_and, or_true, false_and, false_or, beq_self_eq_true, if_true]
        have : u ∈ rest ↔ 1 ≤ rest.count u := by
          rw [Nat.succ_le_iff, List.count_pos_iff]
        rw [this]
        constructor
        · rintro (h | h | h)
          · exact Or.inl h
          · right; omega
          · right; omega
        · rintro (h | h)
          · exact Or.inl h
          · right; left; omega
      · have hvu : ¬ (v = u) := fun h => huv h.symm
        simp [huv, hvu]

theorem mem_splitByOld_fst (mSrc l d a : List UserInfo) (u : UserInfo) :
    u ∈ (splitByOld mSrc l (d, a)).1 ↔ u ∈ d ∨ (u ∈ l ∧ u ∈ mSrc) := by
  induction l generalizing d a with
  | nil => simp [splitByOld]
  | cons v rest ih =>
    simp only [splitByOld]
    split
    · rw [ih]
      simp only [List.mem_append, List.mem_cons, List.not_mem_nil, or_false]
      constructor
      · rintro ((h | rfl) | h)
        · exact Or.inl h
        · exact Or.inr ⟨Or.inl rfl, by assumption⟩
        · exact Or.inr ⟨Or.inr h.1, h.2⟩
      · rintro (h | ⟨rfl | h, h2⟩)
        · exact Or.inl (Or.inl h)
        · exact Or.inl (Or.inr rfl)
        · exact Or.inr ⟨h, h2⟩
    · rw [ih]
      simp only [List.mem_cons]
      constructor
      · rintro (h | h)
        · exact Or.inl h
        · exact Or.inr ⟨Or.inr h.1, h.2⟩
      · rintro (h | ⟨rfl | h, h2⟩)
        · exact Or.inl h
        · contradiction
        · exact Or.inr ⟨h, h2⟩

theorem mem_splitByOld_snd (mSrc l d a : List UserInfo) (u : UserInfo) :
    u ∈ (splitByOld mSrc l (d, a)).2 ↔ u ∈ a ∨ (u ∈ l ∧ u ∉ mSrc) := by
  induction l generalizing d a with
  | nil => simp [splitByOld]
  | cons v rest ih =>
    simp only [splitByOld]
    split
    · rw [ih]
      simp only [List.mem_cons]
      constructor
      · rintro (h | h)
        · exact Or.inl h
        · exact Or.inr ⟨Or.inr h.1, h.2⟩
      · rintro (h | ⟨rfl | h, h2⟩)
        · exact Or.inl h
        · contradiction
        · exact Or.inr ⟨h, h2⟩
    · rw [ih]
      simp only [List.mem_append, List.mem_cons, List.not_mem_nil, or_false]
      constructor
      · rintro ((h | rfl) | h)
        · exact Or.inl h
        · exact Or.inr ⟨Or.inl rfl, by assumption⟩
        · exact Or.inr ⟨Or.inr h.1, h.2⟩
      · rintro (h | ⟨rfl | h, h2⟩)
        · exact Or.inl (Or.inl h)
        · exact Or.inl (Or.inr rfl)
        · exact Or.inr ⟨h, h2⟩

/-- The records `compareUserList` reports as deleted, for any two lists. -/
theorem mem_compareUserList_deleted (order : List UserInfo → List UserInfo)
    (horder : ∀ m, (order m).Perm m) (old new : List UserInfo) (u : UserInfo) :
    u ∈ (compareUserList order old new).1 ↔ u ∈ old ∧ u ∉ new := by
  unfold compareUserList
  simp only [mem_splitByOld_fst, (horder _).mem_iff, mem_foldl_mapDelete, mem_scanNew_fst,
    mem_scanNew_snd, mem_foldl_mapInsert, List.not_mem_nil, false_or]
  constructor
  · rintro ⟨⟨_, h2⟩, h3⟩
    exact ⟨h3, fun hn => h2 (Or.inl ⟨h3, hn⟩)⟩
  · rintro ⟨h1, h2⟩
    refine ⟨⟨Or.inl h1, ?_⟩, h1⟩
    rintro (h | h)
    · exact h2 h.2
    · have := List.count_eq_zero_of_not_mem h2
      omega

/-- The records `compareUserList` reports as added, for any two lists: those of
`new` that `old` lacks and that `new` holds once. -/
theorem mem_compareUserList_added (order : List UserInfo → List UserInfo)
    (horder : ∀ m, (order m).Perm m) (old new : List UserInfo) (u : UserInfo) :
    u ∈ (compareUserList order old new).2 ↔ u ∈ new ∧ u ∉ old ∧ new.count u = 1 := by
  unfold compareUserList
  simp only [mem_splitByOld_snd, (horder _).mem_iff, mem_foldl_mapDelete, mem_scanNew_fst,
    mem_scanNew_snd, mem_foldl_mapInsert, List.not_mem_nil, false_or]
  constructor
  · rintro ⟨⟨h1, h2⟩, h3⟩
    have hn : u ∈ new := h1.resolve_left h3
    have hc := List.count_pos_iff.2 hn
    refine ⟨hn, h3, ?_⟩
    have : ¬ 2 ≤ List.count u new := fun h => h2 (Or.inr h)
    omega
  · rintro ⟨h1, h2, h3⟩
    refine ⟨⟨Or.inr h1, ?_⟩, h2⟩
    rintro (h | h)
    · exact h2 h.1
    · omega

/-! ## The traffic report -/

theorem collectTraffic_eq (env : Env) (tag : String) (users : List UserInfo) (s : St)
    (acc : TrafficAcc) :
    collectTraffic env tag users s acc =
      ({ s with trace := s.trace ++ users.map (fun u => Call.getTraffic (buildUserTag tag u)) },
       { userTraffic := acc.userTraffic ++ batchOf (trafficReadings env tag users s.trace),
         upCounterList :=
           acc.upCounterList ++ upCountersOf (trafficReadings env tag users s.trace),
         downCounterList :=
           acc.downCounterList ++ downCountersOf (trafficReadings env tag users s.trace) }) := by
  induction users generalizing s acc with
  | nil => simp [collectTraffic, trafficReadings, batchOf, upCountersOf, downCountersOf]
  | cons u rest ih =>
    rcases hread : env.getTraffic s.trace (buildUserTag tag u) with ⟨up, down, upC, downC⟩
    by_cases htr : up > 0 ∨ down > 0
    · have hf : Reading.hasTraffic (u, up, down, upC, downC) = true := by
        simp [Reading.hasTraffic, htr]
      simp only [collectTraffic, hread, if_pos htr, ih, St.log, trafficReadings, batchOf,
        upCountersOf, downCountersOf, List.filter_cons, hf, if_true, List.map_cons,
        List.filterMap_cons, List.append_assoc, List.singleton_append]
      cases upC <;> cases downC <;> simp
    · have hf : Reading.hasTraffic (u, up, down, upC, downC) = false := by
        simp [Reading.hasTraffic, htr]
      simp [collectTraffic, hread, if_neg htr, ih, St.log, trafficReadings, batchOf,
        upCountersOf, downCountersOf, List.filter_cons, hf]

theorem resetCalls_append (t u : List Call) : resetCalls (t ++ u) = resetCalls t ++ resetCalls u := by
  simp [resetCalls, List.filterMap_append]

theorem reportOnline_resetCalls (env : Env) (s : St) :
    resetCalls (reportOnline env s).trace = resetCalls s.trace := by
  unfold reportOnline
  split
  · simp [St.log, resetCalls_append, resetCalls]
  · split <;> simp [St.log, St.call, resetCalls_append, resetCalls]

theorem reportIllegal_resetCalls (env : Env) (s : St) :
    resetCalls (reportIllegal env s).trace = resetCalls s.trace := by
  unfold reportIllegal
  split
  · simp [St.log, resetCalls_append, resetCalls]
  · split <;> simp [St.log, St.call, resetCalls_append, resetCalls]

theorem reportTraffic_resetCalls (env : Env) (s : St) (acc : TrafficAcc) :
    resetCalls (reportTraffic env s acc).trace =
      resetCalls s.trace ++
        (if acc.userTraffic ≠ [] ∧
            env.engine s.trace (.ReportUserTraffic acc.userTraffic) = none
         then [(acc.upCounterList, acc.downCounterList)] else []) := by
  unfold reportTraffic
  by_cases hb : acc.userTraffic = []
  · simp [hb]
  · have hlen : acc.userTraffic.length > 0 := List.length_pos.2 hb
    rw [if_pos hlen]
    cases h : env.engine s.trace (.ReportUserTraffic acc.userTraffic) <;>
      simp [St.call, St.log, h, hb, resetCalls_append, resetCalls]

/-! ## The relay outbounds -/

theorem okEnv_allOk (node : NodeInfo) (users : Except String (List UserInfo))
    (relay : RelayNodeInfo) : AllOk (okEnv node users relay) :=
  ⟨fun _ _ => rfl, fun _ _ => rfl, fun _ _ => rfl, fun _ _ _ _ _ _ => rfl⟩

theorem removeRules_eq (users : List UserInfo) (s : St) :
    removeRules users s =
      ⟨s.c, s.trace ++ users.map (fun u => Call.RemoveUsersRule [buildUserTag s.c.Tag u])⟩ := by
  induction users generalizing s with
  | nil => simp [removeRules]
  | cons u rest ih => simp [removeRules, ih, St.log]

/-- A run of `removeRelayTag` without error has removed the relay outbound of
every user of the list, in order. -/
theorem removeRelayTag_of_ok (env : Env) (tag : String) (users : List UserInfo) (s : St)
    (h : (removeRelayTag env tag users s).2 = none) :
    (removeRelayTag env tag users s).1 =
      ⟨s.c, s.trace ++ users.map (fun u => Call.removeOutbound (sprintfRelayUserTag tag u.UID))⟩ := by
  induction users generalizing s with
  | nil => simp [removeRelayTag]
  | cons u rest ih =>
    simp only [removeRelayTag, St.call] at h ⊢
    cases he : env.engine s.trace (.removeOutbound (sprintfRelayUserTag tag u.UID)) with
    | some e => simp [he] at h
    | none =>
      simp only [he] at h ⊢
      rw [ih _ h]
      simp [St.log]

theorem removeRelayTag_snd_ok (env : Env) (hok : AllOk env) (tag : String)
    (users : List UserInfo) (s : St) : (removeRelayTag env tag users s).2 = none := by
  induction users generalizing s with
  | nil => simp [removeRelayTag]
  | cons u rest ih => simp [removeRelayTag, St.call, hok.1, ih]

theorem addRelayUser_of_ok (env : Env) (relay : RelayNodeInfo) (u : UserInfo) (key : String)
    (s : St) (h : (addRelayUser env relay u key s).2 = none) :
    (addRelayUser env relay u key s).1 =
      ⟨s.c, s.trace ++
        [.addRelayOutbound relay s.c.RelayTag u.UUID u.Email key u.UID,
         .AddUsersRule (sprintfRelayUserTag s.c.RelayTag u.UID) [buildUserTag s.c.Tag u]]⟩ := by
  unfold addRelayUser at h ⊢
  cases hb : env.OutboundRelayBuilder relay s.c.RelayTag u.UUID u.Email key u.UID with
  | some e => simp [hb] at h
  | none =>
    simp only [hb, St.call] at h ⊢
    cases he : env.engine s.trace
        (.addRelayOutbound relay s.c.RelayTag u.UUID u.Email key u.UID) with
    | some e => simp [he] at h
    | none => simp [St.log]

theorem addRelayUser_snd_ok (env : Env) (hok : AllOk env) (relay : RelayNodeInfo) (u : UserInfo)
    (key : String) (s : St) : (addRelayUser env relay u key s).2 = none := by
  simp [addRelayUser, St.call, hok.1, hok.2.2.2]

/-- A run of the loop of `addNewRelayTag` without error has made, for every
user it did not skip, the two calls that bind the user to the relay. -/
theorem addNewRelayTagLoop_of_ok (env : Env) (relay : RelayNodeInfo) (users : List UserInfo)
    (s : St) (h : (addNewRelayTagLoop env relay users s).2 = none) :
    (addNewRelayTagLoop env relay users s).1 =
      ⟨s.c, s.trace ++ relayCallsFor env relay s.c.RelayTag s.c.Tag users⟩ := by
  induction users generalizing s with
  | nil => simp [addNewRelayTagLoop, relayCallsFor]
  | cons u rest ih =>
    unfold addNewRelayTagLoop at h ⊢
    by_cases h22 : env.is2022 relay.CypherMethod = true
    · rw [if_pos h22] at h ⊢
      cases hc : env.checkShadowsocksPassword u.Passwd relay.CypherMethod with
      | error e =>
        simp only [hc] at h ⊢
        rw [ih _ h]
        simp [relayCallsFor, relayCallsOf, relayKey, h22, hc]
      | ok userKey =>
        simp only [hc] at h ⊢
        rcases hr : addRelayUser env relay u (relay.ServerKey ++ ":" ++ userKey) s with ⟨s1, r⟩
        cases r with
        | some e => simp [hr] at h
        | none =>
          simp only [hr] at h ⊢
          have h1 := addRelayUser_of_ok env relay u _ s (by rw [hr])
          rw [hr] at h1
          simp only at h1
          rw [ih _ h, h1]
          simp [relayCallsFor, relayCallsOf, relayKey, h22, hc]
    · rw [if_neg h22] at h ⊢
      rcases hr : addRelayUser env relay u u.Passwd s with ⟨s1, r⟩
      cases r with
      | some e => simp [hr] at h
      | none =>
        simp only [hr] at h ⊢
        have h1 := addRelayUser_of_ok env relay u _ s (by rw [hr])
        rw [hr] at h1
        simp only at h1
        rw [ih _ h, h1]
        simp [relayCallsFor, relayCallsOf, relayKey, h22]

theorem addNewRelayTagLoop_snd_ok (env : Env) (hok : AllOk env) (relay : RelayNodeInfo)
    (users : List UserInfo) (s : St) : (addNewRelayTagLoop env relay users s).2 = none := by
  induction users generalizing s with
  | nil => simp [addNewRelayTagLoop]
  | cons u rest ih =>
    unfold addNewRelayTagLoop
    split
    · split
      · exact ih _
      · rename_i userKey _
        rcases hr : addRelayUser env relay u (relay.ServerKey ++ ":" ++ userKey) s with ⟨s1, r⟩
        have := addRelayUser_snd_ok env hok relay u (relay.ServerKey ++ ":" ++ userKey) s
        rw [hr] at this
        simp only at this
        subst this
        exact ih _
    · rcases hr : addRelayUser env relay u u.Passwd s with ⟨s1, r⟩
      have := addRelayUser_snd_ok env hok relay u u.Passwd s
      rw [hr] at this
      simp only at this
      subst this
      exact ih _

theorem relayOutboundsAdded_append (t u : List Call) :
    relayOutboundsAdded (t ++ u) = relayOutboundsAdded t ++ relayOutboundsAdded u := by
  simp [relayOutboundsAdded, List.filterMap_append]

theorem rulesAdded_append (t u : List Call) :
    rulesAdded (t ++ u) = rulesAdded t ++ rulesAdded u := by
  simp [rulesAdded, List.filterMap_append]

theorem outboundsRemoved_append (t u : List Call) :
    outboundsRemoved (t ++ u) = outboundsRemoved t ++ outboundsRemoved u := by
  simp [outboundsRemoved, List.filterMap_append]

theorem rulesRemoved_append (t u : List Call) :
    rulesRemoved (t ++ u) = rulesRemoved t ++ rulesRemoved u := by
  simp [rulesRemoved, List.filterMap_append]

theorem relayOutboundsAdded_relayCallsFor (env : Env) (relay : RelayNodeInfo)
    (relayTag tag : String) (users : List UserInfo) :
    relayOutboundsAdded (relayCallsFor env relay relayTag tag users) =
      (relayKept env relay users).map (fun u => relayOutboundName relayTag u.UID) := by
  induction users with
  | nil => rfl
  | cons u rest ih =>
    simp only [relayCallsFor, relayOutboundsAdded_append, ih, relayKept, List.filter_cons]
    cases hk : relayKey env relay u <;>
      simp [relayCallsOf, hk, relayOutboundsAdded]

theorem rulesAdded_relayCallsFor (env : Env) (relay : RelayNodeInfo)
    (relayTag tag : String) (users : List UserInfo) :
    rulesAdded (relayCallsFor env relay relayTag tag users) =
      (relayKept env relay users).map
        (fun u => (sprintfRelayUserTag relayTag u.UID, [buildUserTag tag u])) := by
  induction users with
  | nil => rfl
  | cons u rest ih =>
    simp only [relayCallsFor, rulesAdded_append, ih, relayKept, List.filter_cons]
    cases hk : relayKey env relay u <;>
      simp [relayCallsOf, hk, rulesAdded]

theorem outboundsRemoved_map (tag : String) (users : List UserInfo) :
    outboundsRemoved (users.map (fun u => Call.removeOutbound (sprintfRelayUserTag tag u.UID))) =
      users.map (fun u => relayOutboundName tag u.UID) := by
  induction users with
  | nil => rfl
  | cons u rest ih =>
    simp only [List.map_cons]
    rw [← ih]
    simp [outboundsRemoved, relayOutboundName]

theorem sprintfRelayUserTag_inj {tag : String} {i j : Int}
    (h : sprintfRelayUserTag tag i = sprintfRelayUserTag tag j) : i = j := by
  unfold sprintfRelayUserTag at h
  have h1 : tag.data ++ '_' :: fmtInt i = tag.data ++ '_' :: fmtInt j := congrArg String.data h
  exact fmtInt_injective (List.cons.inj (List.append_cancel_left h1)).2

theorem relayKept_of_not2022 (env : Env) (relay : RelayNodeInfo) (users : List UserInfo)
    (h : env.is2022 relay.CypherMethod = false) : relayKept env relay users = users := by
  unfold relayKept
  rw [List.filter_eq_self]
  intro u _
  simp [relayKey, h]

theorem relayNames_nodup (env : Env) (relay : RelayNodeInfo) (relayTag : String)
    (users : List UserInfo) (h : (users.map UserInfo.UID).Nodup) :
    ((relayKept env relay users).map (fun u => relayOutboundName relayTag u.UID)).Nodup := by
  have hk : ((relayKept env relay users).map UserInfo.UID).Nodup :=
    List.Nodup.sublist ((List.filter_sublist _).map _) h
  have := List.Nodup.map (f := fun i => relayOutboundName relayTag i)
    (fun i j hij => sprintfRelayUserTag_inj hij) hk
  simpa [List.map_map] using this

/-! ## A cycle in which every call succeeds -/

theorem addNewRelayTagLoop_ok (env : Env) (hok : AllOk env) (relay : RelayNodeInfo)
    (users : List UserInfo) (s : St) :
    addNewRelayTagLoop env relay users s =
      (⟨s.c, s.trace ++ relayCallsFor env relay s.c.RelayTag s.c.Tag users⟩, none) :=
  Prod.ext (addNewRelayTagLoop_of_ok env relay users s
    (addNewRelayTagLoop_snd_ok env hok relay users s))
    (addNewRelayTagLoop_snd_ok env hok relay users s)

theorem removeOldTag_ok (env : Env) (hok : AllOk env) (s : St) (tag : String) :
    removeOldTag env s tag =
      (⟨s.c, s.trace ++ [.removeInbound tag, .removeOutbound tag]⟩, none) := by
  simp [removeOldTag, St.call, St.log, hok.1]

theorem addNewTag_ok (env : Env) (hok : AllOk env) (s : St) (nd : NodeInfo) :
    addNewTag env s nd =
      (⟨s.c, s.trace ++ addNewTagCalls s.c.nodeInfo.Relay nd s.c.Tag⟩, none) := by
  unfold addNewTag addNewTagCalls
  by_cases hp : nd.NodeType = "Shadowsocks-Plugin"
  · simp [hp, addInboundForSSPlugin, St.call, St.log, hok.1, hok.2.1, hok.2.2.1]
  · by_cases hr : s.c.nodeInfo.Relay = true
    · simp [hp, hr, St.call, St.log, hok.1, hok.2.1, hok.2.2.1]
    · simp [hp, hr, St.call, St.log, hok.1, hok.2.1, hok.2.2.1]

theorem nodeChangeStep_ok (env : Env) (hok : AllOk env) (s : St) (l : Locals)
    (hne : s.c.nodeInfo ≠ l.newNodeInfo) :
    nodeChangeStep env s l =
      .next ⟨{ s.c with nodeInfo := l.newNodeInfo, Tag := buildNodeTag l.newNodeInfo },
             s.trace ++ nodeChangeCalls s.c l.newNodeInfo⟩
        { l with updateRelay := true, nodeInfoChanged := true } := by
  unfold nodeChangeStep nodeChangeCalls
  rw [if_pos hne]
  by_cases hp : s.c.nodeInfo.NodeType = "Shadowsocks-Plugin"
  · simp [hp, removeOldTag_ok env hok, addNewTag_ok env hok, St.call, St.log, hok.1]
  · simp [hp, removeOldTag_ok env hok, addNewTag_ok env hok, St.call, St.log, hok.1]

theorem nodeChangeStep_same (env : Env) (c : Controller) (t : List Call) (nd : NodeInfo)
    (us : List UserInfo) (b1 b2 b3 : Bool) (he : c.nodeInfo = nd) :
    nodeChangeStep env ⟨c, t⟩ ⟨nd, us, b1, b2, b3⟩ = .next ⟨c, t⟩ ⟨nd, us, b1, b2, b3⟩ := by
  simp [nodeChangeStep, he]

theorem nodeChangeStep_ok' (env : Env) (hok : AllOk env) (c : Controller) (t : List Call)
    (nd : NodeInfo) (us : List UserInfo) (b1 b2 b3 : Bool) (hne : ¬ c.nodeInfo = nd) :
    nodeChangeStep env ⟨c, t⟩ ⟨nd, us, b1, b2, b3⟩ =
      .next ⟨{ c with nodeInfo := nd, Tag := buildNodeTag nd }, t ++ nodeChangeCalls c nd⟩
        ⟨nd, us, b1, true, true⟩ :=
  nodeChangeStep_ok env hok ⟨c, t⟩ ⟨nd, us, b1, b2, b3⟩ hne

theorem relayTeardownStep_ok (env : Env) (hok : AllOk env) (s : St) (l : Locals) :
    relayTeardownStep env s l =
      .next ⟨{ s.c with Relay := if s.c.Relay ∧ l.updateRelay then false else s.c.Relay },
             s.trace ++ (if s.c.Relay ∧ l.updateRelay then
               s.c.userList.map
                 (fun u => Call.removeOutbound (sprintfRelayUserTag s.c.RelayTag u.UID))
               else [])⟩ l := by
  unfold relayTeardownStep
  by_cases h : s.c.Relay = true ∧ l.updateRelay = true
  · have h2 := removeRelayTag_snd_ok env hok s.c.RelayTag s.c.userList s
    have h1 := removeRelayTag_of_ok env s.c.RelayTag s.c.userList s h2
    rcases hr : removeRelayTag env s.c.RelayTag s.c.userList s with ⟨s1, r⟩
    rw [hr] at h1 h2
    simp only at h1 h2
    subst h1 h2
    simp [h]
  · simp [h]

theorem fetchStep_ok (env : Env) (s : St) (nd : NodeInfo) (hgo : env.tooEarly = false)
    (hnode : env.GetNodeInfo s.trace = .ok nd)
    (husers : ∀ e, env.GetUserList (s.trace ++ [.GetNodeInfo]) = .error e →
      e = "users no change") :
    fetchStep env s =
      .next ⟨s.c, s.trace ++ [.GetNodeInfo, .GetUserList]⟩
        { newNodeInfo := nd, newUserInfo := (fetchedUsers env s).1,
          usersChanged := (fetchedUsers env s).2, updateRelay := false,
          nodeInfoChanged := false } := by
  unfold fetchStep fetchedUsers
  cases hu : env.GetUserList (s.trace ++ [.GetNodeInfo]) with
  | error e =>
    have := husers e hu
    subst this
    simp [hgo, hnode, St.log, hu]
  | ok users => simp [hgo, hnode, St.log, hu]

theorem cycleToTeardown_ok (env : Env) (hok : AllOk env) (s : St) (nd : NodeInfo)
    (hgo : env.tooEarly = false) (hnode : env.GetNodeInfo s.trace = .ok nd)
    (husers : ∀ e, env.GetUserList (s.trace ++ [.GetNodeInfo]) = .error e →
      e = "users no change") :
    cycleToTeardown env s =
      .next ⟨teardownController env s nd, s.trace ++ teardownCalls env s nd⟩
        (teardownLocals env s nd) := by
  unfold cycleToTeardown
  rw [fetchStep_ok env s nd hgo hnode husers]
  simp only [Step.bind, removeRulesStep, removeRules_eq]
  by_cases hne : s.c.nodeInfo = nd
  · by_cases hch : (fetchedUsers env s).2 = true
    · rw [if_pos hch]
      simp only []
      rw [nodeChangeStep_same env s.c _ nd _ _ _ _ hne]
      simp only [relayTeardownStep_ok env hok]
      by_cases hr : s.c.Relay = true <;>
        simp [teardownController, teardownCalls, teardownLocals, rebuildMarked, hne, hch, hr]
    · rw [if_neg hch]
      simp only []
      rw [nodeChangeStep_same env s.c _ nd _ _ _ _ hne]
      simp only [relayTeardownStep_ok env hok]
      by_cases hr : s.c.Relay = true <;>
        simp [teardownController, teardownCalls, teardownLocals, rebuildMarked, hne, hch, hr]
  · by_cases hch : (fetchedUsers env s).2 = true
    · rw [if_pos hch]
      simp only []
      rw [nodeChangeStep_ok' env hok s.c _ nd _ _ _ _ hne]
      simp only [relayTeardownStep_ok env hok]
      by_cases hr : s.c.Relay = true <;>
        simp [teardownController, teardownCalls, teardownLocals, rebuildMarked, hne, hch, hr]
    · rw [if_neg hch]
      simp only []
      rw [nodeChangeStep_ok' env hok s.c _ nd _ _ _ _ hne]
      simp only [relayTeardownStep_ok env hok]
      by_cases hr : s.c.Relay = true <;>
        simp [teardownController, teardownCalls, teardownLocals, rebuildMarked, hne, hch, hr]

theorem relayRebuildStep_ok (env : Env) (hok : AllOk env) (s : St) (l : Locals)
    (relay : RelayNodeInfo) (hrelay : env.GetRelayNodeInfo s.trace = .ok relay)
    (hdecl : s.c.nodeInfo.Relay = true) (hmark : l.updateRelay = true) :
    relayRebuildStep env s l =
      .next ⟨{ s.c with relaynodeInfo := some relay, RelayTag := buildRNodeTag relay,
                        Relay := true },
             s.trace ++ rebuildCalls env relay s.c.Tag l.newUserInfo⟩ l := by
  unfold relayRebuildStep rebuildCalls addNewRelayTag
  rw [if_pos ⟨hdecl, hmark⟩]
  simp only [hrelay]
  by_cases hp : relay.NodeType = "Shadowsocks-Plugin"
  · simp [hp]
  · simp [hp, addNewRelayTagLoop_ok env hok]

theorem relayRebuildStep_skip (env : Env) (s : St) (l : Locals)
    (h : ¬ (s.c.nodeInfo.Relay = true ∧ l.updateRelay = true)) :
    relayRebuildStep env s l = .next s l := by
  simp only [relayRebuildStep, h, if_false]

theorem ruleStep_eq (env : Env) (s : St) (l : Locals) :
    ruleStep env s l = .next ⟨s.c, s.trace ++ ruleCalls env s⟩ l := by
  unfold ruleStep ruleCalls
  cases hr : env.GetNodeRule s.trace with
  | error e => simp [St.log]
  | ok ruleList =>
    by_cases hl : ruleList.length > 0
    · simp [St.log, St.call, hl]
    · simp [St.log, hl]

/-! ## Calls that a step does not make -/

theorem Extends.refl (P : Call → Prop) (s : St) : Extends P s s :=
  ⟨[], by simp, by simp⟩

theorem Extends.trans {P : Call → Prop} {s s1 s2 : St} (h1 : Extends P s s1)
    (h2 : Extends P s1 s2) : Extends P s s2 := by
  obtain ⟨e1, ht1, hp1⟩ := h1
  obtain ⟨e2, ht2, hp2⟩ := h2
  refine ⟨e1 ++ e2, by rw [ht2, ht1, List.append_assoc], ?_⟩
  intro k hk
  rcases List.mem_append.1 hk with h | h
  · exact hp1 k h
  · exact hp2 k h

theorem Extends.log (P : Call → Prop) (s : St) (k : Call) (hk : P k) : Extends P s (s.log k) :=
  ⟨[k], rfl, by simpa using hk⟩

theorem Extends.filterMap_eq {P : Call → Prop} {β : Type} (f : Call → Option β) {s s1 : St}
    (h : Extends P s s1) (hf : ∀ k, P k → f k = none) :
    s1.trace.filterMap f = s.trace.filterMap f := by
  obtain ⟨extra, ht, hp⟩ := h
  rw [ht, List.filterMap_append]
  have : extra.filterMap f = [] := by
    rw [List.filterMap_eq_nil_iff]
    exact fun k hk => hf k (hp k hk)
  rw [this, List.append_nil]

theorem addNewUser_fst (env : Env) (s : St) (us : List UserInfo) (nd : NodeInfo) :
    (addNewUser env s us nd).1 =
      match buildUsers us nd with
      | .error _ => s
      | .ok b => s.log (.addUsers b s.c.Tag) := by
  unfold addNewUser
  cases hb : buildUsers us nd with
  | error e => rfl
  | ok b =>
    simp only [St.call]
    cases env.engine s.trace (.addUsers b s.c.Tag) <;> rfl

theorem addNewUser_extends (env : Env) (s : St) (us : List UserInfo) (nd : NodeInfo) :
    Extends (fun k => k.isUserCall = true) s (addNewUser env s us nd).1 := by
  rw [addNewUser_fst]
  cases buildUsers us nd with
  | error e => exact Extends.refl _ _
  | ok b => exact Extends.log _ _ _ rfl

theorem addNewDNS_extends (env : Env) (s : St) (nd : NodeInfo) :
    Extends (fun k => k.isUserCall = true) s (addNewDNS env s nd).1 := by
  have e1 : Extends (fun k => k.isUserCall = true) s (s.log (.dnsBuild nd)) :=
    Extends.log _ _ _ rfl
  have e2 := e1.trans (Extends.log (fun k => k.isUserCall = true)
    (s.log (.dnsBuild nd)) .dnsGetInstance rfl)
  have e3 := e2.trans (Extends.log (fun k => k.isUserCall = true)
    ((s.log (.dnsBuild nd)).log .dnsGetInstance) .dnsCreateObject rfl)
  have e4 := e3.trans (Extends.log (fun k => k.isUserCall = true)
    (((s.log (.dnsBuild nd)).log .dnsGetInstance).log .dnsCreateObject) .dnsAddFeature rfl)
  unfold addNewDNS
  simp only [St.call]
  cases h1 : env.engine s.trace (.dnsBuild nd) with
  | some e => exact e1
  | none =>
    simp only []
    cases h2 : env.engine (s.log (.dnsBuild nd)).trace .dnsGetInstance with
    | some e => exact e2
    | none =>
      simp only []
      cases h3 : env.engine ((s.log (.dnsBuild nd)).log .dnsGetInstance).trace
          .dnsCreateObject with
      | some e => exact e3
      | none =>
        simp only []
        by_cases hf : env.dnsIsFeature = true
        · simp only [hf, if_true]
          cases h4 : env.engine (((s.log (.dnsBuild nd)).log .dnsGetInstance).log
            .dnsCreateObject).trace .dnsAddFeature with
          | some e => exact e4
          | none => exact e4
        · simp only [hf]
          exact e3

theorem userDiffStep_eq (env : Env) (s : St) (l : Locals) :
    userDiffStep env s l =
      ⟨s.c, s.trace ++
        (if l.usersChanged then userDiffCalls env.mapOrder s.c l.newUserInfo else [])⟩ := by
  unfold userDiffStep userDiffCalls
  by_cases hch : l.usersChanged = true
  · simp only [hch, if_true]
    rcases hcmp : compareUserList env.mapOrder s.c.userList l.newUserInfo with ⟨deleted, added⟩
    simp only [List.length_pos]
    by_cases hd : deleted = [] <;> by_cases ha : added = []
    · simp [hd, ha]
    · have h1 := addNewUser_fst env s added s.c.nodeInfo
      cases hb : buildUsers added s.c.nodeInfo <;>
        simp [hd, ha, St.call, St.log, h1, hb]
    · simp [hd, ha, St.call, St.log]
    · have h1 := addNewUser_fst env (s.log (.removeUsers
        (deleted.map (fun u => sprintfUserTag s.c.Tag u.Email u.UID)) s.c.Tag)) added
        s.c.nodeInfo
      simp only [St.log] at h1
      cases hb : buildUsers added s.c.nodeInfo <;>
        simp [hd, ha, St.call, St.log, h1, hb]
  · simp [hch]

theorem usersStep_extends (env : Env) (s : St) (l : Locals) :
    Extends (fun k => k.isUserCall = true) s (usersStep env s l).1 := by
  unfold usersStep
  by_cases hn : l.nodeInfoChanged = true
  · simp only [hn, if_true]
    have e1 := addNewUser_extends env s l.newUserInfo l.newNodeInfo
    rcases h1 : addNewUser env s l.newUserInfo l.newNodeInfo with ⟨s1, r1⟩
    rw [h1] at e1
    cases r1 with
    | some e => exact e1
    | none =>
      simp only [St.call]
      have e2 : Extends (fun k => k.isUserCall = true) s
          (s1.log (.AddInboundLimiter s1.c.Tag l.newNodeInfo.SpeedLimit l.newUserInfo)) :=
        e1.trans (Extends.log _ _ _ rfl)
      cases h2 : env.engine s1.trace
          (.AddInboundLimiter s1.c.Tag l.newNodeInfo.SpeedLimit l.newUserInfo) with
      | some e => exact e2
      | none =>
        simp only []
        have e3 := e2.trans (addNewDNS_extends env
          (s1.log (.AddInboundLimiter s1.c.Tag l.newNodeInfo.SpeedLimit l.newUserInfo))
          l.newNodeInfo)
        rcases h3 : addNewDNS env
          (s1.log (.AddInboundLimiter s1.c.Tag l.newNodeInfo.SpeedLimit l.newUserInfo))
          l.newNodeInfo with ⟨s3, r3⟩
        rw [h3] at e3
        cases r3 <;> exact e3
  · simp only [hn, userDiffStep_eq]
    refine ⟨_, rfl, ?_⟩
    intro k hk
    split at hk
    · unfold userDiffCalls at hk
      simp only [List.mem_append] at hk
      rcases hk with hk | hk
      · split at hk
        · simp only [List.mem_singleton] at hk
          subst hk
          rfl
        · simp at hk
      · split at hk
        · simp only [List.mem_append, List.mem_singleton] at hk
          rcases hk with hk | hk
          · split at hk
            · simp only [List.mem_singleton] at hk
              subst hk
              rfl
            · simp at hk
          · subst hk
            rfl
        · simp at hk
    · simp at hk

theorem usersStep_relayOutboundsAdded (env : Env) (s : St) (l : Locals) :
    relayOutboundsAdded (usersStep env s l).1.trace = relayOutboundsAdded s.trace ∧
    rulesAdded (usersStep env s l).1.trace = rulesAdded s.trace := by
  constructor
  · exact (usersStep_extends env s l).filterMap_eq _
      (fun k hk => by cases k <;> first | rfl | (simp [Call.isUserCall] at hk))
  · exact (usersStep_extends env s l).filterMap_eq _
      (fun k hk => by cases k <;> first | rfl | (simp [Call.isUserCall] at hk))

theorem ruleCalls_relayOutboundsAdded (env : Env) (s : St) :
    relayOutboundsAdded (ruleCalls env s) = [] ∧ rulesAdded (ruleCalls env s) = [] := by
  unfold ruleCalls
  cases env.GetNodeRule s.trace with
  | error e => exact ⟨rfl, rfl⟩
  | ok rl =>
    by_cases h : rl.length > 0
    · simp only [h, if_true]
      exact ⟨rfl, rfl⟩
    · simp only [h, if_false]
      exact ⟨rfl, rfl⟩

theorem nodeInfoMonitor_ok_eq (env : Env) (hok : AllOk env) (s : St) (nd : NodeInfo)
    (hgo : env.tooEarly = false) (hnode : env.GetNodeInfo s.trace = .ok nd)
    (husers : ∀ e, env.GetUserList (s.trace ++ [.GetNodeInfo]) = .error e →
      e = "users no change") :
    nodeInfoMonitor env s =
      cycleFromRebuild env ⟨teardownController env s nd, s.trace ++ teardownCalls env s nd⟩
        (teardownLocals env s nd) := by
  unfold nodeInfoMonitor
  rw [cycleToTeardown_ok env hok s nd hgo hnode husers]

/-! ## The relay steps make quiet calls only -/

theorem Same.same_refl (s : St) : Same s s := ⟨rfl, rfl, rfl⟩

theorem Same.same_trans {s s1 s2 : St} (h1 : Same s s1) (h2 : Same s1 s2) : Same s s2 :=
  ⟨h2.1.trans h1.1, h2.2.1.trans h1.2.1, h2.2.2.trans h1.2.2⟩

theorem removeRelayTag_quiet (env : Env) (tag : String) (users : List UserInfo) (s : St) :
    (removeRelayTag env tag users s).1.c = s.c ∧
      Extends (fun k => k.isQuiet = true) s (removeRelayTag env tag users s).1 := by
  induction users generalizing s with
  | nil => exact ⟨rfl, Extends.refl _ _⟩
  | cons u rest ih =>
    simp only [removeRelayTag, St.call]
    cases env.engine s.trace (.removeOutbound (sprintfRelayUserTag tag u.UID)) with
    | some e => exact ⟨rfl, Extends.log _ _ _ rfl⟩
    | none =>
      simp only []
      obtain ⟨h1, h2⟩ := ih (s.log (.removeOutbound (sprintfRelayUserTag tag u.UID)))
      exact ⟨h1, (Extends.log (fun k => k.isQuiet = true) s
        (.removeOutbound (sprintfRelayUserTag tag u.UID)) rfl).trans h2⟩

theorem addRelayUser_quiet (env : Env) (relay : RelayNodeInfo) (u : UserInfo) (key : String)
    (s : St) :
    (addRelayUser env relay u key s).1.c = s.c ∧
      Extends (fun k => k.isQuiet = true) s (addRelayUser env relay u key s).1 := by
  unfold addRelayUser
  cases env.OutboundRelayBuilder relay s.c.RelayTag u.UUID u.Email key u.UID with
  | some e => exact ⟨rfl, Extends.refl _ _⟩
  | none =>
    simp only [St.call]
    cases env.engine s.trace (.addRelayOutbound relay s.c.RelayTag u.UUID u.Email key u.UID) with
    | some e => exact ⟨rfl, Extends.log _ _ _ rfl⟩
    | none =>
      exact ⟨rfl, (Extends.log (fun k => k.isQuiet = true) s
        (.addRelayOutbound relay s.c.RelayTag u.UUID u.Email key u.UID) rfl).trans
        (Extends.log _ _ _ rfl)⟩

theorem addNewRelayTagLoop_quiet (env : Env) (relay : RelayNodeInfo) (users : List UserInfo)
    (s : St) :
    (addNewRelayTagLoop env relay users s).1.c = s.c ∧
      Extends (fun k => k.isQuiet = true) s (addNewRelayTagLoop env relay users s).1 := by
  induction users generalizing s with
  | nil => exact ⟨rfl, Extends.refl _ _⟩
  | cons u rest ih =>
    unfold addNewRelayTagLoop
    split
    · split
      · exact ih s
      · rename_i userKey _
        obtain ⟨h1, h2⟩ := addRelayUser_quiet env relay u (relay.ServerKey ++ ":" ++ userKey) s
        rcases hr : addRelayUser env relay u (relay.ServerKey ++ ":" ++ userKey) s with ⟨s1, r⟩
        rw [hr] at h1 h2
        cases r with
        | some e => exact ⟨h1, h2⟩
        | none =>
          obtain ⟨h3, h4⟩ := ih s1
          exact ⟨h3.trans h1, h2.trans h4⟩
    · obtain ⟨h1, h2⟩ := addRelayUser_quiet env relay u u.Passwd s
      rcases hr : addRelayUser env relay u u.Passwd s with ⟨s1, r⟩
      rw [hr] at h1 h2
      cases r with
      | some e => exact ⟨h1, h2⟩
      | none =>
        obtain ⟨h3, h4⟩ := ih s1
        exact ⟨h3.trans h1, h2.trans h4⟩

theorem relayTeardownStep_quiet (env : Env) (s : St) (l : Locals) :
    QuietStep s l (relayTeardownStep env s l) := by
  unfold relayTeardownStep
  split
  · obtain ⟨h1, h2⟩ := removeRelayTag_quiet env s.c.RelayTag s.c.userList s
    rcases hr : removeRelayTag env s.c.RelayTag s.c.userList s with ⟨s1, r⟩
    rw [hr] at h1 h2
    simp only at h1 h2
    cases r with
    | some e => exact ⟨by simp, ⟨by rw [h1], by rw [h1], by rw [h1]⟩, h2⟩
    | none => exact ⟨rfl, ⟨by simp [h1], by simp [h1], by simp [h1]⟩, h2⟩
  · exact ⟨rfl, Same.same_refl s, Extends.refl _ _⟩

theorem addNewRelayTag_quiet (env : Env) (relay : RelayNodeInfo) (users : List UserInfo)
    (s1 s2 : St) (r : Option String) (h : addNewRelayTag env s1 relay users = (s2, r)) :
    s2.c = s1.c ∧ Extends (fun k => k.isQuiet = true) s1 s2 := by
  have hq : (addNewRelayTag env s1 relay users).1.c = s1.c ∧
      Extends (fun k => k.isQuiet = true) s1 (addNewRelayTag env s1 relay users).1 := by
    unfold addNewRelayTag
    split
    · exact addNewRelayTagLoop_quiet env relay users s1
    · exact ⟨rfl, Extends.refl _ _⟩
  rw [h] at hq
  exact hq

theorem relayRebuildStep_quiet (env : Env) (s : St) (l : Locals) :
    QuietStep s l (relayRebuildStep env s l) := by
  unfold relayRebuildStep
  split
  · cases hg : env.GetRelayNodeInfo s.trace with
    | error e => exact ⟨by simp, Same.same_refl s, Extends.log _ _ _ rfl⟩
    | ok relay =>
      simp only []
      have h0 : Extends (fun k => k.isQuiet = true) s
          ⟨{ s.c with relaynodeInfo := some relay, RelayTag := buildRNodeTag relay },
            s.trace ++ [.GetRelayNodeInfo]⟩ := Extends.log _ s .GetRelayNodeInfo rfl
      split
      · rename_i s2 e heq
        obtain ⟨h1, h2⟩ := addNewRelayTag_quiet env relay _ _ _ _ heq
        exact ⟨by simp, ⟨by rw [h1], by rw [h1], by rw [h1]⟩, h0.trans h2⟩
      · rename_i s2 heq
        obtain ⟨h1, h2⟩ := addNewRelayTag_quiet env relay _ _ _ _ heq
        exact ⟨rfl, ⟨by simp [h1], by simp [h1], by simp [h1]⟩, h0.trans h2⟩
  · exact ⟨rfl, Same.same_refl s, Extends.refl _ _⟩

theorem ruleStep_quiet (env : Env) (s : St) (l : Locals) :
    QuietStep s l (ruleStep env s l) := by
  rw [ruleStep_eq]
  refine ⟨rfl, Same.same_refl s, ruleCalls env s, rfl, ?_⟩
  intro k hk
  unfold ruleCalls at hk
  simp only [List.mem_cons] at hk
  rcases hk with rfl | hk
  · rfl
  · split at hk
    · split at hk
      · simp only [List.mem_singleton] at hk
        subst hk
        rfl
      · simp at hk
    · simp at hk

theorem QuietStep.bind {s : St} {l : Locals} {x : Step Locals} {f : St → Locals → Step Locals}
    (hx : QuietStep s l x) (hf : ∀ s1, QuietStep s1 l (f s1 l)) :
    QuietStep s l (x.bind f) := by
  cases x with
  | done s1 r => exact hx
  | next s1 l1 =>
    obtain ⟨rfl, hs, he⟩ := hx
    have h2 := hf s1
    simp only [Step.bind]
    cases hy : f s1 l1 with
    | done s2 r =>
      rw [hy] at h2
      exact ⟨h2.1, hs.same_trans h2.2.1, he.trans h2.2.2⟩
    | next s2 l2 =>
      rw [hy] at h2
      exact ⟨h2.1, hs.same_trans h2.2.1, he.trans h2.2.2⟩

theorem Extends.filter_eq {P : Call → Prop} (f : Call → Bool) {s s1 : St}
    (h : Extends P s s1) (hf : ∀ k, P k → f k = false) :
    s1.trace.filter f = s.trace.filter f := by
  obtain ⟨extra, ht, hp⟩ := h
  rw [ht, List.filter_append]
  have : extra.filter f = [] := by
    rw [List.filter_eq_nil_iff]
    intro k hk
    simp [hf k (hp k hk)]
  rw [this, List.append_nil]

theorem userDiffCalls_congr (order : List UserInfo → List UserInfo) (c c1 : Controller)
    (new : List UserInfo) (h1 : c1.Tag = c.Tag) (h2 : c1.nodeInfo = c.nodeInfo)
    (h3 : c1.userList = c.userList) : userDiffCalls order c1 new = userDiffCalls order c new := by
  unfold userDiffCalls
  rw [h1, h2, h3]

/-- A cycle with an unchanged descriptor and a new user list: after quiet
calls it either ends with an error or a panic, or reaches the last step. -/
theorem nodeInfoMonitor_users_shape (env : Env) (s : St) (newUserInfo : List UserInfo)
    (hgo : env.tooEarly = false) (hnode : env.GetNodeInfo s.trace = .ok s.c.nodeInfo)
    (husers : env.GetUserList (s.trace ++ [.GetNodeInfo]) = .ok newUserInfo) :
    ∃ s6, Extends (fun k => k.isQuiet = true) s s6 ∧ Same s s6 ∧
      ((∃ r, r ≠ .nil ∧ nodeInfoMonitor env s = (s6, r)) ∨
        nodeInfoMonitor env s =
          usersStep env s6 ⟨s.c.nodeInfo, newUserInfo, true, true, false⟩) := by
  have hfetch : fetchedUsers env s = (newUserInfo, true) := by
    simp [fetchedUsers, husers]
  have h1 := fetchStep_ok env s s.c.nodeInfo hgo hnode
    (by intro e he; rw [husers] at he; cases he)
  rw [hfetch] at h1
  have hB : Extends (fun k => k.isQuiet = true) s
      ⟨s.c, s.trace ++ [.GetNodeInfo, .GetUserList] ++
        s.c.userList.map (fun u => Call.RemoveUsersRule [buildUserTag s.c.Tag u])⟩ := by
    refine ⟨[.GetNodeInfo, .GetUserList] ++
      s.c.userList.map (fun u => Call.RemoveUsersRule [buildUserTag s.c.Tag u]),
      by simp, ?_⟩
    intro k hk
    simp only [List.mem_append, List.mem_cons, List.mem_singleton, List.not_mem_nil,
      or_false, List.mem_map] at hk
    rcases hk with (rfl | rfl) | ⟨u, -, rfl⟩ <;> rfl
  have hmid : QuietStep
      ⟨s.c, s.trace ++ [.GetNodeInfo, .GetUserList] ++
        s.c.userList.map (fun u => Call.RemoveUsersRule [buildUserTag s.c.Tag u])⟩
      ⟨s.c.nodeInfo, newUserInfo, true, true, false⟩
      (((relayTeardownStep env
        ⟨s.c, s.trace ++ [.GetNodeInfo, .GetUserList] ++
          s.c.userList.map (fun u => Call.RemoveUsersRule [buildUserTag s.c.Tag u])⟩
        ⟨s.c.nodeInfo, newUserInfo, true, true, false⟩).bind (relayRebuildStep env)).bind
          (ruleStep env)) :=
    ((relayTeardownStep_quiet env _ _).bind (fun s1 => relayRebuildStep_quiet env s1 _)).bind
      (fun s1 => ruleStep_quiet env s1 _)
  have hmon : nodeInfoMonitor env s =
      match (((relayTeardownStep env
        ⟨s.c, s.trace ++ [.GetNodeInfo, .GetUserList] ++
          s.c.userList.map (fun u => Call.RemoveUsersRule [buildUserTag s.c.Tag u])⟩
        ⟨s.c.nodeInfo, newUserInfo, true, true, false⟩).bind (relayRebuildStep env)).bind
          (ruleStep env)) with
      | .next s2 l2 => usersStep env s2 l2
      | .done s2 r => (s2, r) := by
    unfold nodeInfoMonitor cycleToTeardown cycleFromRebuild
    rw [h1]
    simp only [Step.bind, removeRulesStep, removeRules_eq, if_true]
    rw [nodeChangeStep_same env s.c _ s.c.nodeInfo _ _ _ _ rfl]
    simp only []
    cases relayTeardownStep env
        ⟨s.c, s.trace ++ [.GetNodeInfo, .GetUserList] ++
          s.c.userList.map (fun u => Call.RemoveUsersRule [buildUserTag s.c.Tag u])⟩
        ⟨s.c.nodeInfo, newUserInfo, true, true, false⟩ with
    | done s1 r => rfl
    | next s1 l1 => rfl
  rw [hmon]
  cases hx : (((relayTeardownStep env
        ⟨s.c, s.trace ++ [.GetNodeInfo, .GetUserList] ++
          s.c.userList.map (fun u => Call.RemoveUsersRule [buildUserTag s.c.Tag u])⟩
        ⟨s.c.nodeInfo, newUserInfo, true, true, false⟩).bind (relayRebuildStep env)).bind
          (ruleStep env)) with
  | done s2 r =>
    rw [hx] at hmid
    exact ⟨s2, hB.trans hmid.2.2, hmid.2.1, Or.inl ⟨r, hmid.1, rfl⟩⟩
  | next s2 l2 =>
    rw [hx] at hmid
    obtain ⟨rfl, hs, he⟩ := hmid
    exact ⟨s2, hB.trans he, hs, Or.inr rfl⟩

theorem userDiffCalls_projections (order : List UserInfo → List UserInfo) (c : Controller)
    (new : List UserInfo) :
    removeUsersCalls (userDiffCalls order c new) =
      (if (compareUserList order c.userList new).1 ≠ [] then
        [((compareUserList order c.userList new).1.map
          (fun u => sprintfUserTag c.Tag u.Email u.UID), c.Tag)]
       else []) ∧
    addUsersCalls (userDiffCalls order c new) =
      (if (compareUserList order c.userList new).2 ≠ [] then
        (match buildUsers (compareUserList order c.userList new).2 c.nodeInfo with
         | .ok b => [(b, c.Tag)]
         | .error _ => [])
       else []) ∧
    updateLimiterCalls (userDiffCalls order c new) =
      (if (compareUserList order c.userList new).2 ≠ [] then
        [(c.Tag, (compareUserList order c.userList new).2)]
       else []) ∧
    (userDiffCalls order c new).filter Call.isNodeRebuild = [] := by
  unfold userDiffCalls
  rcases compareUserList order c.userList new with ⟨d, a⟩
  by_cases hd : d = [] <;> by_cases ha : a = [] <;>
    cases buildUsers a c.nodeInfo <;>
    simp [hd, ha, removeUsersCalls, addUsersCalls, updateLimiterCalls, Call.isNodeRebuild,
      List.filterMap_append, List.filter_append, List.filter_cons]

theorem buildUsers_userInfo (users : List UserInfo) (nd : NodeInfo) (b : UserBuild)
    (h : buildUsers users nd = .ok b) : b.userInfo = users := by
  unfold buildUsers at h
  repeat' split at h
  all_goals first
    | (cases h; rfl)
    | (exact absurd h (by simp))

theorem isQuiet_projections (k : Call) (hk : k.isQuiet = true) :
    (match k with
      | .removeUsers users tag => some (users, tag)
      | _ => none) = none ∧
    (match k with
      | .addUsers users tag => some (users, tag)
      | _ => none) = none ∧
    (match k with
      | .UpdateInboundLimiter tag users => some (tag, users)
      | _ => none) = none ∧
    k.isNodeRebuild = false := by
  cases k <;> first
    | exact ⟨rfl, rfl, rfl, rfl⟩
    | (simp [Call.isQuiet] at hk)

/-! ## A change of descriptor -/

theorem addNewDNS_ok (env : Env) (hok : AllOk env) (s : St) (nd : NodeInfo) :
    addNewDNS env s nd = (⟨s.c, s.trace ++ dnsCalls env nd⟩, .nil) := by
  unfold addNewDNS dnsCalls
  by_cases hf : env.dnsIsFeature = true <;> simp [St.call, St.log, hok.1, hf]

theorem buildUsers_supported (users : List UserInfo) (nd : NodeInfo)
    (hs : nd.NodeType ∈ supportedTypes) :
    ∃ b, buildUsers users nd = .ok b ∧ b.userInfo = users := by
  simp only [supportedTypes, List.mem_cons, List.mem_singleton, List.not_mem_nil,
    or_false] at hs
  unfold buildUsers
  rcases hs with hs | hs | hs | hs | hs <;> simp [hs, UserBuild.userInfo]

theorem usersStep_rebuild_ok (env : Env) (hok : AllOk env) (s : St) (l : Locals) (b : UserBuild)
    (hch : l.nodeInfoChanged = true) (hb : buildUsers l.newUserInfo l.newNodeInfo = .ok b) :
    usersStep env s l =
      (⟨{ s.c with userList := l.newUserInfo },
        s.trace ++ [.addUsers b s.c.Tag,
          .AddInboundLimiter s.c.Tag l.newNodeInfo.SpeedLimit l.newUserInfo] ++
          dnsCalls env l.newNodeInfo⟩, .nil) := by
  unfold usersStep addNewUser
  simp [hch, hb, St.call, St.log, hok.1, addNewDNS_ok env hok]

theorem Engine.run_append (e : Engine) (t u : List Call) :
    e.run (t ++ u) = (e.run t).run u := by
  simp [Engine.run, List.foldl_append]

theorem Engine.run_neutral (e : Engine) (t : List Call)
    (h : ∀ k ∈ t, ∀ e1 : Engine, e1.apply k = e1) : e.run t = e := by
  induction t generalizing e with
  | nil => rfl
  | cons k rest ih =>
    simp only [Engine.run, List.foldl_cons]
    rw [h k (by simp)]
    exact ih e (fun k1 hk1 => h k1 (by simp [hk1]))

theorem Engine.run_removeOutbounds (e : Engine) (names : List String) :
    e.run (names.map Call.removeOutbound) =
      { e with outbounds := e.outbounds.filter (fun t => t ∉ names) } := by
  induction names generalizing e with
  | nil => simp [Engine.run]
  | cons n rest ih =>
    simp only [List.map_cons, Engine.run, List.foldl_cons] at ih ⊢
    rw [ih]
    simp only [Engine.apply, List.filter_filter, List.mem_cons, not_or]
    congr 1
    apply List.filter_congr
    intro t _
    by_cases h1 : t = n <;> by_cases h2 : t ∈ rest <;> simp [h1, h2]

theorem Engine.run_fetch_rules (e : Engine) (tag : String) (users : List UserInfo) (uc : Bool) :
    e.run ([.GetNodeInfo, .GetUserList] ++
      (if uc then users.map (fun u => Call.RemoveUsersRule [buildUserTag tag u]) else [])) = e := by
  apply Engine.run_neutral
  intro k hk e1
  simp only [List.mem_append, List.mem_cons, List.mem_singleton, List.not_mem_nil,
    or_false] at hk
  rcases hk with (rfl | rfl) | hk
  · rfl
  · rfl
  · split at hk
    · obtain ⟨u, -, rfl⟩ := List.mem_map.1 hk
      rfl
    · simp at hk

theorem Engine.run_ruleCalls (e : Engine) (env : Env) (s : St) :
    e.run (ruleCalls env s) = e := by
  apply Engine.run_neutral
  intro k hk e1
  unfold ruleCalls at hk
  simp only [List.mem_cons] at hk
  rcases hk with rfl | hk
  · rfl
  · split at hk
    · split at hk
      · simp only [List.mem_singleton] at hk
        subst hk
        rfl
      · simp at hk
    · simp at hk

theorem Engine.run_dnsCalls (e : Engine) (env : Env) (nd : NodeInfo) :
    e.run (dnsCalls env nd) = e := by
  apply Engine.run_neutral
  intro k hk e1
  unfold dnsCalls at hk
  simp only [List.mem_append, List.mem_cons, List.mem_singleton, List.not_mem_nil,
    or_false] at hk
  rcases hk with (rfl | rfl | rfl) | hk
  · rfl
  · rfl
  · rfl
  · split at hk
    · simp only [List.mem_singleton] at hk
      subst hk
      rfl
    · simp at hk

/-! ## The teardown of the old tags -/

theorem Extends.mono {P Q : Call → Prop} {s s1 : St} (h : Extends P s s1)
    (hpq : ∀ k, P k → Q k) : Extends Q s s1 := by
  obtain ⟨extra, ht, hp⟩ := h
  exact ⟨extra, ht, fun k hk => hpq k (hp k hk)⟩

theorem Extends.snoc {P : Call → Prop} {s s1 : St} {k : Call} (h : Extends P s s1)
    (hk : P k) : Extends P s (s1.log k) :=
  h.trans (Extends.log P s1 k hk)

theorem removeOldTag_of_ok (env : Env) (s : St) (tag : String)
    (h : (removeOldTag env s tag).2 = none) :
    removeOldTag env s tag = (⟨s.c, s.trace ++ [.removeInbound tag, .removeOutbound tag]⟩, none) := by
  unfold removeOldTag at h ⊢
  simp only [St.call] at h ⊢
  cases h1 : env.engine s.trace (.removeInbound tag) with
  | some e => simp [h1] at h
  | none =>
    simp only [h1] at h ⊢
    cases h2 : env.engine (s.log (.removeInbound tag)).trace (.removeOutbound tag) with
    | some e => simp [h2] at h
    | none => simp [St.log]

theorem addInboundForSSPlugin_noRemoval (env : Env) (s : St) (nd : NodeInfo) :
    (addInboundForSSPlugin env s nd).1.c = s.c ∧
      Extends (fun k => k.isRemoval = false) s (addInboundForSSPlugin env s nd).1 := by
  unfold addInboundForSSPlugin
  simp only [St.call]
  repeat' split
  all_goals
    try simp only [Prod.mk.injEq] at *
    try casesm* _ ∧ _
    subst_vars
    refine ⟨by first | rfl | trivial, ?_⟩
    repeat' first
      | exact Extends.refl _ _
      | refine Extends.snoc ?_ rfl

theorem addNewTag_noRemoval (env : Env) (s : St) (nd : NodeInfo) :
    (addNewTag env s nd).1.c = s.c ∧
      Extends (fun k => k.isRemoval = false) s (addNewTag env s nd).1 := by
  unfold addNewTag
  split
  · simp only [St.call]
    repeat' split
    all_goals
      try simp only [Prod.mk.injEq] at *
      try casesm* _ ∧ _
      subst_vars
      refine ⟨by first | rfl | trivial, ?_⟩
      repeat' first
        | exact Extends.refl _ _
        | refine Extends.snoc ?_ rfl
  · exact addInboundForSSPlugin_noRemoval env s nd

theorem addRelayUser_noRemoval (env : Env) (relay : RelayNodeInfo) (u : UserInfo) (key : String)
    (s : St) : Extends (fun k => k.isRemoval = false) s (addRelayUser env relay u key s).1 := by
  unfold addRelayUser
  simp only [St.call]
  repeat' split
  all_goals
    try simp only [Prod.mk.injEq] at *
    try casesm* _ ∧ _
    subst_vars
    repeat' first
      | exact Extends.refl _ _
      | refine Extends.snoc ?_ rfl

theorem addNewRelayTagLoop_noRemoval (env : Env) (relay : RelayNodeInfo)
    (users : List UserInfo) (s : St) :
    Extends (fun k => k.isRemoval = false) s (addNewRelayTagLoop env relay users s).1 := by
  induction users generalizing s with
  | nil => exact Extends.refl _ _
  | cons u rest ih =>
    unfold addNewRelayTagLoop
    split
    · split
      · exact ih s
      · rename_i userKey _
        have h2 := addRelayUser_noRemoval env relay u (relay.ServerKey ++ ":" ++ userKey) s
        rcases hr : addRelayUser env relay u (relay.ServerKey ++ ":" ++ userKey) s with ⟨s1, r⟩
        rw [hr] at h2
        cases r with
        | some e => exact h2
        | none => exact h2.trans (ih s1)
    · have h2 := addRelayUser_noRemoval env relay u u.Passwd s
      rcases hr : addRelayUser env relay u u.Passwd s with ⟨s1, r⟩
      rw [hr] at h2
      cases r with
      | some e => exact h2
      | none => exact h2.trans (ih s1)

theorem addNewRelayTag_noRemoval (env : Env) (relay : RelayNodeInfo) (users : List UserInfo)
    (s1 s2 : St) (r : Option String) (h : addNewRelayTag env s1 relay users = (s2, r)) :
    Extends (fun k => k.isRemoval = false) s1 s2 := by
  have hq : Extends (fun k => k.isRemoval = false) s1
      (addNewRelayTag env s1 relay users).1 := by
    unfold addNewRelayTag
    split
    · exact addNewRelayTagLoop_noRemoval env relay users s1
    · exact Extends.refl _ _
  rw [h] at hq
  exact hq

theorem relayRebuildStep_noRemoval (env : Env) (s : St) (l : Locals) :
    Extends (fun k => k.isRemoval = false) s (relayRebuildStep env s l).st := by
  unfold relayRebuildStep
  split
  · cases hg : env.GetRelayNodeInfo s.trace with
    | error e => exact Extends.log _ _ _ rfl
    | ok relay =>
      simp only []
      have h0 : Extends (fun k => k.isRemoval = false) s
          ⟨{ s.c with relaynodeInfo := some relay, RelayTag := buildRNodeTag relay },
            s.trace ++ [.GetRelayNodeInfo]⟩ := Extends.log _ s .GetRelayNodeInfo rfl
      split
      · rename_i s2 e heq
        exact h0.trans (addNewRelayTag_noRemoval env relay _ _ s2 _ heq)
      · rename_i s2 heq
        exact h0.trans (addNewRelayTag_noRemoval env relay _ _ s2 _ heq)
  · exact Extends.refl _ _

theorem ruleStep_noRemoval (env : Env) (s : St) (l : Locals) :
    Extends (fun k => k.isRemoval = false) s (ruleStep env s l).st := by
  rw [ruleStep_eq]
  refine ⟨ruleCalls env s, rfl, ?_⟩
  intro k hk
  unfold ruleCalls at hk
  simp only [List.mem_cons] at hk
  rcases hk with rfl | hk
  · rfl
  · split at hk
    · split at hk
      · simp only [List.mem_singleton] at hk
        subst hk
        rfl
      · simp at hk
    · simp at hk

theorem usersStep_noRemoval (env : Env) (s : St) (l : Locals) :
    Extends (fun k => k.isRemoval = false) s (usersStep env s l).1 :=
  (usersStep_extends env s l).mono
    (fun k hk => by cases k <;> first | rfl | (simp [Call.isUserCall] at hk))

theorem cycleFromRebuild_noRemoval (env : Env) (s : St) (l : Locals) :
    Extends (fun k => k.isRemoval = false) s (cycleFromRebuild env s l).1 := by
  unfold cycleFromRebuild
  have h1 := relayRebuildStep_noRemoval env s l
  cases hx : relayRebuildStep env s l with
  | done s1 r =>
    rw [hx] at h1
    exact h1
  | next s1 l1 =>
    rw [hx] at h1
    simp only [Step.bind]
    have h2 := ruleStep_noRemoval env s1 l1
    cases hy : ruleStep env s1 l1 with
    | done s2 r =>
      rw [hy] at h2
      exact h1.trans h2
    | next s2 l2 =>
      rw [hy] at h2
      exact (h1.trans h2).trans (usersStep_noRemoval env s2 l2)

theorem removeRelayTag_afterRemoval (env : Env) (tag : String) (users : List UserInfo)
    (s : St) : Extends (AfterRemoval tag) s (removeRelayTag env tag users s).1 := by
  induction users generalizing s with
  | nil => exact Extends.refl _ _
  | cons u rest ih =>
    simp only [removeRelayTag, St.call]
    have h1 : Extends (AfterRemoval tag) s
        (s.log (.removeOutbound (sprintfRelayUserTag tag u.UID))) :=
      Extends.log _ _ _ (Or.inr ⟨u.UID, rfl⟩)
    cases env.engine s.trace (.removeOutbound (sprintfRelayUserTag tag u.UID)) with
    | some e => exact h1
    | none => exact h1.trans (ih _)

theorem relayTeardownStep_afterRemoval (env : Env) (s : St) (l : Locals) :
    Extends (AfterRemoval s.c.RelayTag) s (relayTeardownStep env s l).st := by
  unfold relayTeardownStep
  split
  · have h1 := removeRelayTag_afterRemoval env s.c.RelayTag s.c.userList s
    split
    · rename_i s1 e heq
      rw [heq] at h1
      exact h1
    · rename_i s1 heq
      rw [heq] at h1
      exact h1
  · exact Extends.refl _ _

theorem cycleFromTeardown_afterRemoval (env : Env) (s : St) (l : Locals) :
    Extends (AfterRemoval s.c.RelayTag) s (cycleFromTeardown env s l).1 := by
  unfold cycleFromTeardown
  have h1 := relayTeardownStep_afterRemoval env s l
  cases hx : relayTeardownStep env s l with
  | done s1 r =>
    rw [hx] at h1
    exact h1
  | next s1 l1 =>
    rw [hx] at h1
    exact h1.trans ((cycleFromRebuild_noRemoval env s1 l1).mono (fun k hk => Or.inl hk))

theorem Extends.ofTrace {P : Call → Prop} {s s0 s1 : St} (h : Extends P s s1)
    (ht : s0.trace = s.trace) : Extends P s0 s1 := by
  unfold Extends at *
  rw [ht]
  exact h

theorem addNewTag_noRemoval_of (env : Env) (nd : NodeInfo) (s1 s2 : St) (r : Option String)
    (h : addNewTag env s1 nd = (s2, r)) :
    s2.c = s1.c ∧ Extends (fun k => k.isRemoval = false) s1 s2 := by
  have hq := addNewTag_noRemoval env s1 nd
  rw [h] at hq
  exact hq

/-- The change of descriptor when the removal of the old tag and, for a held
`Shadowsocks-Plugin` node, of its secondary tag succeed: after the removal calls
the step makes no further removal and keeps the relay tag. -/
theorem nodeChangeStep_removed (env : Env) (s : St) (l : Locals)
    (hne : s.c.nodeInfo ≠ l.newNodeInfo)
    (hold : (removeOldTag env s s.c.Tag).2 = none)
    (hsec : s.c.nodeInfo.NodeType = "Shadowsocks-Plugin" →
      (removeOldTag env (removeOldTag env s s.c.Tag).1 (sprintfDokodemoTag s.c.Tag)).2 = none) :
    Extends (fun k => k.isRemoval = false) ⟨s.c, s.trace ++ oldTagRemovals s.c⟩
        (nodeChangeStep env s l).st ∧
      (nodeChangeStep env s l).st.c.RelayTag = s.c.RelayTag := by
  have e1 := removeOldTag_of_ok env s _ hold
  rw [e1] at hsec
  unfold nodeChangeStep oldTagRemovals
  rw [if_pos hne]
  simp only [e1]
  by_cases hp : s.c.nodeInfo.NodeType = "Shadowsocks-Plugin"
  · have e2 := removeOldTag_of_ok env _ _ (hsec hp)
    simp only [hp, if_true, e2]
    split
    · rename_i s4 e heq
      obtain ⟨h1, h2⟩ := addNewTag_noRemoval_of env _ _ s4 _ heq
      exact ⟨h2.ofTrace (by simp), by simp [Step.st, h1]⟩
    · rename_i s4 heq
      obtain ⟨h1, h2⟩ := addNewTag_noRemoval_of env _ _ s4 _ heq
      have h3 : Extends (fun k => k.isRemoval = false)
          ⟨s.c, s.trace ++ ([.removeInbound s.c.Tag, .removeOutbound s.c.Tag] ++
            [.removeInbound (sprintfDokodemoTag s.c.Tag),
             .removeOutbound (sprintfDokodemoTag s.c.Tag)])⟩
          (s4.log (.DeleteInboundLimiter s.c.Tag)) :=
        Extends.snoc (h2.ofTrace (by simp)) rfl
      simp only [St.call]
      split <;>
        · rename_i heq2
          simp only [Prod.mk.injEq] at heq2
          obtain ⟨rfl, -⟩ := heq2
          exact ⟨h3, by simp [Step.st, St.log, h1]⟩
  · simp only [hp, if_false, List.append_nil]
    split
    · rename_i s4 e heq
      obtain ⟨h1, h2⟩ := addNewTag_noRemoval_of env _ _ s4 _ heq
      exact ⟨h2.ofTrace (by simp), by simp [Step.st, h1]⟩
    · rename_i s4 heq
      obtain ⟨h1, h2⟩ := addNewTag_noRemoval_of env _ _ s4 _ heq
      have h3 : Extends (fun k => k.isRemoval = false)
          ⟨s.c, s.trace ++ [.removeInbound s.c.Tag, .removeOutbound s.c.Tag]⟩
          (s4.log (.DeleteInboundLimiter s.c.Tag)) :=
        Extends.snoc (h2.ofTrace (by simp)) rfl
      simp only [St.call]
      split <;>
        · rename_i heq2
          simp only [Prod.mk.injEq] at heq2
          obtain ⟨rfl, -⟩ := heq2
          exact ⟨h3, by simp [Step.st, St.log, h1]⟩

/-- A run of `addNewTag` without error has added an inbound under the held
tag and, for a `Shadowsocks-Plugin` descriptor, a second one under the secondary
tag `"dokodemo-door_<Tag>+1"`; it adds no other inbound. -/
theorem addNewTag_inboundsAdded (env : Env) (s : St) (nd : NodeInfo)
    (h : (addNewTag env s nd).2 = none) :
    inboundsAdded (addNewTag env s nd).1.trace =
      inboundsAdded s.trace ++
        (s.c.Tag :: (if nd.NodeType = "Shadowsocks-Plugin" then [sprintfDokodemoTag s.c.Tag]
          else [])) := by
  revert h
  unfold addNewTag addInboundForSSPlugin
  simp only [St.call]
  repeat' split
  all_goals
    intro h
    first
      | (simp at h; done)
      | (try simp only [Prod.mk.injEq] at *
         try casesm* _ ∧ _
         subst_vars
         simp_all [inboundsAdded, St.log, List.filterMap_append])

theorem sprintfDokodemoTag_ne_self (t : String) : sprintfDokodemoTag t ≠ t := by
  intro h
  have h1 : ("dokodemo-door_".data ++ t.data ++ "+1".data).length = t.data.length :=
    congrArg (fun x => x.data.length) h
  have hd : "dokodemo-door_".data.length = 14 := by decide
  have hp : "+1".data.length = 2 := by decide
  simp only [List.length_append, hd, hp] at h1
  omega

/-- The name of a relay outbound, which ends in `_` and a number, is the
secondary tag of no node, which ends in `+1`. -/
theorem sprintfRelayUserTag_ne_dokodemo (relayTag : String) (uid : Int) (t : String) :
    sprintfRelayUserTag relayTag uid ≠ sprintfDokodemoTag t := by
  intro h
  have h1 : relayTag.data ++ '_' :: fmtInt uid = "dokodemo-door_".data ++ t.data ++ ['+', '1'] :=
    congrArg String.data h
  have h2 := congrArg List.reverse h1
  simp only [List.reverse_append, List.reverse_cons, List.reverse_nil, List.nil_append,
    List.singleton_append, List.cons_append, List.append_assoc] at h2
  rcases hI : (fmtInt uid).reverse with _ | ⟨c, cs⟩
  · exact fmtInt_ne_nil uid (List.reverse_eq_nil_iff.1 hI)
  · rw [hI] at h2
    simp only [List.cons_append, List.cons.injEq] at h2
    obtain ⟨-, h3⟩ := h2
    cases cs with
    | nil =>
      simp only [List.nil_append, List.cons.injEq] at h3
      exact absurd h3.1 (by decide)
    | cons c2 cs2 =>
      simp only [List.cons_append, List.cons.injEq] at h3
      have hc2 : c2 ∈ fmtInt uid := by
        rw [← List.mem_reverse, hI]
        simp
      exact (fmtInt_chars _ c2 hc2).1 h3.1

theorem cycle_to_nodeChange (env : Env) (s : St) (nd : NodeInfo) (hgo : env.tooEarly = false)
    (hnode : env.GetNodeInfo s.trace = .ok nd)
    (husers : ∀ e, env.GetUserList (s.trace ++ [.GetNodeInfo]) = .error e →
      e = "users no change") :
    ∃ lB : Locals, lB.newNodeInfo = nd ∧
      (fetchStep env s).bind removeRulesStep = .next (stateAtNodeChange env s) lB := by
  rw [fetchStep_ok env s nd hgo hnode husers]
  simp only [Step.bind, removeRulesStep, removeRules_eq, stateAtNodeChange]
  cases (fetchedUsers env s).2 with
  | true => exact ⟨⟨nd, (fetchedUsers env s).1, true, true, false⟩, rfl, by simp⟩
  | false => exact ⟨⟨nd, (fetchedUsers env s).1, false, false, false⟩, rfl, by simp⟩

theorem inboundsRemoved_append (t u : List Call) :
    inboundsRemoved (t ++ u) = inboundsRemoved t ++ inboundsRemoved u := by
  simp [inboundsRemoved, List.filterMap_append]

theorem removed_before_nodeChange (tag : String) (users : List UserInfo) (uc : Bool) :
    inboundsRemoved ([.GetNodeInfo, .GetUserList] ++
      (if uc then users.map (fun u => Call.RemoveUsersRule [buildUserTag tag u]) else [])) = [] ∧
    outboundsRemoved ([.GetNodeInfo, .GetUserList] ++
      (if uc then users.map (fun u => Call.RemoveUsersRule [buildUserTag tag u]) else [])) = [] := by
  cases uc <;>
    simp [inboundsRemoved, outboundsRemoved, List.filterMap_append, List.filterMap_map,
      List.filterMap_eq_nil_iff]

theorem removed_oldTagRemovals (c : Controller) :
    inboundsRemoved (oldTagRemovals c) =
      c.Tag :: (if c.nodeInfo.NodeType = "Shadowsocks-Plugin" then [sprintfDokodemoTag c.Tag]
        else []) ∧
    outboundsRemoved (oldTagRemovals c) =
      c.Tag :: (if c.nodeInfo.NodeType = "Shadowsocks-Plugin" then [sprintfDokodemoTag c.Tag]
        else []) := by
  unfold oldTagRemovals
  by_cases hp : c.nodeInfo.NodeType = "Shadowsocks-Plugin" <;>
    simp [hp, inboundsRemoved, outboundsRemoved]

theorem removed_afterRemoval (relayTag : String) (rest : List Call)
    (h : ∀ k ∈ rest, AfterRemoval relayTag k) :
    inboundsRemoved rest = [] ∧
      ∀ t ∈ outboundsRemoved rest, ∃ uid, t = sprintfRelayUserTag relayTag uid := by
  constructor
  · unfold inboundsRemoved
    rw [List.filterMap_eq_nil_iff]
    intro k hk
    rcases h k hk with h1 | ⟨uid, rfl⟩
    · cases k <;> first | rfl | (simp [Call.isRemoval] at h1)
    · rfl
  · intro t ht
    unfold outboundsRemoved at ht
    obtain ⟨k, hk, hkt⟩ := List.mem_filterMap.1 ht
    rcases h k hk with h1 | ⟨uid, rfl⟩
    · cases k <;> first | (simp at hkt; done) | (simp [Call.isRemoval] at h1)
    · simp only [Option.some.injEq] at hkt
      exact ⟨uid, hkt.symm⟩

/-- The calls of a cycle that changes the descriptor, when the removal of the
old tag and of a held secondary tag succeed: the fetches and rule removals, the
removal calls of the old tags, and then calls that remove nothing but relay
outbounds. -/
theorem cycleCalls_removed (env : Env) (s : St) (nd : NodeInfo)
    (hgo : env.tooEarly = false) (hnode : env.GetNodeInfo s.trace = .ok nd)
    (husers : ∀ e, env.GetUserList (s.trace ++ [.GetNodeInfo]) = .error e →
      e = "users no change")
    (hne : s.c.nodeInfo ≠ nd)
    (hold : (removeOldTag env (stateAtNodeChange env s) s.c.Tag).2 = none)
    (hsec : s.c.nodeInfo.NodeType = "Shadowsocks-Plugin" →
      (removeOldTag env (removeOldTag env (stateAtNodeChange env s) s.c.Tag).1
        (sprintfDokodemoTag s.c.Tag)).2 = none) :
    ∃ rest, (∀ k ∈ rest, AfterRemoval s.c.RelayTag k) ∧
      cycleCalls env s =
        ([.GetNodeInfo, .GetUserList] ++
          (if (fetchedUsers env s).2 then
            s.c.userList.map (fun u => Call.RemoveUsersRule [buildUserTag s.c.Tag u])
           else [])) ++ oldTagRemovals s.c ++ rest := by
  obtain ⟨lB, hnd, hB⟩ := cycle_to_nodeChange env s nd hgo hnode husers
  have hmon : nodeInfoMonitor env s =
      match nodeChangeStep env (stateAtNodeChange env s) lB with
      | .next s1 l1 => cycleFromTeardown env s1 l1
      | .done s1 r => (s1, r) := by
    unfold nodeInfoMonitor cycleToTeardown
    rw [hB]
    simp only [Step.bind]
    cases nodeChangeStep env (stateAtNodeChange env s) lB with
    | done s1 r => rfl
    | next s1 l1 => rfl
  have hrem := nodeChangeStep_removed env (stateAtNodeChange env s) lB
    (by rw [hnd]; exact hne) hold hsec
  have hfin : Extends (AfterRemoval s.c.RelayTag)
      ⟨s.c, (stateAtNodeChange env s).trace ++ oldTagRemovals s.c⟩
      (nodeInfoMonitor env s).1 := by
    rw [hmon]
    cases hx : nodeChangeStep env (stateAtNodeChange env s) lB with
    | done s1 r =>
      rw [hx] at hrem
      exact hrem.1.mono (fun k hk => Or.inl hk)
    | next s1 l1 =>
      rw [hx] at hrem
      have h2 := cycleFromTeardown_afterRemoval env s1 l1
      have h3 : s1.c.RelayTag = s.c.RelayTag := hrem.2
      rw [h3] at h2
      exact (hrem.1.mono (fun k hk => Or.inl hk)).trans h2
  obtain ⟨rest, ht, hp⟩ := hfin
  refine ⟨rest, hp, ?_⟩
  unfold cycleCalls
  rw [ht]
  simp only [stateAtNodeChange, List.append_assoc]
  exact List.drop_left _ _

/-! ## The cycle up to the relay rebuild -/

theorem removeOldTag_pre (env : Env) (s : St) (tag : String) :
    (removeOldTag env s tag).1.c = s.c ∧
      Extends (fun k => k.isPreRebuild = true) s (removeOldTag env s tag).1 := by
  unfold removeOldTag
  simp only [St.call]
  repeat' split
  all_goals
    try simp only [Prod.mk.injEq] at *
    try casesm* _ ∧ _
    subst_vars
    refine ⟨rfl, ?_⟩
    repeat' first
      | exact Extends.refl _ _
      | refine Extends.snoc ?_ rfl

theorem removeOldTag_pre_of (env : Env) (tag : String) (s1 s2 : St) (r : Option String)
    (h : removeOldTag env s1 tag = (s2, r)) :
    s2.c = s1.c ∧ Extends (fun k => k.isPreRebuild = true) s1 s2 := by
  have hq := removeOldTag_pre env s1 tag
  rw [h] at hq
  exact hq

theorem addInboundForSSPlugin_pre (env : Env) (s : St) (nd : NodeInfo) :
    (addInboundForSSPlugin env s nd).1.c = s.c ∧
      Extends (fun k => k.isPreRebuild = true) s (addInboundForSSPlugin env s nd).1 := by
  unfold addInboundForSSPlugin
  simp only [St.call]
  repeat' split
  all_goals
    try simp only [Prod.mk.injEq] at *
    try casesm* _ ∧ _
    subst_vars
    refine ⟨by first | rfl | trivial, ?_⟩
    repeat' first
      | exact Extends.refl _ _
      | refine Extends.snoc ?_ rfl

theorem addNewTag_pre (env : Env) (s : St) (nd : NodeInfo) :
    (addNewTag env s nd).1.c = s.c ∧
      Extends (fun k => k.isPreRebuild = true) s (addNewTag env s nd).1 := by
  unfold addNewTag
  split
  · simp only [St.call]
    repeat' split
    all_goals
      try simp only [Prod.mk.injEq] at *
      try casesm* _ ∧ _
      subst_vars
      refine ⟨by first | rfl | trivial, ?_⟩
      repeat' first
        | exact Extends.refl _ _
        | refine Extends.snoc ?_ rfl
  · exact addInboundForSSPlugin_pre env s nd

theorem addNewTag_pre_of (env : Env) (nd : NodeInfo) (s1 s2 : St) (r : Option String)
    (h : addNewTag env s1 nd = (s2, r)) :
    s2.c = s1.c ∧ Extends (fun k => k.isPreRebuild = true) s1 s2 := by
  have hq := addNewTag_pre env s1 nd
  rw [h] at hq
  exact hq

theorem removeRelayTag_pre (env : Env) (tag : String) (users : List UserInfo) (s : St) :
    Extends (fun k => k.isPreRebuild = true) s (removeRelayTag env tag users s).1 := by
  induction users generalizing s with
  | nil => exact Extends.refl _ _
  | cons u rest ih =>
    simp only [removeRelayTag, St.call]
    have h1 : Extends (fun k => k.isPreRebuild = true) s
        (s.log (.removeOutbound (sprintfRelayUserTag tag u.UID))) :=
      Extends.log _ _ _ rfl
    cases env.engine s.trace (.removeOutbound (sprintfRelayUserTag tag u.UID)) with
    | some e => exact h1
    | none => exact h1.trans (ih _)

/-- The two fetches, when the cycle goes on after them: the calls made and the
local variables set. -/
theorem fetchStep_next (env : Env) (s s1 : St) (l1 : Locals)
    (h : fetchStep env s = .next s1 l1) :
    s1 = ⟨s.c, s.trace ++ [.GetNodeInfo, .GetUserList]⟩ ∧
      l1.newUserInfo = (fetchedUsers env s).1 ∧ l1.usersChanged = (fetchedUsers env s).2 ∧
      l1.updateRelay = false := by
  unfold fetchStep at h
  unfold fetchedUsers
  split at h
  · cases h
  · split at h
    · cases h
    · simp only [St.log] at h
      cases hu : env.GetUserList (s.trace ++ [.GetNodeInfo]) with
      | error e =>
        simp only [hu] at h
        split at h
        · cases h
          simp
        · cases h
      | ok users =>
        simp only [hu] at h
        cases h
        simp

theorem secondaryRemoval_pre (env : Env) (s1 s2 : St) (r : Option String)
    (h : (if s1.c.nodeInfo.NodeType = "Shadowsocks-Plugin" then
        removeOldTag env s1 (sprintfDokodemoTag s1.c.Tag) else (s1, none)) = (s2, r)) :
    s2.c = s1.c ∧ Extends (fun k => k.isPreRebuild = true) s1 s2 := by
  split at h
  · exact removeOldTag_pre_of env _ _ _ _ h
  · cases h
    exact ⟨rfl, Extends.refl _ _⟩

/-- The change of descriptor, however it ends: it makes calls of lines 196-269
only and keeps Relay, RelayTag and the held user list; when the cycle goes on it
keeps the fetched user list and the mark of a changed user list, and a marked
rebuild stays marked. -/
theorem nodeChangeStep_pre (env : Env) (s : St) (l : Locals) (x : Step Locals)
    (hx : nodeChangeStep env s l = x) :
    (Extends (fun k => k.isPreRebuild = true) s x.st ∧ x.st.c.Relay = s.c.Relay ∧
      x.st.c.RelayTag = s.c.RelayTag ∧ x.st.c.userList = s.c.userList) ∧
    ∀ s1 l1, x = .next s1 l1 →
      l1.newUserInfo = l.newUserInfo ∧ l1.usersChanged = l.usersChanged ∧
        (l.updateRelay = true → l1.updateRelay = true) := by
  unfold nodeChangeStep at hx
  split at hx
  · simp only [] at hx
    split at hx
    · rename_i s1 e heq
      obtain ⟨c1, e1⟩ := removeOldTag_pre_of env _ _ _ _ heq
      subst hx
      exact ⟨⟨e1, by simp [Step.st, c1], by simp [Step.st, c1], by simp [Step.st, c1]⟩,
        fun _ _ h => by cases h⟩
    · rename_i s1 heq
      obtain ⟨c1, e1⟩ := removeOldTag_pre_of env _ _ _ _ heq
      split at hx
      · rename_i s2 e heq2
        obtain ⟨c2, e2⟩ := secondaryRemoval_pre env _ _ _ heq2
        subst hx
        exact ⟨⟨e1.trans e2, by simp [Step.st, c1, c2], by simp [Step.st, c1, c2],
          by simp [Step.st, c1, c2]⟩, fun _ _ h => by cases h⟩
      · rename_i s2 heq2
        obtain ⟨c2, e2⟩ := secondaryRemoval_pre env _ _ _ heq2
        split at hx
        · rename_i s4 e heq3
          obtain ⟨c3, e3⟩ := addNewTag_pre_of env _ _ _ _ heq3
          subst hx
          exact ⟨⟨(e1.trans e2).trans (e3.ofTrace rfl), by simp [Step.st, c1, c2, c3],
            by simp [Step.st, c1, c2, c3], by simp [Step.st, c1, c2, c3]⟩,
            fun _ _ h => by cases h⟩
        · rename_i s4 heq3
          obtain ⟨c3, e3⟩ := addNewTag_pre_of env _ _ _ _ heq3
          have e4 : Extends (fun k => k.isPreRebuild = true) s
              (s4.log (.DeleteInboundLimiter s.c.Tag)) :=
            Extends.snoc ((e1.trans e2).trans (e3.ofTrace rfl)) rfl
          simp only [St.call] at hx
          split at hx
          · rename_i heq4
            simp only [Prod.mk.injEq] at heq4
            obtain ⟨rfl, -⟩ := heq4
            subst hx
            exact ⟨⟨e4, by simp [Step.st, St.log, c1, c2, c3],
              by simp [Step.st, St.log, c1, c2, c3], by simp [Step.st, St.log, c1, c2, c3]⟩,
              fun _ _ h => by cases h⟩
          · rename_i heq4
            simp only [Prod.mk.injEq] at heq4
            obtain ⟨rfl, -⟩ := heq4
            subst hx
            refine ⟨⟨e4, by simp [Step.st, St.log, c1, c2, c3],
              by simp [Step.st, St.log, c1, c2, c3], by simp [Step.st, St.log, c1, c2, c3]⟩, ?_⟩
            intro sN lN h
            cases h
            exact ⟨rfl, rfl, fun _ => rfl⟩
  · subst hx
    exact ⟨⟨Extends.refl _ _, rfl, rfl, rfl⟩, fun _ _ h => by cases h; exact ⟨rfl, rfl, id⟩⟩

theorem relayTeardownStep_pre (env : Env) (s : St) (l : Locals) :
    Extends (fun k => k.isPreRebuild = true) s (relayTeardownStep env s l).st := by
  unfold relayTeardownStep
  split
  · have h1 := removeRelayTag_pre env s.c.RelayTag s.c.userList s
    split
    · rename_i s1 e heq
      rw [heq] at h1
      exact h1
    · rename_i s1 heq
      rw [heq] at h1
      exact h1
  · exact Extends.refl _ _

theorem stateAtNodeChange_pre (env : Env) (s : St) :
    Extends (fun k => k.isPreRebuild = true) s (stateAtNodeChange env s) := by
  refine ⟨[.GetNodeInfo, .GetUserList] ++
    (if (fetchedUsers env s).2 then
      s.c.userList.map (fun u => Call.RemoveUsersRule [buildUserTag s.c.Tag u])
     else []), by simp [stateAtNodeChange], ?_⟩
  intro k hk
  simp only [List.mem_append, List.mem_cons, List.not_mem_nil, or_false] at hk
  rcases hk with (rfl | rfl) | hk
  · rfl
  · rfl
  · split at hk
    · obtain ⟨u, -, rfl⟩ := List.mem_map.1 hk
      rfl
    · simp at hk

/-- A cycle that reaches the relay teardown (line 263): what it has kept of the
controller, the local variables it has set, and the calls it has made since the
comparison of the descriptors. -/
theorem cycleToNodeChange_next (env : Env) (s sT : St) (lT : Locals)
    (h : cycleToNodeChange env s = .next sT lT) :
    sT.c.Relay = s.c.Relay ∧ sT.c.RelayTag = s.c.RelayTag ∧ sT.c.userList = s.c.userList ∧
      lT.newUserInfo = (fetchedUsers env s).1 ∧ lT.usersChanged = (fetchedUsers env s).2 ∧
      Extends (fun k => k.isPreRebuild = true) (stateAtNodeChange env s) sT := by
  unfold cycleToNodeChange at h
  cases hf : fetchStep env s with
  | done s1 r =>
    rw [hf] at h
    cases h
  | next s1 l1 =>
    obtain ⟨rfl, hu, hc, -⟩ := fetchStep_next env s s1 l1 hf
    rw [hf] at h
    simp only [Step.bind, removeRulesStep, removeRules_eq] at h
    by_cases hch : l1.usersChanged = true
    · simp only [hch, if_true] at h
      obtain ⟨⟨e, h1, h2, h3⟩, hl⟩ := nodeChangeStep_pre env _ _ _ h
      obtain ⟨a, b, -⟩ := hl sT lT rfl
      exact ⟨h1, h2, h3, a.trans hu, b.trans (by rw [← hc, hch]),
        e.ofTrace (by simp [stateAtNodeChange, ← hc, hch])⟩
    · simp only [hch] at h
      obtain ⟨⟨e, h1, h2, h3⟩, hl⟩ := nodeChangeStep_pre env _ _ _ h
      obtain ⟨a, b, -⟩ := hl sT lT rfl
      exact ⟨h1, h2, h3, a.trans hu, b.trans hc,
        e.ofTrace (by simp [stateAtNodeChange, ← hc, hch])⟩

/-- A cycle that reaches the relay rebuild (line 272) has made calls of lines
196-269 only and works with the fetched user list. -/
theorem cycleToTeardown_next (env : Env) (s sR : St) (lR : Locals)
    (h : cycleToTeardown env s = .next sR lR) :
    lR.newUserInfo = (fetchedUsers env s).1 ∧
      Extends (fun k => k.isPreRebuild = true) s sR := by
  have hb : cycleToTeardown env s = (cycleToNodeChange env s).bind (relayTeardownStep env) := rfl
  rw [hb] at h
  cases hx : cycleToNodeChange env s with
  | done s1 r =>
    rw [hx] at h
    cases h
  | next sT lT =>
    rw [hx] at h
    simp only [Step.bind] at h
    obtain ⟨-, -, -, hu, -, e⟩ := cycleToNodeChange_next env s sT lT hx
    have hq := relayTeardownStep_quiet env sT lT
    have hp := relayTeardownStep_pre env sT lT
    rw [h] at hq hp
    exact ⟨hq.1 ▸ hu, ((stateAtNodeChange_pre env s).trans e).trans hp⟩

/-- The relay rebuild when the relay descriptor is fetched and `addNewRelayTag`
returns without error. -/
theorem relayRebuildStep_of_ok (env : Env) (s : St) (l : Locals) (relay : RelayNodeInfo)
    (hdecl : s.c.nodeInfo.Relay = true) (hmark : l.updateRelay = true)
    (hget : env.GetRelayNodeInfo s.trace = .ok relay)
    (hadd : (addNewRelayTag env (relayAdopted s relay) relay l.newUserInfo).2 = none) :
    relayRebuildStep env s l =
      .next ⟨{ s.c with relaynodeInfo := some relay, RelayTag := buildRNodeTag relay,
                        Relay := true },
             s.trace ++ rebuildCalls env relay s.c.Tag l.newUserInfo⟩ l := by
  have hfull : addNewRelayTag env (relayAdopted s relay) relay l.newUserInfo =
      (⟨(relayAdopted s relay).c, s.trace ++ rebuildCalls env relay s.c.Tag l.newUserInfo⟩,
        none) := by
    unfold addNewRelayTag at hadd ⊢
    by_cases hp : relay.NodeType = "Shadowsocks-Plugin"
    · simp [hp, relayAdopted, rebuildCalls]
    · simp only [ne_eq, hp, not_false_eq_true, if_true] at hadd ⊢
      refine Prod.ext ?_ hadd
      rw [addNewRelayTagLoop_of_ok env relay _ _ hadd]
      simp [relayAdopted, rebuildCalls, hp]
  unfold relayRebuildStep
  rw [if_pos ⟨hdecl, hmark⟩]
  simp only [hget]
  split
  · rename_i s2 e heq
    have h2 : addNewRelayTag env (relayAdopted s relay) relay l.newUserInfo = (s2, some e) := heq
    rw [hfull] at h2
    cases h2
  · rename_i s2 heq
    have h2 : addNewRelayTag env (relayAdopted s relay) relay l.newUserInfo = (s2, none) := heq
    rw [hfull] at h2
    cases h2
    rfl

/-! ## A change of descriptor to one that declares relay -/

theorem Engine.run_relayCallsFor (e : Engine) (env : Env) (relay : RelayNodeInfo)
    (relayTag tag : String) (users : List UserInfo) :
    e.run (relayCallsFor env relay relayTag tag users) =
      { e with outbounds :=
          ((relayKept env relay users).map
            (fun u => relayOutboundName relayTag u.UID)).reverse ++ e.outbounds } := by
  induction users generalizing e with
  | nil => simp [relayCallsFor, relayKept, Engine.run]
  | cons u rest ih =>
    simp only [relayCallsFor, Engine.run_append, ih, relayKept, List.filter_cons]
    cases hk : relayKey env relay u <;>
      simp [relayCallsOf, hk, Engine.run, Engine.apply]

theorem Engine.run_rebuildCalls (e : Engine) (env : Env) (relay : RelayNodeInfo)
    (tag : String) (users : List UserInfo) :
    e.run (rebuildCalls env relay tag users) =
      { e with outbounds := (relayNamesFor env relay users).reverse ++ e.outbounds } := by
  unfold rebuildCalls relayNamesFor
  by_cases hp : relay.NodeType = "Shadowsocks-Plugin"
  · simp [hp, Engine.run, Engine.apply]
  · simp only [ne_eq, hp, not_false_eq_true, if_true]
    rw [← List.singleton_append, Engine.run_append, Engine.run_relayCallsFor]
    rfl

/-- The engine after the relay teardown, the relay rebuild and the installation
of the users and of the limiter under a tag. -/
theorem Engine.run_teardown_rebuild_users (e1 : Engine) (env : Env) (relay : RelayNodeInfo)
    (names : List String) (b : UserBuild) (tag : String) (speed : Nat) (users : List UserInfo)
    (cond : Prop) [Decidable cond] (rel : Bool) :
    (((e1.run (if cond then names.map Call.removeOutbound else [])).run
        (if rel = true then rebuildCalls env relay tag users else [])).run
      [.addUsers b tag, .AddInboundLimiter tag speed users]) =
      { inbounds := e1.inbounds
        outbounds :=
          (if rel = true then (relayNamesFor env relay users).reverse else []) ++
            (if cond then e1.outbounds.filter (fun t => t ∉ names) else e1.outbounds)
        limiters := tag :: e1.limiters
        credentials := b.userInfo.map (fun u => (tag, buildUserTag tag u)) ++ e1.credentials } := by
  by_cases hc : cond <;> cases rel <;>
    simp only [hc, if_true, if_false, Engine.run_removeOutbounds, Engine.run_rebuildCalls,
      Bool.false_eq_true, List.nil_append] <;> rfl

/-- The engine after the calls of a change of descriptor: nothing is left under
the old tag, an inbound stands under the new one, and an outbound too when the
new descriptor declares no relay or is of type `Shadowsocks-Plugin`. -/
theorem nodeChange_engine_any (e : Engine) (c : Controller) (nd : NodeInfo)
    (htag : buildNodeTag nd ≠ c.Tag)
    (hdoko : sprintfDokodemoTag (buildNodeTag nd) ≠ c.Tag) :
    c.Tag ∉ (e.run (nodeChangeCalls c nd)).inbounds ∧
    c.Tag ∉ (e.run (nodeChangeCalls c nd)).outbounds ∧
    c.Tag ∉ (e.run (nodeChangeCalls c nd)).limiters ∧
    buildNodeTag nd ∈ (e.run (nodeChangeCalls c nd)).inbounds ∧
    (nd.Relay = false ∨ nd.NodeType = "Shadowsocks-Plugin" →
      buildNodeTag nd ∈ (e.run (nodeChangeCalls c nd)).outbounds) ∧
    (e.run (nodeChangeCalls c nd)).credentials = e.credentials := by
  have htag2 : ¬ c.Tag = buildNodeTag nd := fun h => htag h.symm
  have hdoko2 : ¬ c.Tag = sprintfDokodemoTag (buildNodeTag nd) := fun h => hdoko h.symm
  unfold nodeChangeCalls addNewTagCalls
  by_cases h1 : c.nodeInfo.NodeType = "Shadowsocks-Plugin" <;>
    by_cases h2 : nd.NodeType = "Shadowsocks-Plugin" <;>
    cases hr : nd.Relay <;>
    simp [h1, h2, Engine.run, Engine.apply, List.mem_filter, htag2, hdoko2]

/-- The calls of a cycle in which the descriptor changes to one of a supported
type and every call succeeds, and the Tag and the user list it leaves. -/
theorem cycleCalls_change (env : Env) (hok : AllOk env) (s : St) (nd : NodeInfo)
    (relay : RelayNodeInfo) (b : UserBuild) (hgo : env.tooEarly = false)
    (hnode : env.GetNodeInfo s.trace = .ok nd)
    (husers : ∀ e, env.GetUserList (s.trace ++ [.GetNodeInfo]) = .error e →
      e = "users no change")
    (hne : s.c.nodeInfo ≠ nd)
    (hrelay : nd.Relay = true → ∀ t, env.GetRelayNodeInfo t = .ok relay)
    (hb : buildUsers (fetchedUsers env s).1 nd = .ok b) :
    (∃ S, cycleCalls env s =
      teardownCalls env s nd ++
        ((if nd.Relay = true then
            rebuildCalls env relay (buildNodeTag nd) (fetchedUsers env s).1
          else []) ++
        (ruleCalls env S ++
          ([.addUsers b (buildNodeTag nd),
            .AddInboundLimiter (buildNodeTag nd) nd.SpeedLimit (fetchedUsers env s).1] ++
          dnsCalls env nd)))) ∧
    (nodeInfoMonitor env s).1.c.Tag = buildNodeTag nd ∧
    (nodeInfoMonitor env s).1.c.userList = (fetchedUsers env s).1 := by
  have hs : ∃ c1 : Controller, c1.Tag = buildNodeTag nd ∧
      relayRebuildStep env ⟨teardownController env s nd, s.trace ++ teardownCalls env s nd⟩
        (teardownLocals env s nd) =
      .next ⟨c1, s.trace ++ teardownCalls env s nd ++
        (if nd.Relay = true then
          rebuildCalls env relay (buildNodeTag nd) (fetchedUsers env s).1
         else [])⟩ (teardownLocals env s nd) := by
    by_cases hr : nd.Relay = true
    · refine ⟨{ teardownController env s nd with
          relaynodeInfo := some relay, RelayTag := buildRNodeTag relay, Relay := true },
        by simp [teardownController, hne], ?_⟩
      rw [relayRebuildStep_ok env hok _ _ relay (hrelay hr _)
        (by simp [teardownController, hr]) (by simp [teardownLocals, rebuildMarked, hne])]
      simp [teardownController, teardownLocals, hne, hr]
    · refine ⟨teardownController env s nd, by simp [teardownController, hne], ?_⟩
      rw [relayRebuildStep_skip env _ _ (by simp [teardownController, hr])]
      simp [hr]
  obtain ⟨c1, hc1, hs⟩ := hs
  have hmon : nodeInfoMonitor env s =
      (⟨{ c1 with userList := (fetchedUsers env s).1 },
        s.trace ++ (teardownCalls env s nd ++
          ((if nd.Relay = true then
              rebuildCalls env relay (buildNodeTag nd) (fetchedUsers env s).1
            else []) ++
          (ruleCalls env ⟨c1, s.trace ++ teardownCalls env s nd ++
              (if nd.Relay = true then
                rebuildCalls env relay (buildNodeTag nd) (fetchedUsers env s).1
               else [])⟩ ++
            ([.addUsers b (buildNodeTag nd),
              .AddInboundLimiter (buildNodeTag nd) nd.SpeedLimit (fetchedUsers env s).1] ++
            dnsCalls env nd))))⟩, .nil) := by
    rw [nodeInfoMonitor_ok_eq env hok s nd hgo hnode husers]
    unfold cycleFromRebuild
    rw [hs]
    simp only [Step.bind, ruleStep_eq]
    rw [usersStep_rebuild_ok env hok _ _ b (by simp [teardownLocals, hne])
      (by simpa [teardownLocals] using hb)]
    simp [teardownLocals, hc1]
  refine ⟨⟨⟨c1, s.trace ++ teardownCalls env s nd ++
      (if nd.Relay = true then
        rebuildCalls env relay (buildNodeTag nd) (fetchedUsers env s).1
       else [])⟩, ?_⟩, ?_, ?_⟩
  · unfold cycleCalls
    rw [hmon]
    exact List.drop_left _ _
  · rw [hmon]
    exact hc1
  · rw [hmon]

/-! ## Claims -/

/-- C1: on duplicate-free lists `compareUserList` returns, as sets, in `deleted`
exactly the records of `old` that `new` lacks and in `added` exactly the records
of `new` that `old` lacks; so `(old \ deleted) ∪ added` is `new`, no record is in
both results, and a record of both lists is in neither.  This holds for every
order in which the final `range` visits the map. -/
theorem compareUserList_diff (order : List UserInfo → List UserInfo)
    (horder : ∀ m, (order m).Perm m) (old new : List UserInfo)
    (hold : old.Nodup) (hnew : new.Nodup) :
    (∀ u, u ∈ (compareUserList order old new).1 ↔ (u ∈ old ∧ u ∉ new)) ∧
    (∀ u, u ∈ (compareUserList order old new).2 ↔ (u ∈ new ∧ u ∉ old)) ∧
    (∀ u, ((u ∈ old ∧ u ∉ (compareUserList order old new).1) ∨
        u ∈ (compareUserList order old new).2) ↔ u ∈ new) ∧
    (∀ u, ¬ (u ∈ (compareUserList order old new).1 ∧
        u ∈ (compareUserList order old new).2)) ∧
    (∀ u, u ∈ old → u ∈ new →
        u ∉ (compareUserList order old new).1 ∧ u ∉ (compareUserList order old new).2) := by
  have _ := hold
  have hdel := mem_compareUserList_deleted order horder old new
  have hadd : ∀ u, u ∈ (compareUserList order old new).2 ↔ (u ∈ new ∧ u ∉ old) := by
    intro u
    rw [mem_compareUserList_added order horder old new u]
    constructor
    · exact fun h => ⟨h.1, h.2.1⟩
    · exact fun h => ⟨h.1, h.2, List.count_eq_one_of_mem hnew h.1⟩
  refine ⟨hdel, hadd, ?_, ?_, ?_⟩
  · intro u
    rw [hdel, hadd]
    tauto
  · intro u
    rw [hdel, hadd]
    tauto
  · intro u ho hn
    rw [hdel, hadd]
    tauto

/-- C1 at `old = [userA, userB]`, `new = [userB, userC]`, the map visited in
reverse order. -/
theorem compareUserList_diff_witness :
    (∀ u, u ∈ (compareUserList List.reverse [userA, userB] [userB, userC]).1 ↔
      (u ∈ [userA, userB] ∧ u ∉ [userB, userC])) ∧
    (compareUserList List.reverse [userA, userB] [userB, userC]) = ([userA], [userC]) :=
  ⟨(compareUserList_diff List.reverse (fun m => List.reverse_perm m)
      [userA, userB] [userB, userC] (by decide) (by decide)).1, by decide⟩

/-- C2: a record that `new` holds twice and `old` does not hold is reported as
added by no run of `compareUserList`, whatever the order of the final `range`:
with `old = []` and `new = [userA, userA]` both results are empty. -/
theorem compareUserList_repeated_lost (order : List UserInfo → List UserInfo)
    (horder : ∀ m, (order m).Perm m) :
    userA ∈ [userA, userA] ∧ userA ∉ ([] : List UserInfo) ∧
      compareUserList order [] [userA, userA] = ([], []) := by
  refine ⟨by simp, by simp, ?_⟩
  have h1 : ∀ u, u ∉ (compareUserList order [] [userA, userA]).1 := by
    intro u
    rw [mem_compareUserList_deleted order horder]
    simp
  have h2 : ∀ u, u ∉ (compareUserList order [] [userA, userA]).2 := by
    intro u
    rw [mem_compareUserList_added order horder]
    rintro ⟨hu, -, hc⟩
    have : u = userA := by simpa using hu
    subst this
    simp at hc
  exact Prod.ext (List.eq_nil_iff_forall_not_mem.2 h1) (List.eq_nil_iff_forall_not_mem.2 h2)

/-- C2 with the map visited in insertion order. -/
theorem compareUserList_repeated_lost_witness :
    userA ∈ [userA, userA] ∧ userA ∉ ([] : List UserInfo) ∧
      compareUserList id [] [userA, userA] = ([], []) :=
  compareUserList_repeated_lost id (fun _ => List.Perm.refl _)

/-- C3: `buildNodeTag` determines the identity triple: two descriptors with the
same tag `"<NodeType>_<Port>_<NodeID>"` have the same NodeType, the same Port and
the same NodeID, whatever characters NodeType holds and whatever the sign of
NodeID. -/
theorem buildNodeTag_injective (d1 d2 : NodeInfo) (h : buildNodeTag d1 = buildNodeTag d2) :
    d1.NodeType = d2.NodeType ∧ d1.Port = d2.Port ∧ d1.NodeID = d2.NodeID :=
  sprintfNodeTag_inj h

/-- C3 at two descriptors that differ in the speed limit only, with an
underscore and digits in NodeType and a negative NodeID. -/
theorem buildNodeTag_injective_witness :
    buildNodeTag (sampleNode "a_1" (-3) 2 false 0) = "a_1_2_-3" ∧
    (sampleNode "a_1" (-3) 2 false 0).NodeType = (sampleNode "a_1" (-3) 2 true 9).NodeType ∧
    (sampleNode "a_1" (-3) 2 false 0).Port = (sampleNode "a_1" (-3) 2 true 9).Port ∧
    (sampleNode "a_1" (-3) 2 false 0).NodeID = (sampleNode "a_1" (-3) 2 true 9).NodeID :=
  ⟨by decide, buildNodeTag_injective (sampleNode "a_1" (-3) 2 false 0)
    (sampleNode "a_1" (-3) 2 true 9) (by decide)⟩

/-- C6: `userInfoMonitor` calls `resetTraffic` exactly when the report batch is
not empty and `ReportUserTraffic` returned no error, and then once, with the
non-nil upload and download counters of the held users whose upload or download
reading is greater than zero, in the order of the user list; the batch reported
is made of the same readings.  Otherwise, in particular when the report fails,
no `resetTraffic` call is made. -/
theorem userInfoMonitor_reset (env : Env) (s : St) :
    resetCalls (userInfoMonitor env s).1.trace =
      resetCalls s.trace ++
        (if batchOf (heldReadings env s) ≠ [] ∧
            env.engine (traceAtReport env s)
              (.ReportUserTraffic (batchOf (heldReadings env s))) = none
         then [(upCountersOf (heldReadings env s), downCountersOf (heldReadings env s))]
         else []) := by
  simp only [userInfoMonitor, collectTraffic_eq, reportIllegal_resetCalls,
    reportOnline_resetCalls, reportTraffic_resetCalls, List.nil_append]
  simp [St.call, St.log, heldReadings, traceAtReport, resetCalls_append, resetCalls,
    List.filterMap_map]

/-- C9, as the code has it: for a relay descriptor whose NodeType is not
`Shadowsocks-Plugin` and a user list with pairwise distinct UIDs, a run of
`addNewRelayTag` without error has added one relay outbound `"<RelayTag>_<UID>"`
and one routing rule, sending the UserTag to that outbound, for every user it
kept: every user when the cipher is not of the 2022 family, else the users whose
password passes the check.  The names are pairwise distinct, and a run of
`removeRelayTag` without error on the same list removes the names of all users
of the list. -/
theorem addNewRelayTag_binds (env : Env) (s : St) (relay : RelayNodeInfo)
    (users : List UserInfo) (htype : relay.NodeType ≠ "Shadowsocks-Plugin")
    (hnodup : (users.map UserInfo.UID).Nodup)
    (hok : (addNewRelayTag env s relay users).2 = none) :
    relayOutboundsAdded (addNewRelayTag env s relay users).1.trace =
      relayOutboundsAdded s.trace ++
        (relayKept env relay users).map (fun u => relayOutboundName s.c.RelayTag u.UID) ∧
    rulesAdded (addNewRelayTag env s relay users).1.trace =
      rulesAdded s.trace ++
        (relayKept env relay users).map
          (fun u => (sprintfRelayUserTag s.c.RelayTag u.UID, [buildUserTag s.c.Tag u])) ∧
    ((relayKept env relay users).map (fun u => relayOutboundName s.c.RelayTag u.UID)).Nodup ∧
    (env.is2022 relay.CypherMethod = false → relayKept env relay users = users) ∧
    (∀ s0 : St, (removeRelayTag env s.c.RelayTag users s0).2 = none →
      outboundsRemoved (removeRelayTag env s.c.RelayTag users s0).1.trace =
        outboundsRemoved s0.trace ++
          users.map (fun u => relayOutboundName s.c.RelayTag u.UID)) := by
  unfold addNewRelayTag at hok ⊢
  rw [if_pos htype] at hok ⊢
  rw [addNewRelayTagLoop_of_ok env relay users s hok]
  refine ⟨?_, ?_, relayNames_nodup env relay _ users hnodup,
    relayKept_of_not2022 env relay users, ?_⟩
  · simp only [relayOutboundsAdded_append, relayOutboundsAdded_relayCallsFor]
  · simp only [rulesAdded_append, rulesAdded_relayCallsFor]
  · intro s0 h0
    rw [removeRelayTag_of_ok env _ users s0 h0]
    simp only [outboundsRemoved_append, outboundsRemoved_map]

/-- C9 at a Vmess relay and the users `userA`, `userB`: two outbounds and two
rules. -/
theorem addNewRelayTag_binds_witness :
    relayOutboundsAdded (addNewRelayTag (okEnv (sampleNode "Vmess" 7 443 true 0) (.ok [])
        (sampleRelay "Vmess" 9 8443 "")) (sampleSt (sampleNode "Vmess" 7 443 true 0)
        "Relay_Vmess_8443_9" false []) (sampleRelay "Vmess" 9 8443 "") [userA, userB]).1.trace
      = ["Relay_Vmess_8443_9_1", "Relay_Vmess_8443_9_2"] ∧
    rulesAdded (addNewRelayTag (okEnv (sampleNode "Vmess" 7 443 true 0) (.ok [])
        (sampleRelay "Vmess" 9 8443 "")) (sampleSt (sampleNode "Vmess" 7 443 true 0)
        "Relay_Vmess_8443_9" false []) (sampleRelay "Vmess" 9 8443 "") [userA, userB]).1.trace
      = [("Relay_Vmess_8443_9_1", ["Vmess_443_7|a@x|1"]),
         ("Relay_Vmess_8443_9_2", ["Vmess_443_7|b@x|2"])] := by
  have h := addNewRelayTag_binds (okEnv (sampleNode "Vmess" 7 443 true 0) (.ok [])
      (sampleRelay "Vmess" 9 8443 "")) (sampleSt (sampleNode "Vmess" 7 443 true 0)
      "Relay_Vmess_8443_9" false []) (sampleRelay "Vmess" 9 8443 "") [userA, userB]
      (by decide) (by decide) (by decide)
  exact ⟨h.1.trans (by decide), h.2.1.trans (by decide)⟩

/-- C9 fails as stated: for a relay descriptor of type `Shadowsocks-Plugin`
`addNewRelayTag` returns without error and has added no outbound and no rule for
the two users; with a 2022 cipher and a password that fails the check it returns
without error and has skipped that user. -/
theorem addNewRelayTag_adds_fewer :
    ((addNewRelayTag (okEnv (sampleNode "Vmess" 7 443 true 0) (.ok [])
        (sampleRelay "Shadowsocks-Plugin" 9 8443 "")) (sampleSt (sampleNode "Vmess" 7 443 true 0)
        "Relay_Shadowsocks-Plugin_8443_9" false []) (sampleRelay "Shadowsocks-Plugin" 9 8443 "")
        [userA, userB]).2 = none ∧
     (addNewRelayTag (okEnv (sampleNode "Vmess" 7 443 true 0) (.ok [])
        (sampleRelay "Shadowsocks-Plugin" 9 8443 "")) (sampleSt (sampleNode "Vmess" 7 443 true 0)
        "Relay_Shadowsocks-Plugin_8443_9" false []) (sampleRelay "Shadowsocks-Plugin" 9 8443 "")
        [userA, userB]).1.trace = []) ∧
    ((addNewRelayTag (strictKeyEnv (sampleNode "Vmess" 7 443 true 0) (.ok [])
        (sampleRelay "Shadowsocks" 9 8443 "2022-blake3-aes-128-gcm"))
        (sampleSt (sampleNode "Vmess" 7 443 true 0) "Relay_Shadowsocks_8443_9" false [])
        (sampleRelay "Shadowsocks" 9 8443 "2022-blake3-aes-128-gcm") [userA, userB]).2 = none ∧
     relayOutboundsAdded (addNewRelayTag (strictKeyEnv (sampleNode "Vmess" 7 443 true 0) (.ok [])
        (sampleRelay "Shadowsocks" 9 8443 "2022-blake3-aes-128-gcm"))
        (sampleSt (sampleNode "Vmess" 7 443 true 0) "Relay_Shadowsocks_8443_9" false [])
        (sampleRelay "Shadowsocks" 9 8443 "2022-blake3-aes-128-gcm") [userA, userB]).1.trace
       = ["Relay_Shadowsocks_8443_9_2"]) := by
  refine ⟨⟨by decide, by decide⟩, ⟨by decide, by decide⟩⟩

/-- C7 fails on the code: with Relay enabled and a changed user list, a failing
`removeOutbound` in `removeRelayTag` makes `nodeInfoMonitor` return that error,
and a failing `GetRelayNodeInfo` makes it panic; neither cycle returns `nil`. -/
theorem nodeInfoMonitor_returns_error :
    (nodeInfoMonitor
      (failsOn (.removeOutbound "Relay_Vmess_8443_9_1")
        (okEnv (sampleNode "Vmess" 7 443 true 0) (.ok [userB]) (sampleRelay "Vmess" 9 8443 "")))
      (sampleSt (sampleNode "Vmess" 7 443 true 0) "Relay_Vmess_8443_9" true [userA])).2
      = .error "failed" ∧
    (nodeInfoMonitor
      (relayFetchFails
        (okEnv (sampleNode "Vmess" 7 443 true 0) (.ok [userB]) (sampleRelay "Vmess" 9 8443 "")))
      (sampleSt (sampleNode "Vmess" 7 443 true 0) "" false [userA])).2
      = .panic "unreachable" := by
  constructor <;> decide

/-- C8, as the code has it: in a cycle entered with Relay enabled that reaches
the relay teardown of line 263 (no earlier step ended the cycle) with a rebuild
marked, and in which `removeRelayTag` returns without error, the part of the
cycle before the relay rebuild removes the relay outbound `"<RelayTag>_<UID>"` of
every held user, removes the routing rule of every held user's UserTag when
`GetUserList` returned a list, fetches no relay descriptor, and leaves Relay
false for the rest of the cycle, which starts with the rebuild. -/
theorem relay_teardown_before_rebuild (env : Env) (s sT : St) (lT : Locals)
    (hreach : cycleToNodeChange env s = .next sT lT)
    (hrelay : s.c.Relay = true) (hmark : lT.updateRelay = true)
    (hrm : (removeRelayTag env sT.c.RelayTag sT.c.userList sT).2 = none) :
    ∃ s1 extra,
      cycleToTeardown env s = .next s1 lT ∧
      nodeInfoMonitor env s = cycleFromRebuild env s1 lT ∧
      s1.trace = s.trace ++ extra ∧
      s1.c.Relay = false ∧
      Call.GetRelayNodeInfo ∉ extra ∧
      (∀ u ∈ s.c.userList, sprintfRelayUserTag s.c.RelayTag u.UID ∈ outboundsRemoved extra) ∧
      ((∃ users, env.GetUserList (s.trace ++ [.GetNodeInfo]) = .ok users) →
        ∀ u ∈ s.c.userList, [buildUserTag s.c.Tag u] ∈ rulesRemoved extra) := by
  obtain ⟨hR, hT, hU, -, hc, e1, ht1, hp1⟩ := cycleToNodeChange_next env s sT lT hreach
  have hstep : relayTeardownStep env sT lT =
      .next ⟨{ sT.c with Relay := false }, sT.trace ++ sT.c.userList.map
        (fun u => Call.removeOutbound (sprintfRelayUserTag sT.c.RelayTag u.UID))⟩ lT := by
    unfold relayTeardownStep
    rw [if_pos ⟨hR.trans hrelay, hmark⟩]
    have h1 := removeRelayTag_of_ok env _ _ _ hrm
    rcases hr : removeRelayTag env sT.c.RelayTag sT.c.userList sT with ⟨s1, r⟩
    rw [hr] at h1 hrm
    simp only at h1 hrm
    subst h1 hrm
    rfl
  have hcyc : cycleToTeardown env s =
      .next ⟨{ sT.c with Relay := false }, sT.trace ++ sT.c.userList.map
        (fun u => Call.removeOutbound (sprintfRelayUserTag sT.c.RelayTag u.UID))⟩ lT := by
    show (cycleToNodeChange env s).bind (relayTeardownStep env) = _
    rw [hreach]
    exact hstep
  refine ⟨_, ([.GetNodeInfo, .GetUserList] ++
      (if (fetchedUsers env s).2 then
        s.c.userList.map (fun u => Call.RemoveUsersRule [buildUserTag s.c.Tag u])
       else [])) ++ e1 ++
      s.c.userList.map (fun u => Call.removeOutbound (sprintfRelayUserTag s.c.RelayTag u.UID)),
    hcyc, ?_, ?_, rfl, ?_, ?_, ?_⟩
  · unfold nodeInfoMonitor
    rw [hcyc]
  · simp only [ht1, stateAtNodeChange, hU, hT, List.append_assoc]
  · intro hmem
    simp only [List.mem_append, List.mem_cons, List.not_mem_nil, or_false] at hmem
    rcases hmem with ((hk | hk) | hk) | hk
    · rcases hk with hk | hk <;> cases hk
    · split at hk
      · obtain ⟨u, -, hu⟩ := List.mem_map.1 hk
        cases hu
      · simp at hk
    · exact absurd (hp1 _ hk) (by decide)
    · obtain ⟨u, -, hu⟩ := List.mem_map.1 hk
      cases hu
  · intro u hu
    rw [outboundsRemoved_append, outboundsRemoved_map]
    exact List.mem_append_right _ (List.mem_map.2 ⟨u, hu, rfl⟩)
  · rintro ⟨users, hget⟩ u hu
    have hch : (fetchedUsers env s).2 = true := by simp [fetchedUsers, hget]
    simp only [hch, if_true, rulesRemoved_append]
    refine List.mem_append_left _ (List.mem_append_left _ (List.mem_append_right _ ?_))
    simp only [rulesRemoved, List.filterMap_map, List.mem_filterMap, Function.comp]
    exact ⟨u, hu, rfl⟩

/-- C8 at a Vmess node with one held user, an unchanged descriptor and a new
user list. -/
theorem relay_teardown_before_rebuild_witness :
    ∃ s1 extra,
      cycleToTeardown (okEnv (sampleNode "Vmess" 7 443 true 0) (.ok [userB])
        (sampleRelay "Vmess" 9 8443 ""))
        (sampleSt (sampleNode "Vmess" 7 443 true 0) "Relay_Vmess_8443_9" true [userA])
        = .next s1 ⟨sampleNode "Vmess" 7 443 true 0, [userB], true, true, false⟩ ∧
      s1.c.Relay = false ∧
      s1.trace = [] ++ extra ∧
      "Relay_Vmess_8443_9_1" ∈ outboundsRemoved extra ∧
      ["Vmess_443_7|a@x|1"] ∈ rulesRemoved extra := by
  obtain ⟨s1, extra, h1, -, h3, h4, -, h6, h7⟩ :=
    relay_teardown_before_rebuild (okEnv (sampleNode "Vmess" 7 443 true 0) (.ok [userB])
      (sampleRelay "Vmess" 9 8443 ""))
      (sampleSt (sampleNode "Vmess" 7 443 true 0) "Relay_Vmess_8443_9" true [userA])
      ⟨(sampleSt (sampleNode "Vmess" 7 443 true 0) "Relay_Vmess_8443_9" true [userA]).c,
        [.GetNodeInfo, .GetUserList, .RemoveUsersRule ["Vmess_443_7|a@x|1"]]⟩
      ⟨sampleNode "Vmess" 7 443 true 0, [userB], true, true, false⟩
      (by decide) rfl rfl (by decide)
  refine ⟨s1, extra, h1, h4, h3, ?_, ?_⟩
  · have := h6 userA (by simp [sampleSt])
    have e : sprintfRelayUserTag "Relay_Vmess_8443_9" userA.UID = "Relay_Vmess_8443_9_1" := by
      decide
    rw [← e]
    exact this
  · have := h7 ⟨[userB], rfl⟩ userA (by simp [sampleSt])
    have e : buildUserTag (buildNodeTag (sampleNode "Vmess" 7 443 true 0)) userA
        = "Vmess_443_7|a@x|1" := by decide
    rw [← e]
    exact this

/-- C8 fails as stated.  When the descriptor changed and `GetUserList` signalled
"users no change", the relay outbound of the held user is removed but no routing
rule is.  When the removal of the old inbound fails, or `InboundBuilder` fails
on the new descriptor, the cycle ends before the relay teardown: no relay
outbound is removed and Relay stays true.  When the removal of the relay
outbound of `userA` fails, `removeRelayTag` returns the error: the relay
outbound of `userB` is not removed and Relay stays true. -/
theorem relay_teardown_incomplete :
    (outboundsRemoved (nodeInfoMonitor
        (okEnv (sampleNode "Vmess" 7 443 false 9) (.error "users no change")
          (sampleRelay "Vmess" 9 8443 ""))
        (sampleSt (sampleNode "Vmess" 7 443 true 0) "Relay_Vmess_8443_9" true [userA])).1.trace
      = ["Vmess_443_7", "Relay_Vmess_8443_9_1"] ∧
     rulesRemoved (nodeInfoMonitor
        (okEnv (sampleNode "Vmess" 7 443 false 9) (.error "users no change")
          (sampleRelay "Vmess" 9 8443 ""))
        (sampleSt (sampleNode "Vmess" 7 443 true 0) "Relay_Vmess_8443_9" true [userA])).1.trace
      = []) ∧
    (rebuildMarked
        (failsOn (.removeInbound "Vmess_443_7")
          (okEnv (sampleNode "Vmess" 7 443 false 9) (.ok [userB]) (sampleRelay "Vmess" 9 8443 "")))
        (sampleSt (sampleNode "Vmess" 7 443 true 0) "Relay_Vmess_8443_9" true [userA])
        (sampleNode "Vmess" 7 443 false 9) = true ∧
     outboundsRemoved (nodeInfoMonitor
        (failsOn (.removeInbound "Vmess_443_7")
          (okEnv (sampleNode "Vmess" 7 443 false 9) (.ok [userB]) (sampleRelay "Vmess" 9 8443 "")))
        (sampleSt (sampleNode "Vmess" 7 443 true 0) "Relay_Vmess_8443_9" true [userA])).1.trace
      = [] ∧
     (nodeInfoMonitor
        (failsOn (.removeInbound "Vmess_443_7")
          (okEnv (sampleNode "Vmess" 7 443 false 9) (.ok [userB]) (sampleRelay "Vmess" 9 8443 "")))
        (sampleSt (sampleNode "Vmess" 7 443 true 0) "Relay_Vmess_8443_9" true [userA])).1.c.Relay
      = true) ∧
    (outboundsRemoved (nodeInfoMonitor
        (inboundBuilderFails
          (okEnv (sampleNode "Vmess" 7 443 false 9) (.ok [userB]) (sampleRelay "Vmess" 9 8443 "")))
        (sampleSt (sampleNode "Vmess" 7 443 true 0) "Relay_Vmess_8443_9" true [userA])).1.trace
      = ["Vmess_443_7"] ∧
     (nodeInfoMonitor
        (inboundBuilderFails
          (okEnv (sampleNode "Vmess" 7 443 false 9) (.ok [userB]) (sampleRelay "Vmess" 9 8443 "")))
        (sampleSt (sampleNode "Vmess" 7 443 true 0) "Relay_Vmess_8443_9" true [userA])).1.c.Relay
      = true) ∧
    (outboundsRemoved (nodeInfoMonitor
        (failsOn (.removeOutbound "Relay_Vmess_8443_9_1")
          (okEnv (sampleNode "Vmess" 7 443 true 0) (.ok [userC]) (sampleRelay "Vmess" 9 8443 "")))
        (sampleSt (sampleNode "Vmess" 7 443 true 0) "Relay_Vmess_8443_9" true
          [userA, userB])).1.trace
      = ["Relay_Vmess_8443_9_1"] ∧
     (nodeInfoMonitor
        (failsOn (.removeOutbound "Relay_Vmess_8443_9_1")
          (okEnv (sampleNode "Vmess" 7 443 true 0) (.ok [userC]) (sampleRelay "Vmess" 9 8443 "")))
        (sampleSt (sampleNode "Vmess" 7 443 true 0) "Relay_Vmess_8443_9" true
          [userA, userB])).1.c.Relay
      = true) := by
  refine ⟨⟨by decide, by decide⟩, ⟨by decide, by decide, by decide⟩, ⟨by decide, by decide⟩,
    by decide, by decide⟩

/-- C10, as the code has it: in a cycle that reaches the relay rebuild of line
272 (no earlier step ended the cycle) with the adopted descriptor declaring
relay and a rebuild marked, in which `GetRelayNodeInfo` answers and
`addNewRelayTag` returns without error, the relay outbounds and routing rules
are built for the users of the list the cycle works with, `newUserInfo`: the
list `GetUserList` returned, and the held list only when it signalled "users no
change".  Of that list the users `addNewRelayTag` keeps get an outbound
`"<RelayTag>_<UID>"` and a rule under the Tag held at that step; a relay
descriptor of type `Shadowsocks-Plugin` gets none. -/
theorem relay_rebuild_for_fetched (env : Env) (s sR : St) (lR : Locals)
    (relay : RelayNodeInfo) (hreach : cycleToTeardown env s = .next sR lR)
    (hdecl : sR.c.nodeInfo.Relay = true) (hmark : lR.updateRelay = true)
    (hget : env.GetRelayNodeInfo sR.trace = .ok relay)
    (hadd : (addNewRelayTag env (relayAdopted sR relay) relay lR.newUserInfo).2 = none) :
    lR.newUserInfo = (fetchedUsers env s).1 ∧
    relayOutboundsAdded (nodeInfoMonitor env s).1.trace =
      relayOutboundsAdded s.trace ++
        (if relay.NodeType ≠ "Shadowsocks-Plugin" then
          (relayKept env relay (fetchedUsers env s).1).map
            (fun u => relayOutboundName (buildRNodeTag relay) u.UID)
         else []) ∧
    rulesAdded (nodeInfoMonitor env s).1.trace =
      rulesAdded s.trace ++
        (if relay.NodeType ≠ "Shadowsocks-Plugin" then
          (relayKept env relay (fetchedUsers env s).1).map
            (fun u => (sprintfRelayUserTag (buildRNodeTag relay) u.UID,
              [buildUserTag sR.c.Tag u]))
         else []) := by
  obtain ⟨hu, epre⟩ := cycleToTeardown_next env s sR lR hreach
  have ho : relayOutboundsAdded sR.trace = relayOutboundsAdded s.trace :=
    epre.filterMap_eq _ (fun k hk => by cases k <;> first | rfl | (simp [Call.isPreRebuild] at hk))
  have hr : rulesAdded sR.trace = rulesAdded s.trace :=
    epre.filterMap_eq _ (fun k hk => by cases k <;> first | rfl | (simp [Call.isPreRebuild] at hk))
  refine ⟨hu, ?_, ?_⟩
  · unfold nodeInfoMonitor
    rw [hreach]
    simp only []
    unfold cycleFromRebuild
    rw [relayRebuildStep_of_ok env sR lR relay hdecl hmark hget hadd]
    simp only [Step.bind, ruleStep_eq]
    rw [(usersStep_relayOutboundsAdded env _ lR).1]
    simp only [relayOutboundsAdded_append, (ruleCalls_relayOutboundsAdded env _).1,
      List.append_nil, rebuildCalls, ho, hu]
    by_cases hp : relay.NodeType = "Shadowsocks-Plugin"
    · simp [hp, relayOutboundsAdded]
    · simp only [ne_eq, hp, not_false_eq_true, if_true]
      rw [← relayOutboundsAdded_relayCallsFor env relay _ sR.c.Tag]
      simp [relayOutboundsAdded]
  · unfold nodeInfoMonitor
    rw [hreach]
    simp only []
    unfold cycleFromRebuild
    rw [relayRebuildStep_of_ok env sR lR relay hdecl hmark hget hadd]
    simp only [Step.bind, ruleStep_eq]
    rw [(usersStep_relayOutboundsAdded env _ lR).2]
    simp only [rulesAdded_append, (ruleCalls_relayOutboundsAdded env _).2,
      List.append_nil, rebuildCalls, hr, hu]
    by_cases hp : relay.NodeType = "Shadowsocks-Plugin"
    · simp [hp, rulesAdded]
    · simp only [ne_eq, hp, not_false_eq_true, if_true]
      rw [← rulesAdded_relayCallsFor env relay]
      simp [rulesAdded]

/-- C10 at a Vmess node that declares relay, with `userA` held and `userB`
fetched. -/
theorem relay_rebuild_for_fetched_witness :
    relayOutboundsAdded (nodeInfoMonitor
        (okEnv (sampleNode "Vmess" 7 443 true 0) (.ok [userB]) (sampleRelay "Vmess" 9 8443 ""))
        (sampleSt (sampleNode "Vmess" 7 443 true 0) "" false [userA])).1.trace
      = ["Relay_Vmess_8443_9_2"] :=
  ((relay_rebuild_for_fetched
      (okEnv (sampleNode "Vmess" 7 443 true 0) (.ok [userB]) (sampleRelay "Vmess" 9 8443 ""))
      (sampleSt (sampleNode "Vmess" 7 443 true 0) "" false [userA])
      ⟨(sampleSt (sampleNode "Vmess" 7 443 true 0) "" false [userA]).c,
        [.GetNodeInfo, .GetUserList, .RemoveUsersRule ["Vmess_443_7|a@x|1"]]⟩
      ⟨sampleNode "Vmess" 7 443 true 0, [userB], true, true, false⟩
      (sampleRelay "Vmess" 9 8443 "") (by decide) rfl rfl rfl (by decide)).2.1).trans
    (by decide)

/-- C10 fails as stated.  With `userA` held and `userB` fetched, the cycle
builds the relay outbound and the rule of `userB`, and none for the held
`userA`.  When `GetRelayNodeInfo` does not answer, the cycle panics and builds
no relay outbound and no rule; when the engine refuses the relay outbound of
`userA`, it panics before it builds the one of `userB`; and when
`InboundBuilder` fails on a changed descriptor that declares relay, the cycle
ends before the rebuild and builds none.  With `userA` and `userB` both held and
fetched, a 2022 cipher whose password check fails for `userA` gets the outbound
of `userB` only, and a relay descriptor of type `Shadowsocks-Plugin` gets
none. -/
theorem relay_rebuild_not_for_held :
    ((sampleSt (sampleNode "Vmess" 7 443 true 0) "" false [userA]).c.userList = [userA] ∧
     relayOutboundsAdded (nodeInfoMonitor
        (okEnv (sampleNode "Vmess" 7 443 true 0) (.ok [userB]) (sampleRelay "Vmess" 9 8443 ""))
        (sampleSt (sampleNode "Vmess" 7 443 true 0) "" false [userA])).1.trace
      = [relayOutboundName "Relay_Vmess_8443_9" userB.UID] ∧
     relayOutboundName "Relay_Vmess_8443_9" userA.UID ∉
      relayOutboundsAdded (nodeInfoMonitor
        (okEnv (sampleNode "Vmess" 7 443 true 0) (.ok [userB]) (sampleRelay "Vmess" 9 8443 ""))
        (sampleSt (sampleNode "Vmess" 7 443 true 0) "" false [userA])).1.trace ∧
     rulesAdded (nodeInfoMonitor
        (okEnv (sampleNode "Vmess" 7 443 true 0) (.ok [userB]) (sampleRelay "Vmess" 9 8443 ""))
        (sampleSt (sampleNode "Vmess" 7 443 true 0) "" false [userA])).1.trace
      = [("Relay_Vmess_8443_9_2", ["Vmess_443_7|b@x|2"])]) ∧
    ((nodeInfoMonitor
        (relayFetchFails
          (okEnv (sampleNode "Vmess" 7 443 true 0) (.ok [userB]) (sampleRelay "Vmess" 9 8443 "")))
        (sampleSt (sampleNode "Vmess" 7 443 true 0) "" false [userA])).2
      = .panic "unreachable" ∧
     relayOutboundsAdded (nodeInfoMonitor
        (relayFetchFails
          (okEnv (sampleNode "Vmess" 7 443 true 0) (.ok [userB]) (sampleRelay "Vmess" 9 8443 "")))
        (sampleSt (sampleNode "Vmess" 7 443 true 0) "" false [userA])).1.trace
      = [] ∧
     rulesAdded (nodeInfoMonitor
        (relayFetchFails
          (okEnv (sampleNode "Vmess" 7 443 true 0) (.ok [userB]) (sampleRelay "Vmess" 9 8443 "")))
        (sampleSt (sampleNode "Vmess" 7 443 true 0) "" false [userA])).1.trace
      = []) ∧
    ((nodeInfoMonitor
        (failsOn (.addRelayOutbound (sampleRelay "Vmess" 9 8443 "") "Relay_Vmess_8443_9" "ua"
            "a@x" "pa" 1)
          (okEnv (sampleNode "Vmess" 7 443 true 0) (.ok [userA, userB])
            (sampleRelay "Vmess" 9 8443 "")))
        (sampleSt (sampleNode "Vmess" 7 443 true 0) "" false [])).2
      = .panic "failed" ∧
     rulesAdded (nodeInfoMonitor
        (failsOn (.addRelayOutbound (sampleRelay "Vmess" 9 8443 "") "Relay_Vmess_8443_9" "ua"
            "a@x" "pa" 1)
          (okEnv (sampleNode "Vmess" 7 443 true 0) (.ok [userA, userB])
            (sampleRelay "Vmess" 9 8443 "")))
        (sampleSt (sampleNode "Vmess" 7 443 true 0) "" false [])).1.trace
      = [] ∧
     relayOutboundName "Relay_Vmess_8443_9" userB.UID ∉
      relayOutboundsAdded (nodeInfoMonitor
        (failsOn (.addRelayOutbound (sampleRelay "Vmess" 9 8443 "") "Relay_Vmess_8443_9" "ua"
            "a@x" "pa" 1)
          (okEnv (sampleNode "Vmess" 7 443 true 0) (.ok [userA, userB])
            (sampleRelay "Vmess" 9 8443 "")))
        (sampleSt (sampleNode "Vmess" 7 443 true 0) "" false [])).1.trace) ∧
    ((nodeInfoMonitor
        (inboundBuilderFails
          (okEnv (sampleNode "Vmess" 7 444 true 0) (.ok [userB]) (sampleRelay "Vmess" 9 8443 "")))
        (sampleSt (sampleNode "Vmess" 7 443 true 0) "" false [userA])).1.c.nodeInfo.Relay
      = true ∧
     relayOutboundsAdded (nodeInfoMonitor
        (inboundBuilderFails
          (okEnv (sampleNode "Vmess" 7 444 true 0) (.ok [userB]) (sampleRelay "Vmess" 9 8443 "")))
        (sampleSt (sampleNode "Vmess" 7 443 true 0) "" false [userA])).1.trace
      = []) ∧
    ((nodeInfoMonitor
        (strictKeyEnv (sampleNode "Vmess" 7 443 true 0) (.ok [userA, userB])
          (sampleRelay "Shadowsocks" 9 8443 "2022-blake3-aes-128-gcm"))
        (sampleSt (sampleNode "Vmess" 7 443 true 0) "" false [userA, userB])).2 = .nil ∧
     relayOutboundsAdded (nodeInfoMonitor
        (strictKeyEnv (sampleNode "Vmess" 7 443 true 0) (.ok [userA, userB])
          (sampleRelay "Shadowsocks" 9 8443 "2022-blake3-aes-128-gcm"))
        (sampleSt (sampleNode "Vmess" 7 443 true 0) "" false [userA, userB])).1.trace
      = ["Relay_Shadowsocks_8443_9_2"]) ∧
    ((nodeInfoMonitor
        (okEnv (sampleNode "Vmess" 7 443 true 0) (.ok [userA])
          (sampleRelay "Shadowsocks-Plugin" 9 8443 ""))
        (sampleSt (sampleNode "Vmess" 7 443 true 0) "" false [userA])).2 = .nil ∧
     relayOutboundsAdded (nodeInfoMonitor
        (okEnv (sampleNode "Vmess" 7 443 true 0) (.ok [userA])
          (sampleRelay "Shadowsocks-Plugin" 9 8443 ""))
        (sampleSt (sampleNode "Vmess" 7 443 true 0) "" false [userA])).1.trace
      = []) := by
  refine ⟨⟨rfl, by decide, by decide, by decide⟩, ⟨by decide, by decide, by decide⟩,
    ⟨by decide, by decide, by decide⟩, ⟨by decide, by decide⟩, ⟨by decide, by decide⟩,
    by decide, by decide⟩

/-- C4: in a cycle in which the fetched descriptor equals the held one and
`GetUserList` returns a list, with `(deleted, added)` the result of
`compareUserList` on the held and the fetched list: the cycle calls
`removeUsers` only when it runs to its end and `deleted` is not empty, and then
once, with the tags `"<Tag>|<Email>|<UID>"` of the deleted records under the held
Tag; it calls `addUsers` (the engine call of `addNewUser`) only for the users
built from `added` when `added` is not empty, and `UpdateInboundLimiter` only
with `added`, none of which is a held user; it makes no `AddInboundLimiter`,
`DeleteInboundLimiter`, `addInbound` or `removeInbound` call. -/
theorem nodeInfoMonitor_user_diff (env : Env) (s : St) (newUserInfo : List UserInfo)
    (hgo : env.tooEarly = false) (hnode : env.GetNodeInfo s.trace = .ok s.c.nodeInfo)
    (husers : env.GetUserList (s.trace ++ [.GetNodeInfo]) = .ok newUserInfo)
    (horder : ∀ m, (env.mapOrder m).Perm m) :
    removeUsersCalls (nodeInfoMonitor env s).1.trace =
      removeUsersCalls s.trace ++
        (if (nodeInfoMonitor env s).2 = .nil ∧
            (compareUserList env.mapOrder s.c.userList newUserInfo).1 ≠ [] then
          [((compareUserList env.mapOrder s.c.userList newUserInfo).1.map
            (fun u => sprintfUserTag s.c.Tag u.Email u.UID), s.c.Tag)]
         else []) ∧
    addUsersCalls (nodeInfoMonitor env s).1.trace =
      addUsersCalls s.trace ++
        (if (nodeInfoMonitor env s).2 = .nil ∧
            (compareUserList env.mapOrder s.c.userList newUserInfo).2 ≠ [] then
          (match buildUsers (compareUserList env.mapOrder s.c.userList newUserInfo).2
              s.c.nodeInfo with
           | .ok b => [(b, s.c.Tag)]
           | .error _ => [])
         else []) ∧
    (∀ b, buildUsers (compareUserList env.mapOrder s.c.userList newUserInfo).2 s.c.nodeInfo
        = .ok b →
      b.userInfo = (compareUserList env.mapOrder s.c.userList newUserInfo).2) ∧
    updateLimiterCalls (nodeInfoMonitor env s).1.trace =
      updateLimiterCalls s.trace ++
        (if (nodeInfoMonitor env s).2 = .nil ∧
            (compareUserList env.mapOrder s.c.userList newUserInfo).2 ≠ [] then
          [(s.c.Tag, (compareUserList env.mapOrder s.c.userList newUserInfo).2)]
         else []) ∧
    (∀ u ∈ (compareUserList env.mapOrder s.c.userList newUserInfo).2, u ∉ s.c.userList) ∧
    (nodeInfoMonitor env s).1.trace.filter Call.isNodeRebuild =
      s.trace.filter Call.isNodeRebuild := by
  have hbuild := buildUsers_userInfo
    (compareUserList env.mapOrder s.c.userList newUserInfo).2 s.c.nodeInfo
  have hfresh : ∀ u ∈ (compareUserList env.mapOrder s.c.userList newUserInfo).2,
      u ∉ s.c.userList := fun u hu =>
    ((mem_compareUserList_added env.mapOrder horder s.c.userList newUserInfo u).1 hu).2.1
  obtain ⟨s6, hext, hsame, h | h⟩ :=
    nodeInfoMonitor_users_shape env s newUserInfo hgo hnode husers
  · obtain ⟨r, hr, h⟩ := h
    rw [h]
    simp only [hr, false_and, if_false, List.append_nil]
    exact ⟨hext.filterMap_eq _ (fun k hk => (isQuiet_projections k hk).1),
      hext.filterMap_eq _ (fun k hk => (isQuiet_projections k hk).2.1), hbuild,
      hext.filterMap_eq _ (fun k hk => (isQuiet_projections k hk).2.2.1), hfresh,
      hext.filter_eq _ (fun k hk => (isQuiet_projections k hk).2.2.2)⟩
  · rw [h]
    have hu : usersStep env s6 ⟨s.c.nodeInfo, newUserInfo, true, true, false⟩ =
        (⟨{ s6.c with userList := newUserInfo },
          s6.trace ++ userDiffCalls env.mapOrder s.c newUserInfo⟩, .nil) := by
      simp [usersStep, userDiffStep_eq,
        userDiffCalls_congr env.mapOrder s.c s6.c newUserInfo hsame.1 hsame.2.1 hsame.2.2]
    rw [hu]
    obtain ⟨p1, p2, p3, p4⟩ := userDiffCalls_projections env.mapOrder s.c newUserInfo
    have q1 : removeUsersCalls s6.trace = removeUsersCalls s.trace :=
      hext.filterMap_eq _ (fun k hk => (isQuiet_projections k hk).1)
    have q2 : addUsersCalls s6.trace = addUsersCalls s.trace :=
      hext.filterMap_eq _ (fun k hk => (isQuiet_projections k hk).2.1)
    have q3 : updateLimiterCalls s6.trace = updateLimiterCalls s.trace :=
      hext.filterMap_eq _ (fun k hk => (isQuiet_projections k hk).2.2.1)
    have q4 := hext.filter_eq Call.isNodeRebuild
      (fun k hk => (isQuiet_projections k hk).2.2.2)
    refine ⟨?_, ?_, hbuild, ?_, hfresh, ?_⟩
    · have : removeUsersCalls (s6.trace ++ userDiffCalls env.mapOrder s.c newUserInfo) =
          removeUsersCalls s6.trace ++ removeUsersCalls (userDiffCalls env.mapOrder s.c newUserInfo) := by
        simp [removeUsersCalls, List.filterMap_append]
      simp only [this, q1, p1, true_and]
    · have : addUsersCalls (s6.trace ++ userDiffCalls env.mapOrder s.c newUserInfo) =
          addUsersCalls s6.trace ++ addUsersCalls (userDiffCalls env.mapOrder s.c newUserInfo) := by
        simp [addUsersCalls, List.filterMap_append]
      simp only [this, q2, p2, true_and]
    · have : updateLimiterCalls (s6.trace ++ userDiffCalls env.mapOrder s.c newUserInfo) =
          updateLimiterCalls s6.trace ++
            updateLimiterCalls (userDiffCalls env.mapOrder s.c newUserInfo) := by
        simp [updateLimiterCalls, List.filterMap_append]
      simp only [this, q3, p3, true_and]
    · simp only [List.filter_append, q4, p4, List.append_nil]

/-- C4 at the scenario of the spec: Vmess node 7 on port 443 holds `userA` and
`userB`, the next user list is `userA`, `userC`: one `removeUsers` for `userB`,
one `addUsers` and one `UpdateInboundLimiter` for `userC`. -/
theorem nodeInfoMonitor_user_diff_witness :
    removeUsersCalls (nodeInfoMonitor
        (okEnv (sampleNode "Vmess" 7 443 false 0) (.ok [userA, userC])
          (sampleRelay "Vmess" 9 8443 ""))
        (sampleSt (sampleNode "Vmess" 7 443 false 0) "" false [userA, userB])).1.trace
      = [(["Vmess_443_7|b@x|2"], "Vmess_443_7")] ∧
    addUsersCalls (nodeInfoMonitor
        (okEnv (sampleNode "Vmess" 7 443 false 0) (.ok [userA, userC])
          (sampleRelay "Vmess" 9 8443 ""))
        (sampleSt (sampleNode "Vmess" 7 443 false 0) "" false [userA, userB])).1.trace
      = [(.vmess [userC] 0, "Vmess_443_7")] ∧
    updateLimiterCalls (nodeInfoMonitor
        (okEnv (sampleNode "Vmess" 7 443 false 0) (.ok [userA, userC])
          (sampleRelay "Vmess" 9 8443 ""))
        (sampleSt (sampleNode "Vmess" 7 443 false 0) "" false [userA, userB])).1.trace
      = [("Vmess_443_7", [userC])] := by
  have h := nodeInfoMonitor_user_diff
    (okEnv (sampleNode "Vmess" 7 443 false 0) (.ok [userA, userC])
      (sampleRelay "Vmess" 9 8443 ""))
    (sampleSt (sampleNode "Vmess" 7 443 false 0) "" false [userA, userB]) [userA, userC]
    rfl rfl rfl (fun _ => List.Perm.refl _)
  exact ⟨h.1.trans (by decide), h.2.1.trans (by decide), h.2.2.2.1.trans (by decide)⟩

/-- C5, as the code has it: in a cycle in which the fetched descriptor differs
from the held one, its Tag differs from the held Tag, its NodeType is one
`addNewUser` supports, the held tags are well formed, `GetNodeInfo` and
`GetUserList` answer, `GetRelayNodeInfo` answers when the new descriptor declares
relay, and every builder and every engine call succeeds, the engine after the
calls of the cycle has no inbound and no limiter under the old Tag, has an
outbound under the old Tag only when the old Tag is the name of a relay outbound
the cycle builds, and has an inbound and a limiter under the new Tag, with a
credential for every user of the fetched user list, whether or not the new
descriptor declares relay; it has an outbound under the new Tag when the new
descriptor declares no relay or is of type `Shadowsocks-Plugin`; the controller
holds the new Tag and the fetched user list. -/
theorem node_change_rebuilds (env : Env) (hok : AllOk env) (s : St) (nd : NodeInfo)
    (relay : RelayNodeInfo) (e0 : Engine) (hgo : env.tooEarly = false)
    (hnode : env.GetNodeInfo s.trace = .ok nd)
    (husers : ∀ e, env.GetUserList (s.trace ++ [.GetNodeInfo]) = .error e →
      e = "users no change")
    (hne : s.c.nodeInfo ≠ nd) (htag : buildNodeTag nd ≠ s.c.Tag)
    (hrelay : nd.Relay = true → ∀ t, env.GetRelayNodeInfo t = .ok relay)
    (hsup : nd.NodeType ∈ supportedTypes) (hwf : s.c.WellTagged) :
    s.c.Tag ∉ (e0.run (cycleCalls env s)).inbounds ∧
    (s.c.Tag ∈ (e0.run (cycleCalls env s)).outbounds ↔
      nd.Relay = true ∧ s.c.Tag ∈ relayNamesFor env relay (fetchedUsers env s).1) ∧
    s.c.Tag ∉ (e0.run (cycleCalls env s)).limiters ∧
    buildNodeTag nd ∈ (e0.run (cycleCalls env s)).inbounds ∧
    (nd.Relay = false ∨ nd.NodeType = "Shadowsocks-Plugin" →
      buildNodeTag nd ∈ (e0.run (cycleCalls env s)).outbounds) ∧
    buildNodeTag nd ∈ (e0.run (cycleCalls env s)).limiters ∧
    (∀ u ∈ (fetchedUsers env s).1,
      (buildNodeTag nd, buildUserTag (buildNodeTag nd) u) ∈
        (e0.run (cycleCalls env s)).credentials) ∧
    (nodeInfoMonitor env s).1.c.Tag = buildNodeTag nd ∧
    (nodeInfoMonitor env s).1.c.userList = (fetchedUsers env s).1 := by
  obtain ⟨b, hb, hbu⟩ := buildUsers_supported (fetchedUsers env s).1 nd hsup
  obtain ⟨⟨S, hcc⟩, hT, hU⟩ :=
    cycleCalls_change env hok s nd relay b hgo hnode husers hne hrelay hb
  have hdoko : sprintfDokodemoTag (buildNodeTag nd) ≠ s.c.Tag := by
    rw [hwf.1]
    exact sprintfDokodemoTag_ne_buildNodeTag _ _
  obtain ⟨n1, n2, n3, n4, n5, n6⟩ := nodeChange_engine_any e0 s.c nd htag hdoko
  have hm : s.c.userList.map (fun u => Call.removeOutbound (sprintfRelayUserTag s.c.RelayTag u.UID))
      = (s.c.userList.map (fun u => sprintfRelayUserTag s.c.RelayTag u.UID)).map
          Call.removeOutbound := by
    rw [List.map_map]
    rfl
  have htd : e0.run (teardownCalls env s nd) =
      (e0.run (nodeChangeCalls s.c nd)).run
        (if s.c.Relay ∧ rebuildMarked env s nd then
          (s.c.userList.map (fun u => sprintfRelayUserTag s.c.RelayTag u.UID)).map
            Call.removeOutbound
         else []) := by
    unfold teardownCalls
    rw [if_pos hne, Engine.run_append, Engine.run_append, Engine.run_fetch_rules, hm]
  have hrun : e0.run (cycleCalls env s) =
      ((((e0.run (nodeChangeCalls s.c nd)).run
        (if s.c.Relay ∧ rebuildMarked env s nd then
          (s.c.userList.map (fun u => sprintfRelayUserTag s.c.RelayTag u.UID)).map
            Call.removeOutbound
         else [])).run
        (if nd.Relay = true then
          rebuildCalls env relay (buildNodeTag nd) (fetchedUsers env s).1
         else [])).run
        [.addUsers b (buildNodeTag nd),
         .AddInboundLimiter (buildNodeTag nd) nd.SpeedLimit (fetchedUsers env s).1]) := by
    rw [hcc, Engine.run_append, Engine.run_append, Engine.run_append, Engine.run_append,
      Engine.run_dnsCalls, Engine.run_ruleCalls, htd]
  have hnew : (s.c.Relay = true ∧ rebuildMarked env s nd = true) →
      buildNodeTag nd ∉ s.c.userList.map (fun u => sprintfRelayUserTag s.c.RelayTag u.UID) := by
    rintro ⟨hr, -⟩ hmem
    obtain ⟨r, hr2⟩ := hwf.2 hr
    obtain ⟨u, -, hu⟩ := List.mem_map.1 hmem
    rw [hr2] at hu
    exact buildNodeTag_ne_relayName nd r u.UID hsup hu.symm
  have hnewr : buildNodeTag nd ∉ relayNamesFor env relay (fetchedUsers env s).1 := by
    unfold relayNamesFor
    split
    · intro hmem
      obtain ⟨u, -, hu⟩ := List.mem_map.1 hmem
      exact buildNodeTag_ne_relayName nd relay u.UID hsup hu.symm
    · simp
  have htag2 : ¬ s.c.Tag = buildNodeTag nd := fun h => htag h.symm
  have hold : s.c.Tag ∉
      (if s.c.Relay = true ∧ rebuildMarked env s nd = true then
        (e0.run (nodeChangeCalls s.c nd)).outbounds.filter
          (fun t => t ∉ s.c.userList.map (fun u => sprintfRelayUserTag s.c.RelayTag u.UID))
       else (e0.run (nodeChangeCalls s.c nd)).outbounds) := by
    split
    · exact fun h => n2 (List.mem_filter.1 h).1
    · exact n2
  rw [Engine.run_teardown_rebuild_users] at hrun
  rw [hrun]
  refine ⟨n1, ?_, ?_, n4, ?_, ?_, ?_, hT, hU⟩
  · simp only [List.mem_append]
    constructor
    · rintro (h | h)
      · split at h
        · rename_i hr
          exact ⟨hr, List.mem_reverse.1 h⟩
        · simp at h
      · exact absurd h hold
    · rintro ⟨hr, h⟩
      left
      rw [if_pos hr]
      exact List.mem_reverse.2 h
  · simp only [List.mem_cons, not_or]
    exact ⟨htag2, n3⟩
  · intro hor
    simp only [List.mem_append]
    right
    split
    · rename_i hc
      exact List.mem_filter.2 ⟨n5 hor, by simpa using hnew hc⟩
    · exact n5 hor
  · simp
  · intro u hu
    simp only [List.mem_append, List.mem_map, hbu]
    exact Or.inl ⟨u, hu, rfl⟩

/-- C5 at a Vmess node on port 443 whose descriptor changes to a
`Shadowsocks-Plugin` node on port 444 that declares relay, with the user list
`userA`, `userC` fetched: the old Tag has no outbound, the new Tag has an
inbound and an outbound. -/
theorem node_change_rebuilds_witness :
    (sampleSt (sampleNode "Vmess" 7 443 false 0) "" false [userA, userB]).c.Tag = "Vmess_443_7" ∧
    buildNodeTag (sampleNode "Shadowsocks-Plugin" 7 444 true 0) = "Shadowsocks-Plugin_444_7" ∧
    (sampleSt (sampleNode "Vmess" 7 443 false 0) "" false [userA, userB]).c.Tag ∉
      ((sampleEngine "Vmess_443_7").run (cycleCalls
        (okEnv (sampleNode "Shadowsocks-Plugin" 7 444 true 0) (.ok [userA, userC])
          (sampleRelay "Vmess" 9 8443 ""))
        (sampleSt (sampleNode "Vmess" 7 443 false 0) "" false [userA, userB]))).outbounds ∧
    buildNodeTag (sampleNode "Shadowsocks-Plugin" 7 444 true 0) ∈
      ((sampleEngine "Vmess_443_7").run (cycleCalls
        (okEnv (sampleNode "Shadowsocks-Plugin" 7 444 true 0) (.ok [userA, userC])
          (sampleRelay "Vmess" 9 8443 ""))
        (sampleSt (sampleNode "Vmess" 7 443 false 0) "" false [userA, userB]))).inbounds ∧
    buildNodeTag (sampleNode "Shadowsocks-Plugin" 7 444 true 0) ∈
      ((sampleEngine "Vmess_443_7").run (cycleCalls
        (okEnv (sampleNode "Shadowsocks-Plugin" 7 444 true 0) (.ok [userA, userC])
          (sampleRelay "Vmess" 9 8443 ""))
        (sampleSt (sampleNode "Vmess" 7 443 false 0) "" false [userA, userB]))).outbounds := by
  have h := node_change_rebuilds
    (okEnv (sampleNode "Shadowsocks-Plugin" 7 444 true 0) (.ok [userA, userC])
      (sampleRelay "Vmess" 9 8443 ""))
    (okEnv_allOk _ _ _)
    (sampleSt (sampleNode "Vmess" 7 443 false 0) "" false [userA, userB])
    (sampleNode "Shadowsocks-Plugin" 7 444 true 0) (sampleRelay "Vmess" 9 8443 "")
    (sampleEngine "Vmess_443_7") rfl rfl
    (by intro e h; cases h) (by decide) (by decide) (fun _ _ => rfl) (by decide)
    ⟨rfl, by intro h; cases h⟩
  exact ⟨by decide, by decide, fun hm => absurd (h.2.1.1 hm).2 (by decide), h.2.2.2.1,
    h.2.2.2.2.1 (Or.inr rfl)⟩

/-- C5 fails as stated.  When the new descriptor declares relay (and is not of
type `Shadowsocks-Plugin`), `addNewTag` adds no outbound, and after a cycle in
which every call succeeds the engine has the inbound and the limiter of the new
Tag but no outbound under it.  And when the old Tag `"Relay_Vmess_1_2_3"` is the
name of the relay outbound the cycle builds for the user with UID 3 under the
relay tag `"Relay_Vmess_1_2"`, the engine has an outbound under the old Tag
after the cycle.  And when `InboundBuilder` fails on the new descriptor, no
engine call and no control-plane call fails, yet the cycle ends after the
removal of the old tag and the engine has no inbound under the new Tag. -/
theorem node_change_relay_no_outbound :
    ((nodeInfoMonitor
        (okEnv (sampleNode "Vmess" 7 444 true 0) (.ok [userA, userC])
          (sampleRelay "Vmess" 9 8443 ""))
        (sampleSt (sampleNode "Vmess" 7 443 false 0) "" false [userA, userB])).2 = .nil ∧
     buildNodeTag (sampleNode "Vmess" 7 444 true 0) ∈
      ((sampleEngine "Vmess_443_7").run (cycleCalls
        (okEnv (sampleNode "Vmess" 7 444 true 0) (.ok [userA, userC])
          (sampleRelay "Vmess" 9 8443 ""))
        (sampleSt (sampleNode "Vmess" 7 443 false 0) "" false [userA, userB]))).inbounds ∧
     buildNodeTag (sampleNode "Vmess" 7 444 true 0) ∈
      ((sampleEngine "Vmess_443_7").run (cycleCalls
        (okEnv (sampleNode "Vmess" 7 444 true 0) (.ok [userA, userC])
          (sampleRelay "Vmess" 9 8443 ""))
        (sampleSt (sampleNode "Vmess" 7 443 false 0) "" false [userA, userB]))).limiters ∧
     buildNodeTag (sampleNode "Vmess" 7 444 true 0) ∉
      ((sampleEngine "Vmess_443_7").run (cycleCalls
        (okEnv (sampleNode "Vmess" 7 444 true 0) (.ok [userA, userC])
          (sampleRelay "Vmess" 9 8443 ""))
        (sampleSt (sampleNode "Vmess" 7 443 false 0) "" false [userA, userB]))).outbounds ∧
     ((sampleEngine "Vmess_443_7").run (cycleCalls
        (okEnv (sampleNode "Vmess" 7 444 true 0) (.ok [userA, userC])
          (sampleRelay "Vmess" 9 8443 ""))
        (sampleSt (sampleNode "Vmess" 7 443 false 0) "" false [userA, userB]))).outbounds
      = ["Relay_Vmess_8443_9_3", "Relay_Vmess_8443_9_1"]) ∧
    ((sampleSt (sampleNode "Relay_Vmess_1" 3 2 false 0) "" false [userC]).c.Tag
      = "Relay_Vmess_1_2_3" ∧
     (nodeInfoMonitor
        (okEnv (sampleNode "Vmess" 7 444 true 0) (.ok [userC]) (sampleRelay "Vmess" 2 1 ""))
        (sampleSt (sampleNode "Relay_Vmess_1" 3 2 false 0) "" false [userC])).2 = .nil ∧
     (sampleSt (sampleNode "Relay_Vmess_1" 3 2 false 0) "" false [userC]).c.Tag ∈
      ((sampleEngine "Relay_Vmess_1_2_3").run (cycleCalls
        (okEnv (sampleNode "Vmess" 7 444 true 0) (.ok [userC]) (sampleRelay "Vmess" 2 1 ""))
        (sampleSt (sampleNode "Relay_Vmess_1" 3 2 false 0) "" false [userC]))).outbounds) ∧
    ((nodeInfoMonitor
        (inboundBuilderFails
          (okEnv (sampleNode "Vmess" 7 444 false 0) (.ok [userA, userC])
            (sampleRelay "Vmess" 9 8443 "")))
        (sampleSt (sampleNode "Vmess" 7 443 false 0) "" false [userA, userB])).2 = .nil ∧
     buildNodeTag (sampleNode "Vmess" 7 444 false 0) ∉
      ((sampleEngine "Vmess_443_7").run (cycleCalls
        (inboundBuilderFails
          (okEnv (sampleNode "Vmess" 7 444 false 0) (.ok [userA, userC])
            (sampleRelay "Vmess" 9 8443 "")))
        (sampleSt (sampleNode "Vmess" 7 443 false 0) "" false [userA, userB]))).inbounds) := by
  refine ⟨⟨by decide, by decide, by decide, by decide, by decide⟩,
    ⟨by decide, by decide, by decide⟩, by decide, by decide⟩

/-- C11, as the code has it: in a cycle in which the fetched descriptor differs
from the held one, the removal of the old Tag succeeds and, when the held
descriptor is of type `Shadowsocks-Plugin`, the removal of its secondary tag
succeeds as well, the inbounds removed are the one under the old Tag and, exactly
when the held descriptor's NodeType is `Shadowsocks-Plugin` (whatever the new
descriptor is), the one under `"dokodemo-door_<oldTag>+1"`; the outbound under that
secondary tag is removed in the same case and in no other.  The secondary tag is
the very string under which `addNewTag` installs the second inbound for the held
descriptor under the held Tag, so the inbound tags removed are those under which
a run of `addNewTag` without error installed inbounds. -/
theorem secondary_tag_teardown (env : Env) (s : St) (nd : NodeInfo)
    (hgo : env.tooEarly = false) (hnode : env.GetNodeInfo s.trace = .ok nd)
    (husers : ∀ e, env.GetUserList (s.trace ++ [.GetNodeInfo]) = .error e →
      e = "users no change")
    (hne : s.c.nodeInfo ≠ nd)
    (hold : (removeOldTag env (stateAtNodeChange env s) s.c.Tag).2 = none)
    (hsec : s.c.nodeInfo.NodeType = "Shadowsocks-Plugin" →
      (removeOldTag env (removeOldTag env (stateAtNodeChange env s) s.c.Tag).1
        (sprintfDokodemoTag s.c.Tag)).2 = none) :
    inboundsRemoved (cycleCalls env s) =
      s.c.Tag :: (if s.c.nodeInfo.NodeType = "Shadowsocks-Plugin" then
        [sprintfDokodemoTag s.c.Tag] else []) ∧
    (sprintfDokodemoTag s.c.Tag ∈ inboundsRemoved (cycleCalls env s) ↔
      s.c.nodeInfo.NodeType = "Shadowsocks-Plugin") ∧
    (sprintfDokodemoTag s.c.Tag ∈ outboundsRemoved (cycleCalls env s) ↔
      s.c.nodeInfo.NodeType = "Shadowsocks-Plugin") ∧
    (∀ (env0 : Env) (s0 : St), s0.c.Tag = s.c.Tag →
      (addNewTag env0 s0 s.c.nodeInfo).2 = none →
      inboundsAdded (addNewTag env0 s0 s.c.nodeInfo).1.trace =
        inboundsAdded s0.trace ++ inboundsRemoved (cycleCalls env s)) := by
  obtain ⟨rest, hrest, hcc⟩ := cycleCalls_removed env s nd hgo hnode husers hne hold hsec
  obtain ⟨r1, r2⟩ := removed_afterRemoval s.c.RelayTag rest hrest
  obtain ⟨a1, a2⟩ := removed_before_nodeChange s.c.Tag s.c.userList (fetchedUsers env s).2
  obtain ⟨o1, o2⟩ := removed_oldTagRemovals s.c
  have hin : inboundsRemoved (cycleCalls env s) =
      s.c.Tag :: (if s.c.nodeInfo.NodeType = "Shadowsocks-Plugin" then
        [sprintfDokodemoTag s.c.Tag] else []) := by
    rw [hcc, inboundsRemoved_append, inboundsRemoved_append, a1, o1, r1]
    simp
  have hout : outboundsRemoved (cycleCalls env s) =
      (s.c.Tag :: (if s.c.nodeInfo.NodeType = "Shadowsocks-Plugin" then
        [sprintfDokodemoTag s.c.Tag] else [])) ++ outboundsRemoved rest := by
    rw [hcc, outboundsRemoved_append, outboundsRemoved_append, a2, o2]
    simp
  refine ⟨hin, ?_, ?_, ?_⟩
  · rw [hin]
    by_cases hp : s.c.nodeInfo.NodeType = "Shadowsocks-Plugin"
    · simp [hp]
    · simp [hp, sprintfDokodemoTag_ne_self]
  · rw [hout]
    by_cases hp : s.c.nodeInfo.NodeType = "Shadowsocks-Plugin"
    · simp [hp]
    · simp only [hp, if_false, List.mem_append, List.mem_cons, List.not_mem_nil, or_false,
        iff_false, not_or]
      refine ⟨sprintfDokodemoTag_ne_self _, ?_⟩
      intro hmem
      obtain ⟨uid, hu⟩ := r2 _ hmem
      exact sprintfRelayUserTag_ne_dokodemo _ _ _ hu.symm
  · intro env0 s0 htag h0
    rw [addNewTag_inboundsAdded env0 s0 s.c.nodeInfo h0, hin, htag]

/-- C11 at a held `Shadowsocks-Plugin` node 7 on port 443 whose descriptor
changes to Vmess: both inbounds are removed. -/
theorem secondary_tag_teardown_witness :
    inboundsRemoved (cycleCalls
        (okEnv (sampleNode "Vmess" 7 443 false 0) (.ok [userA]) (sampleRelay "Vmess" 9 8443 ""))
        (pluginSt [userA]))
      = ["Shadowsocks-Plugin_443_7", "dokodemo-door_Shadowsocks-Plugin_443_7+1"] :=
  (secondary_tag_teardown
      (okEnv (sampleNode "Vmess" 7 443 false 0) (.ok [userA]) (sampleRelay "Vmess" 9 8443 ""))
      (pluginSt [userA]) (sampleNode "Vmess" 7 443 false 0) rfl rfl
      (by intro e h; cases h) (by decide) (by decide) (fun _ => by decide)).1.trans (by decide)

/-- C11 fails as stated: with a held `Shadowsocks-Plugin` node, a changed
descriptor and a successful removal of the old Tag, a failing `removeInbound` of
the secondary tag ends the cycle; the outbound under the secondary tag is not
removed, and the cycle returns `nil`. -/
theorem secondary_tag_left_on_failure :
    (pluginSt [userA]).c.nodeInfo.NodeType = "Shadowsocks-Plugin" ∧
    (pluginSt [userA]).c.nodeInfo ≠ sampleNode "Vmess" 7 443 false 0 ∧
    (removeOldTag
        (failsOn (.removeInbound "dokodemo-door_Shadowsocks-Plugin_443_7+1")
          (okEnv (sampleNode "Vmess" 7 443 false 0) (.ok [userA])
            (sampleRelay "Vmess" 9 8443 "")))
        (stateAtNodeChange
          (failsOn (.removeInbound "dokodemo-door_Shadowsocks-Plugin_443_7+1")
            (okEnv (sampleNode "Vmess" 7 443 false 0) (.ok [userA])
              (sampleRelay "Vmess" 9 8443 "")))
          (pluginSt [userA]))
        (pluginSt [userA]).c.Tag).2 = none ∧
    sprintfDokodemoTag (pluginSt [userA]).c.Tag = "dokodemo-door_Shadowsocks-Plugin_443_7+1" ∧
    outboundsRemoved (cycleCalls
        (failsOn (.removeInbound "dokodemo-door_Shadowsocks-Plugin_443_7+1")
          (okEnv (sampleNode "Vmess" 7 443 false 0) (.ok [userA])
            (sampleRelay "Vmess" 9 8443 "")))
        (pluginSt [userA])) = ["Shadowsocks-Plugin_443_7"] ∧
    (nodeInfoMonitor
        (failsOn (.removeInbound "dokodemo-door_Shadowsocks-Plugin_443_7+1")
          (okEnv (sampleNode "Vmess" 7 443 false 0) (.ok [userA])
            (sampleRelay "Vmess" 9 8443 "")))
        (pluginSt [userA])).2 = .nil := by
  refine ⟨by decide, by decide, by decide, by decide, by decide, by decide⟩

end XMPlus
